import Mathlib

/-!
Verification development for the vshadersystem shader toolchain.

Shallow embedding of the deterministic build pipeline: the metadata
mini-language parser, the variant-hash computer, the runtime variant-key
builder, the material-description synthesiser, the .vshbin and .vshlib
codecs, the cook orchestrator's deduplication loop and the constraint
evaluator. C++ strings and byte buffers are modelled as `List Nat`
(each element a byte value), machine integers as `Nat` reduced modulo
the type width exactly where the C++ computation wraps, and C++ `float`
or `double` fields as their 32- or 64-bit little-endian bit patterns
(the code only ever memcpy-s them onto the wire, so bit patterns are
the faithful observable).
-/

namespace VSS

/-- Byte string of an ASCII Lean string literal: one byte per character. -/
def bytes (s : String) : List Nat := s.data.map Char.toNat

deriving instance DecidableEq for Except

/-- Little-endian byte encoding, width `w` bytes (write_u32 / write_u64 in binary.cpp). -/
def leBytes (w v : Nat) : List Nat :=
  match w with
  | 0 => []
  | n + 1 => (v % 256) :: leBytes n (v / 256)

/-- Little-endian decoding of the first `w` bytes of a list (memcpy into an integer). -/
def leVal (w : Nat) (bs : List Nat) : Nat :=
  match w, bs with
  | 0, _ => 0
  | _ + 1, [] => 0
  | n + 1, b :: rest => b % 256 + 256 * leVal n rest

theorem leBytes_length (w v : Nat) : (leBytes w v).length = w := by
  induction w generalizing v with
  | zero => rfl
  | succ n ih => simp [leBytes, ih]

theorem leVal_leBytes (w v : Nat) (h : v < 256 ^ w) : leVal w (leBytes w v) = v := by
  induction w generalizing v with
  | zero => interval_cases v; rfl
  | succ n ih =>
      simp only [leBytes, leVal]
      rw [Nat.mod_mod_of_dvd _ (by norm_num)]
      rw [ih (v / 256) (by
        have hlt : v < 256 * 256 ^ n := by
          simpa [Nat.pow_succ, Nat.mul_comm] using h
        exact Nat.div_lt_of_lt_mul (by simpa [Nat.mul_comm] using hlt))]
      exact Nat.mod_add_div v 256

theorem leBytes_lt (w v : Nat) : ∀ b ∈ leBytes w v, b < 256 := by
  induction w generalizing v with
  | zero => intro b hb; simp [leBytes] at hb
  | succ n ih =>
      intro b hb
      simp only [leBytes, List.mem_cons] at hb
      rcases hb with h | h
      · exact h ▸ Nat.mod_lt _ (by norm_num)
      · exact ih _ b h

-- ------------------------------------------------------------
-- XXH64 (the hashing primitive used through vshadersystem/hash.hpp;
-- the library delegates to the external xxhash implementation of the
-- published XXH64 algorithm, embedded here over Nat modulo 2^64)
-- ------------------------------------------------------------

/-- 2^64, the modulus of all 64-bit arithmetic below. -/
def M64 : Nat := 18446744073709551616

def xxPrime1 : Nat := 11400714785074694791
def xxPrime2 : Nat := 14029467366897019727
def xxPrime3 : Nat := 1609587929392839161
def xxPrime4 : Nat := 9650029242287828579
def xxPrime5 : Nat := 2870177450012600261

/-- 64-bit left rotation (operand assumed < 2^64). -/
def rotl64 (x r : Nat) : Nat := ((x <<< r) % M64) ||| (x >>> (64 - r))

/-- XXH64 round function. -/
def xxRound (acc lane : Nat) : Nat :=
  rotl64 ((acc + lane * xxPrime2) % M64) 31 * xxPrime1 % M64

/-- XXH64 merge step for the four stripe accumulators. -/
def xxMerge (acc v : Nat) : Nat :=
  ((acc ^^^ xxRound 0 v) * xxPrime1 + xxPrime4) % M64

/-- XXH64 final avalanche. -/
def xxAvalanche (h : Nat) : Nat :=
  let h1 := (h ^^^ (h >>> 33)) * xxPrime2 % M64
  let h2 := (h1 ^^^ (h1 >>> 29)) * xxPrime3 % M64
  h2 ^^^ (h2 >>> 32)

/-- XXH64 main loop over 32-byte stripes; returns the four accumulators
and the remaining bytes. -/
def xxStripes (a1 a2 a3 a4 : Nat) (bs : List Nat) : Nat × Nat × Nat × Nat × List Nat :=
  if bs.length ≥ 32 then
    xxStripes
      (xxRound a1 (leVal 8 bs))
      (xxRound a2 (leVal 8 (bs.drop 8)))
      (xxRound a3 (leVal 8 (bs.drop 16)))
      (xxRound a4 (leVal 8 (bs.drop 24)))
      (bs.drop 32)
  else
    (a1, a2, a3, a4, bs)
termination_by bs.length
decreasing_by simp only [List.length_drop]; omega

/-- XXH64 tail loop over the remaining 8-byte words. -/
def xxTail8 (h : Nat) (bs : List Nat) : Nat × List Nat :=
  if bs.length ≥ 8 then
    xxTail8 ((rotl64 (h ^^^ xxRound 0 (leVal 8 bs)) 27 * xxPrime1 + xxPrime4) % M64) (bs.drop 8)
  else
    (h, bs)
termination_by bs.length
decreasing_by simp only [List.length_drop]; omega

/-- XXH64 tail loop over the remaining single bytes. -/
def xxTail1 (h : Nat) (bs : List Nat) : Nat :=
  match bs with
  | [] => h
  | b :: rest => xxTail1 (rotl64 (h ^^^ b % 256 * xxPrime5 % M64) 11 * xxPrime1 % M64) rest

/-- XXH64 of a byte list with a seed (XXH64 in hash.hpp). -/
def xxh64 (seed : Nat) (bs : List Nat) : Nat :=
  let len := bs.length
  let hrem :=
    if len ≥ 32 then
      let s := xxStripes ((seed + xxPrime1 + xxPrime2) % M64) ((seed + xxPrime2) % M64)
        (seed % M64) ((seed + M64 - xxPrime1) % M64) bs
      match s with
      | (a1, a2, a3, a4, rest) =>
          let h0 := (rotl64 a1 1 + rotl64 a2 7 + rotl64 a3 12 + rotl64 a4 18) % M64
          (xxMerge (xxMerge (xxMerge (xxMerge h0 a1) a2) a3) a4, rest)
    else
      ((seed + xxPrime5) % M64, bs)
  match hrem with
  | (h0, rest) =>
    let h1 := (h0 + len) % M64
    let t8 := xxTail8 h1 rest
    match t8 with
    | (h2, rest2) =>
      let t4 :=
        if rest2.length ≥ 4 then
          ((rotl64 (h2 ^^^ leVal 4 rest2 * xxPrime1 % M64) 23 * xxPrime2 + xxPrime3) % M64,
            rest2.drop 4)
        else (h2, rest2)
      match t4 with
      | (h3, rest3) => xxAvalanche (xxTail1 h3 rest3)

/-- Hash of a string, seed 0 (the xxhash64 overloads in hash.hpp). -/
def xxh64s (s : String) : Nat := xxh64 0 (bytes s)

/-- Hash of a u32 word array: the words are laid out little-endian, 4 bytes
each (xxhash64_words in hash.hpp). -/
def xxh64_words (ws : List Nat) : Nat := xxh64 0 (ws.flatMap (leBytes 4))

-- ------------------------------------------------------------
-- Core data records (types.hpp). Enumerations are represented by their
-- stable integer encodings (the wire format depends only on those
-- values); std::string fields by byte lists; float fields by their
-- 32-bit (or 64-bit for double) bit patterns.
-- ------------------------------------------------------------

/-- RenderState (types.hpp). Bools stay Bool; enum fields carry the
underlying integer; the two depth-bias floats carry their f32 bit
patterns. -/
structure RenderState where
  depthTest : Bool := true
  depthWrite : Bool := true
  depthFunc : Nat := 3
  cull : Nat := 1
  blendEnable : Bool := false
  srcColor : Nat := 1
  dstColor : Nat := 0
  colorOp : Nat := 0
  srcAlpha : Nat := 1
  dstAlpha : Nat := 0
  alphaOp : Nat := 0
  colorMask : Nat := 15
  alphaToCoverage : Bool := false
  depthBiasFactor : Nat := 0
  depthBiasUnits : Nat := 0
deriving DecidableEq, Repr

/-- DescriptorBinding (types.hpp). -/
structure DescriptorBinding where
  name : List Nat := []
  set : Nat := 0
  binding : Nat := 0
  count : Nat := 1
  kind : Nat := 7
  stageFlags : Nat := 0
  runtimeSized : Bool := false
deriving DecidableEq, Repr

/-- BlockMember (types.hpp); type defaults to ParamType::eFloat = 0. -/
structure BlockMember where
  name : List Nat := []
  offset : Nat := 0
  size : Nat := 0
  type : Nat := 0
deriving DecidableEq, Repr

/-- BlockLayout (types.hpp). -/
structure BlockLayout where
  name : List Nat := []
  set : Nat := 0
  binding : Nat := 0
  size : Nat := 0
  isPushConstant : Bool := false
  stageFlags : Nat := 0
  members : List BlockMember := []
deriving DecidableEq, Repr

/-- ShaderReflection (types.hpp). -/
structure ShaderReflection where
  descriptors : List DescriptorBinding := []
  blocks : List BlockLayout := []
  hasLocalSize : Bool := false
  localSizeX : Nat := 1
  localSizeY : Nat := 1
  localSizeZ : Nat := 1
deriving DecidableEq, Repr

/-- ParamRange (types.hpp): min = 0.0 and max = 1.0 as f64 bit patterns. -/
structure ParamRange where
  min : Nat := 0
  max : Nat := 4607182418800017408
deriving DecidableEq, Repr

/-- ParamDefault (types.hpp): 64-byte zeroed value buffer. -/
structure ParamDefault where
  type : Nat := 0
  valueBuffer : List Nat := List.replicate 64 0
deriving DecidableEq, Repr

/-- MaterialParamDesc (types.hpp). -/
structure MaterialParamDesc where
  name : List Nat := []
  type : Nat := 0
  offset : Nat := 0
  size : Nat := 0
  semantic : Nat := 0
  hasDefault : Bool := false
  defaultValue : ParamDefault := {}
  hasRange : Bool := false
  range : ParamRange := {}
deriving DecidableEq, Repr

/-- MaterialTextureDesc (types.hpp); type defaults to TextureType::eUnknown = 4. -/
structure MaterialTextureDesc where
  name : List Nat := []
  type : Nat := 4
  set : Nat := 0
  binding : Nat := 0
  count : Nat := 1
  semantic : Nat := 0
deriving DecidableEq, Repr

/-- MaterialDescription (types.hpp). -/
structure MaterialDescription where
  materialBlockName : List Nat := bytes "Material"
  materialParamSize : Nat := 0
  params : List MaterialParamDesc := []
  textures : List MaterialTextureDesc := []
  renderState : RenderState := {}
deriving DecidableEq, Repr

/-- ShaderBinary. Modelled from the spec for the two hash fields: the
packaged types.hpp lacks the shaderIdHash and variantHash members that
binary.cpp and system.cpp assign (spec section 3 lists them as optional
fields defaulting to 0). stage carries the wire byte; the ten stages
encode as 0..9 per types.hpp, the default being eFrag = 1. -/
structure ShaderBinary where
  contentHash : Nat := 0
  spirvHash : Nat := 0
  shaderIdHash : Nat := 0
  variantHash : Nat := 0
  stage : Nat := 1
  reflection : ShaderReflection := {}
  materialDesc : MaterialDescription := {}
  spirv : List Nat := []
deriving DecidableEq, Repr

-- ------------------------------------------------------------
-- .vshbin codec (binary.cpp)
-- ------------------------------------------------------------

/-- write_u8: the value is a uint8_t at every call site. -/
def wU8 (v : Nat) : List Nat := leBytes 1 v

/-- write_u32 (binary.cpp). -/
def wU32 (v : Nat) : List Nat := leBytes 4 v

/-- write_u64 (binary.cpp). -/
def wU64 (v : Nat) : List Nat := leBytes 8 v

/-- write_string (binary.cpp): u32 length then the raw bytes. -/
def wStr (s : List Nat) : List Nat := wU32 s.length ++ s

/-- read_u8 (binary.cpp). -/
def rdU8 (bs : List Nat) : Option (Nat × List Nat) :=
  match bs with
  | [] => none
  | b :: rest => some (b % 256, rest)

/-- read_u32 (binary.cpp): requires 4 bytes, decodes little-endian. -/
def rdU32 (bs : List Nat) : Option (Nat × List Nat) :=
  if 4 ≤ bs.length then some (leVal 4 bs, bs.drop 4) else none

/-- read_u64 (binary.cpp). -/
def rdU64 (bs : List Nat) : Option (Nat × List Nat) :=
  if 8 ≤ bs.length then some (leVal 8 bs, bs.drop 8) else none

/-- read_string (binary.cpp): u32 length then that many raw bytes. -/
def rdStr (bs : List Nat) : Option (List Nat × List Nat) :=
  match rdU32 bs with
  | none => none
  | some (n, r) => if n ≤ r.length then some (r.take n, r.drop n) else none

/-- tag_u32 (binary.cpp): the four ASCII characters read as a u32. -/
def tag_u32 (s : String) : Nat := leVal 4 (bytes s)

/-- One descriptor record of serialize_reflection (binary.cpp). -/
def wDescriptor (d : DescriptorBinding) : List Nat :=
  wStr d.name ++ wU32 d.set ++ wU32 d.binding ++ wU32 d.count ++
  wU8 d.kind ++ wU32 d.stageFlags ++ wU8 (if d.runtimeSized then 1 else 0)

/-- One block-member record of serialize_reflection (binary.cpp): name,
offset and size only; the member type byte is not persisted. -/
def wMember (m : BlockMember) : List Nat :=
  wStr m.name ++ wU32 m.offset ++ wU32 m.size

/-- One block record of serialize_reflection (binary.cpp). -/
def wBlock (b : BlockLayout) : List Nat :=
  wStr b.name ++ wU32 b.set ++ wU32 b.binding ++ wU32 b.size ++
  wU8 (if b.isPushConstant then 1 else 0) ++ wU32 b.stageFlags ++
  wU32 b.members.length ++ b.members.flatMap wMember

/-- serialize_reflection (binary.cpp): descriptors then blocks; the
local-size fields are not persisted. -/
def serialize_reflection (r : ShaderReflection) : List Nat :=
  wU32 r.descriptors.length ++ r.descriptors.flatMap wDescriptor ++
  wU32 r.blocks.length ++ r.blocks.flatMap wBlock

/-- Reads `n` descriptors (the first loop of deserialize_reflection). -/
def rdDescriptors (n : Nat) (bs : List Nat) :
    Except String (List DescriptorBinding × List Nat) :=
  match n with
  | 0 => .ok ([], bs)
  | k + 1 =>
    match rdStr bs with
    | none => .error "REFL: failed to read descriptor name."
    | some (name, r1) =>
    match rdU32 r1 with
    | none => .error "REFL: failed to read descriptor set."
    | some (st, r2) =>
    match rdU32 r2 with
    | none => .error "REFL: failed to read descriptor binding."
    | some (bnd, r3) =>
    match rdU32 r3 with
    | none => .error "REFL: failed to read descriptor count."
    | some (cnt, r4) =>
    match rdU8 r4 with
    | none => .error "REFL: failed to read descriptor kind."
    | some (kind, r5) =>
    match rdU32 r5 with
    | none => .error "REFL: failed to read descriptor stage flags."
    | some (sf, r6) =>
    match rdU8 r6 with
    | none => .error "REFL: failed to read descriptor runtime sized flag."
    | some (rts, r7) =>
    match rdDescriptors k r7 with
    | .error e => .error e
    | .ok (ds, rest) =>
        .ok ({ name := name, set := st, binding := bnd, count := cnt,
               kind := kind, stageFlags := sf, runtimeSized := rts ≠ 0 } :: ds, rest)

/-- Reads `n` block members (the inner loop of deserialize_reflection);
the member type is not on the wire and stays at its default. -/
def rdMembers (n : Nat) (bs : List Nat) :
    Except String (List BlockMember × List Nat) :=
  match n with
  | 0 => .ok ([], bs)
  | k + 1 =>
    match rdStr bs with
    | none => .error "REFL: failed to read member name."
    | some (name, r1) =>
    match rdU32 r1 with
    | none => .error "REFL: failed to read member offset."
    | some (off, r2) =>
    match rdU32 r2 with
    | none => .error "REFL: failed to read member size."
    | some (sz, r3) =>
    match rdMembers k r3 with
    | .error e => .error e
    | .ok (ms, rest) => .ok ({ name := name, offset := off, size := sz } :: ms, rest)

/-- Reads `n` blocks (the second loop of deserialize_reflection). -/
def rdBlocks (n : Nat) (bs : List Nat) :
    Except String (List BlockLayout × List Nat) :=
  match n with
  | 0 => .ok ([], bs)
  | k + 1 =>
    match rdStr bs with
    | none => .error "REFL: failed to read block name."
    | some (name, r1) =>
    match rdU32 r1 with
    | none => .error "REFL: failed to read block set."
    | some (st, r2) =>
    match rdU32 r2 with
    | none => .error "REFL: failed to read block binding."
    | some (bnd, r3) =>
    match rdU32 r3 with
    | none => .error "REFL: failed to read block size."
    | some (sz, r4) =>
    match rdU8 r4 with
    | none => .error "REFL: failed to read block push flag."
    | some (isPush, r5) =>
    match rdU32 r5 with
    | none => .error "REFL: failed to read block stage flags."
    | some (sf, r6) =>
    match rdU32 r6 with
    | none => .error "REFL: failed to read member count."
    | some (mc, r7) =>
    match rdMembers mc r7 with
    | .error e => .error e
    | .ok (ms, r8) =>
    match rdBlocks k r8 with
    | .error e => .error e
    | .ok (bls, rest) =>
        .ok ({ name := name, set := st, binding := bnd, size := sz,
               isPushConstant := isPush ≠ 0, stageFlags := sf, members := ms } :: bls, rest)

/-- deserialize_reflection (binary.cpp); trailing bytes are an error. -/
def deserialize_reflection (bs : List Nat) : Except String ShaderReflection :=
  match rdU32 bs with
  | none => .error "REFL: failed to read descriptor count."
  | some (dc, r1) =>
  match rdDescriptors dc r1 with
  | .error e => .error e
  | .ok (ds, r2) =>
  match rdU32 r2 with
  | none => .error "REFL: failed to read block count."
  | some (bc, r3) =>
  match rdBlocks bc r3 with
  | .error e => .error e
  | .ok (bls, rest) =>
    if rest = [] then .ok { descriptors := ds, blocks := bls }
    else .error "REFL: trailing bytes detected."

/-- The fourteen render-state bytes and two f32 bias patterns of
serialize_mdesc (binary.cpp). -/
def wRenderState (rs : RenderState) : List Nat :=
  wU8 (if rs.depthTest then 1 else 0) ++
  wU8 (if rs.depthWrite then 1 else 0) ++
  wU8 rs.depthFunc ++
  wU8 rs.cull ++
  wU8 (if rs.blendEnable then 1 else 0) ++
  wU8 rs.srcColor ++ wU8 rs.dstColor ++ wU8 rs.colorOp ++
  wU8 rs.srcAlpha ++ wU8 rs.dstAlpha ++ wU8 rs.alphaOp ++
  wU8 rs.colorMask ++
  wU8 (if rs.alphaToCoverage then 1 else 0) ++
  leBytes 4 rs.depthBiasFactor ++ leBytes 4 rs.depthBiasUnits

/-- One material-param record of serialize_mdesc (binary.cpp). -/
def wParam (p : MaterialParamDesc) : List Nat :=
  wStr p.name ++ wU8 p.type ++ wU32 p.offset ++ wU32 p.size ++ wU32 p.semantic ++
  wU8 (if p.hasDefault then 1 else 0) ++
  (if p.hasDefault then wU8 p.defaultValue.type ++ p.defaultValue.valueBuffer else []) ++
  wU8 (if p.hasRange then 1 else 0) ++
  (if p.hasRange then leBytes 8 p.range.min ++ leBytes 8 p.range.max else [])

/-- One material-texture record of serialize_mdesc (binary.cpp). -/
def wTexture (t : MaterialTextureDesc) : List Nat :=
  wStr t.name ++ wU8 t.type ++ wU32 t.set ++ wU32 t.binding ++ wU32 t.count ++
  wU32 t.semantic

/-- serialize_mdesc (binary.cpp). -/
def serialize_mdesc (m : MaterialDescription) : List Nat :=
  wStr m.materialBlockName ++ wU32 m.materialParamSize ++
  wRenderState m.renderState ++
  wU32 m.params.length ++ m.params.flatMap wParam ++
  wU32 m.textures.length ++ m.textures.flatMap wTexture

/-- Reads `n` material params (first loop of deserialize_mdesc). -/
def rdParams (n : Nat) (bs : List Nat) :
    Except String (List MaterialParamDesc × List Nat) :=
  match n with
  | 0 => .ok ([], bs)
  | k + 1 =>
    match rdStr bs with
    | none => .error "MDES: failed to read param name."
    | some (name, r1) =>
    match rdU8 r1 with
    | none => .error "MDES: failed to read param type."
    | some (ty, r2) =>
    match rdU32 r2 with
    | none => .error "MDES: failed to read param offset."
    | some (off, r3) =>
    match rdU32 r3 with
    | none => .error "MDES: failed to read param size."
    | some (sz, r4) =>
    match rdU32 r4 with
    | none => .error "MDES: failed to read param semantic."
    | some (sem, r5) =>
    match rdU8 r5 with
    | none => .error "MDES: failed to read hasDefault."
    | some (hd, r6) =>
    match (if hd ≠ 0 then
             match rdU8 r6 with
             | none => .error "MDES: failed to read default type."
             | some (dt, r7) =>
               if 64 ≤ r7.length then
                 .ok (({ type := dt, valueBuffer := r7.take 64 } : ParamDefault), r7.drop 64)
               else .error "MDES: failed to read default values."
           else .ok (({} : ParamDefault), r6) :
            Except String (ParamDefault × List Nat)) with
    | .error e => .error e
    | .ok (dv, r8) =>
    match rdU8 r8 with
    | none => .error "MDES: failed to read hasRange."
    | some (hr, r9) =>
    match (if hr ≠ 0 then
             if 16 ≤ r9.length then
               .ok (({ min := leVal 8 r9, max := leVal 8 (r9.drop 8) } : ParamRange),
                 r9.drop 16)
             else .error "MDES: failed to read range."
           else .ok (({} : ParamRange), r9) :
            Except String (ParamRange × List Nat)) with
    | .error e => .error e
    | .ok (rg, r10) =>
    match rdParams k r10 with
    | .error e => .error e
    | .ok (ps, rest) =>
        .ok ({ name := name, type := ty, offset := off, size := sz, semantic := sem,
               hasDefault := hd ≠ 0, defaultValue := dv,
               hasRange := hr ≠ 0, range := rg } :: ps, rest)

/-- Reads `n` material textures (second loop of deserialize_mdesc). -/
def rdTextures (n : Nat) (bs : List Nat) :
    Except String (List MaterialTextureDesc × List Nat) :=
  match n with
  | 0 => .ok ([], bs)
  | k + 1 =>
    match rdStr bs with
    | none => .error "MDES: failed to read texture name."
    | some (name, r1) =>
    match rdU8 r1 with
    | none => .error "MDES: failed to read texture type."
    | some (ty, r2) =>
    match rdU32 r2 with
    | none => .error "MDES: failed to read texture set."
    | some (st, r3) =>
    match rdU32 r3 with
    | none => .error "MDES: failed to read texture binding."
    | some (bnd, r4) =>
    match rdU32 r4 with
    | none => .error "MDES: failed to read texture count."
    | some (cnt, r5) =>
    match rdU32 r5 with
    | none => .error "MDES: failed to read texture semantic."
    | some (sem, r6) =>
    match rdTextures k r6 with
    | .error e => .error e
    | .ok (ts, rest) =>
        .ok ({ name := name, type := ty, set := st, binding := bnd, count := cnt,
               semantic := sem } :: ts, rest)

/-- Reads the thirteen render-state bytes and the two f32 bias patterns
(the fixed sequence of read_u8 calls of deserialize_mdesc followed by
the combined depth-bias bounds check). -/
def rdRenderState (bs : List Nat) : Except String (RenderState × List Nat) :=
  match rdU8 bs with
  | none => .error "MDES: failed to read depthTest."
  | some (depthTest, r1) =>
  match rdU8 r1 with
  | none => .error "MDES: failed to read depthWrite."
  | some (depthWrite, r2) =>
  match rdU8 r2 with
  | none => .error "MDES: failed to read depthFunc."
  | some (depthFunc, r3) =>
  match rdU8 r3 with
  | none => .error "MDES: failed to read cull."
  | some (cull, r4) =>
  match rdU8 r4 with
  | none => .error "MDES: failed to read blendEnable."
  | some (blendEnable, r5) =>
  match rdU8 r5 with
  | none => .error "MDES: failed to read srcColor."
  | some (srcColor, r6) =>
  match rdU8 r6 with
  | none => .error "MDES: failed to read dstColor."
  | some (dstColor, r7) =>
  match rdU8 r7 with
  | none => .error "MDES: failed to read colorOp."
  | some (colorOp, r8) =>
  match rdU8 r8 with
  | none => .error "MDES: failed to read srcAlpha."
  | some (srcAlpha, r9) =>
  match rdU8 r9 with
  | none => .error "MDES: failed to read dstAlpha."
  | some (dstAlpha, r10) =>
  match rdU8 r10 with
  | none => .error "MDES: failed to read alphaOp."
  | some (alphaOp, r11) =>
  match rdU8 r11 with
  | none => .error "MDES: failed to read colorMask."
  | some (colorMask, r12) =>
  match rdU8 r12 with
  | none => .error "MDES: failed to read alphaToCoverage."
  | some (alphaToCoverage, r13) =>
    if 8 ≤ r13.length then
      .ok ({ depthTest := depthTest ≠ 0
             depthWrite := depthWrite ≠ 0
             depthFunc := depthFunc
             cull := cull
             blendEnable := blendEnable ≠ 0
             srcColor := srcColor
             dstColor := dstColor
             colorOp := colorOp
             srcAlpha := srcAlpha
             dstAlpha := dstAlpha
             alphaOp := alphaOp
             colorMask := colorMask
             alphaToCoverage := alphaToCoverage ≠ 0
             depthBiasFactor := leVal 4 r13
             depthBiasUnits := leVal 4 (r13.drop 4) }, r13.drop 8)
    else .error "MDES: failed to read depthBias."

/-- deserialize_mdesc (binary.cpp); trailing bytes are an error. -/
def deserialize_mdesc (bs : List Nat) : Except String MaterialDescription :=
  match rdStr bs with
  | none => .error "MDES: failed to read material block name."
  | some (blockName, r1) =>
  match rdU32 r1 with
  | none => .error "MDES: failed to read material param size."
  | some (mps, r2) =>
  match rdRenderState r2 with
  | .error e => .error e
  | .ok (rs, r3) =>
  match rdU32 r3 with
  | none => .error "MDES: failed to read param count."
  | some (pc, r4) =>
  match rdParams pc r4 with
  | .error e => .error e
  | .ok (ps, r5) =>
  match rdU32 r5 with
  | none => .error "MDES: failed to read texture count."
  | some (tc, r6) =>
  match rdTextures tc r6 with
  | .error e => .error e
  | .ok (ts, rest) =>
    if rest = [] then
      .ok { materialBlockName := blockName, materialParamSize := mps,
            params := ps, textures := ts, renderState := rs }
    else .error "MDES: trailing bytes detected."

/-- The 8-byte .vshbin magic "VSHBIN\0\0". -/
def vshbinMagic : List Nat := bytes "VSHBIN" ++ [0, 0]

/-- Groups a byte list into little-endian u32 words (the SPRV memcpy). -/
def wordsOfBytes (bs : List Nat) : List Nat :=
  match bs with
  | [] => []
  | b :: rest => leVal 4 (b :: rest) :: wordsOfBytes (rest.drop 3)
termination_by bs.length
decreasing_by simp only [List.length_drop, List.length_cons]; omega

/-- write_vshbin (binary.cpp): 32-byte header, then SIDH and VKEY chunks
when the respective hash is non-zero, then SPRV, REFL, MDES. -/
def write_vshbin (bin : ShaderBinary) : Except String (List Nat) :=
  if bin.spirv = [] then
    .error "Cannot write .vshbin with empty SPIR-V."
  else
    let wchunk := fun (tag : String) (payload : List Nat) =>
      wU32 (tag_u32 tag) ++ wU32 payload.length ++ payload
    .ok (vshbinMagic ++ wU32 2 ++ wU32 (bin.stage % 256) ++
      wU64 bin.contentHash ++ wU64 bin.spirvHash ++
      (if bin.shaderIdHash ≠ 0 then wchunk "SIDH" (wU64 bin.shaderIdHash) else []) ++
      (if bin.variantHash ≠ 0 then wchunk "VKEY" (wU64 bin.variantHash) else []) ++
      wchunk "SPRV" (bin.spirv.flatMap (leBytes 4)) ++
      wchunk "REFL" (serialize_reflection bin.reflection) ++
      wchunk "MDES" (serialize_mdesc bin.materialDesc))

/-- Mutable state of the read_vshbin chunk loop. -/
structure ChunkState where
  out : ShaderBinary
  hasVKEY : Bool := false
  hasSPRV : Bool := false
  hasREFL : Bool := false
  hasMDES : Bool := false
deriving DecidableEq, Repr

/-- Dispatch of one chunk in read_vshbin; unknown tags are skipped. -/
def applyChunk (st : ChunkState) (tag : Nat) (payload : List Nat) :
    Except String ChunkState :=
  if tag = tag_u32 "SIDH" then
    if payload.length ≠ 8 then .error "SIDH chunk size invalid."
    else .ok { st with out := { st.out with shaderIdHash := leVal 8 payload } }
  else if tag = tag_u32 "VKEY" then
    if payload.length ≠ 8 then .error "VKEY chunk size invalid."
    else .ok { st with out := { st.out with variantHash := leVal 8 payload },
                       hasVKEY := true }
  else if tag = tag_u32 "SPRV" then
    if payload.length % 4 ≠ 0 then .error "SPRV chunk size not aligned."
    else .ok { st with out := { st.out with spirv := wordsOfBytes payload },
                       hasSPRV := true }
  else if tag = tag_u32 "REFL" then
    match deserialize_reflection payload with
    | .error e => .error e
    | .ok r => .ok { st with out := { st.out with reflection := r }, hasREFL := true }
  else if tag = tag_u32 "MDES" then
    match deserialize_mdesc payload with
    | .error e => .error e
    | .ok m => .ok { st with out := { st.out with materialDesc := m }, hasMDES := true }
  else
    .ok st

/-- The while-loop of read_vshbin over the chunk region. -/
def readChunks (st : ChunkState) (bs : List Nat) : Except String ChunkState :=
  if bs.length = 0 then .ok st
  else if bs.length < 4 then .error "Failed to read chunk tag."
  else if bs.length < 8 then .error "Failed to read chunk size."
  else
    let tag := leVal 4 bs
    let size := leVal 4 (bs.drop 4)
    let r2 := bs.drop 8
    if size ≤ r2.length then
      match applyChunk st tag (r2.take size) with
      | .error e => .error e
      | .ok st2 => readChunks st2 (r2.drop size)
    else .error "Chunk size exceeds file bounds."
termination_by bs.length
decreasing_by simp only [List.length_drop]; omega

/-- read_vshbin (binary.cpp). -/
def read_vshbin (bs : List Nat) : Except String ShaderBinary :=
  if bs.length < 32 then .error "File too small to be a valid .vshbin."
  else if (bs.take 8).map (· % 256) ≠ vshbinMagic then
    .error "Invalid magic header (not a .vshbin)."
  else
    let version := leVal 4 (bs.drop 8)
    let flags := leVal 4 (bs.drop 12)
    let contentHash := leVal 8 (bs.drop 16)
    let spirvHash := leVal 8 (bs.drop 24)
    if version < 1 ∨ version > 2 then .error "Unsupported .vshbin version."
    else
      let st0 : ChunkState :=
        { out := { contentHash := contentHash, spirvHash := spirvHash,
                   stage := flags % 256 } }
      match readChunks st0 (bs.drop 32) with
      | .error e => .error e
      | .ok st =>
        if st.hasSPRV = false then .error "Missing SPRV chunk."
        else if st.hasREFL = false then .error "Missing REFL chunk."
        else if st.hasMDES = false then .error "Missing MDES chunk."
        else if st.out.spirvHash ≠ 0 ∧ xxh64_words st.out.spirv ≠ st.out.spirvHash then
          .error "SPIR-V hash mismatch."
        else .ok st.out

-- ------------------------------------------------------------
-- .vshlib codec (library.cpp)
-- ------------------------------------------------------------

/-- ShaderStage::eUnknown. Modelled from the spec: the packaged types.hpp
declares only the ten stages with wire indices 0..9 (matching spec
section 3), yet library.hpp and variant_key.hpp use an eUnknown default;
it is modelled as the next value, 10. -/
def stageUnknown : Nat := 10

/-- ShaderLibraryEntry (library.hpp); stage carries the wire byte. -/
structure ShaderLibraryEntry where
  keyHash : Nat := 0
  stage : Nat := stageUnknown
  blob : List Nat := []
deriving DecidableEq, Repr

/-- ShaderLibraryTOCEntry (library.hpp). -/
structure ShaderLibraryTOCEntry where
  keyHash : Nat := 0
  stage : Nat := stageUnknown
  offset : Nat := 0
  size : Nat := 0
deriving DecidableEq, Repr

/-- ShaderLibrary (library.hpp). -/
structure ShaderLibrary where
  entries : List ShaderLibraryTOCEntry := []
  blobData : List Nat := []
  engineKeywordsVkw : List Nat := []
deriving DecidableEq, Repr

/-- The 8-byte .vshlib magic "VSHLIB\0\0". -/
def vshlibMagic : List Nat := bytes "VSHLIB" ++ [0, 0]

/-- The entry-ordering predicate used by both write_vslib and the cook
command: keyHash ascending, then stage ascending. std::sort is modelled
by the stable mergeSort; the comparator agrees with the source on all
pairs with distinct keys. -/
def entryLe (a b : ShaderLibraryEntry) : Bool :=
  a.keyHash < b.keyHash ∨ (a.keyHash = b.keyHash ∧ a.stage ≤ b.stage)

/-- The validation/accumulation loop of write_vslib: walks the sorted
entries, rejecting unknown stages and zero key hashes, and builds the
file TOC records and the concatenated blob region. Offsets start right
after the 56-byte packed header (sizeof(FileHeader); the header comment
in library.hpp says 48 bytes, but the packed struct is 56 bytes and the
code uses sizeof throughout). -/
def buildVslibToc (off : Nat) :
    List ShaderLibraryEntry → Except String (List ShaderLibraryTOCEntry × List Nat)
  | [] => .ok ([], [])
  | e :: rest =>
    if e.stage = stageUnknown then
      .error "VSHLIB entry has unknown shader stage."
    else if e.keyHash = 0 then
      .error "VSHLIB entry has keyHash=0 (reserved/invalid)."
    else
      match buildVslibToc (off + e.blob.length) rest with
      | .error err => .error err
      | .ok (toc, blob) =>
          .ok ({ keyHash := e.keyHash, stage := e.stage, offset := off,
                 size := e.blob.length } :: toc, e.blob ++ blob)

/-- One packed 32-byte FileEntry record (library.cpp). -/
def wTocEntry (t : ShaderLibraryTOCEntry) : List Nat :=
  wU64 t.keyHash ++ wU8 t.stage ++ List.replicate 7 0 ++ wU64 t.offset ++ wU64 t.size

/-- The 56-byte packed .vshlib FileHeader (library.cpp). -/
def wVslibHeader (entryCount tocOffset tocSize kwOffset kwSize : Nat) : List Nat :=
  vshlibMagic ++ wU32 2 ++ wU32 0 ++ wU32 entryCount ++ wU32 0 ++
  wU64 tocOffset ++ wU64 tocSize ++ wU64 kwOffset ++ wU64 kwSize

/-- write_vslib (library.cpp), as the sequence of write_all calls the
function performs on the freshly opened destination file: header, blob
region, TOC, optional engine-keywords bytes (empty writes are skipped
by the source's emptiness guards). -/
def write_vslib_chunks (inEntries : List ShaderLibraryEntry) (kw : List Nat) :
    Except String (List (List Nat)) :=
  let entries := inEntries.mergeSort entryLe
  match buildVslibToc 56 entries with
  | .error e => .error e
  | .ok (toc, blobData) =>
    let tocOffset := 56 + blobData.length
    let tocSize := toc.length * 32
    let kwOffset := tocOffset + tocSize
    let kwSize := kw.length
    let hdr := wVslibHeader toc.length tocOffset tocSize
      (if kwSize > 0 then kwOffset else 0) kwSize
    .ok ([hdr] ++ (if blobData = [] then [] else [blobData]) ++
      (if toc = [] then [] else [toc.flatMap wTocEntry]) ++
      (if kwSize > 0 then [kw] else []))

/-- The complete .vshlib byte image produced by write_vslib. -/
def write_vslib (inEntries : List ShaderLibraryEntry) (kw : List Nat) :
    Except String (List Nat) :=
  match write_vslib_chunks inEntries kw with
  | .error e => .error e
  | .ok cs => .ok cs.flatten

/-- Reads `n` packed 32-byte TOC records (the read_all of the TOC region
followed by the per-record unpacking in read_vslib). -/
def rdTocEntries (n : Nat) (bs : List Nat) :
    Except String (List ShaderLibraryTOCEntry × List Nat) :=
  match n with
  | 0 => .ok ([], bs)
  | k + 1 =>
    if 32 ≤ bs.length then
      let t : ShaderLibraryTOCEntry :=
        { keyHash := leVal 8 bs, stage := (bs.drop 8).headD 0 % 256,
          offset := leVal 8 (bs.drop 16), size := leVal 8 (bs.drop 24) }
      match rdTocEntries k (bs.drop 32) with
      | .error e => .error e
      | .ok (ts, rest) => .ok (t :: ts, rest)
    else .error "Failed to read file."

/-- The per-entry offset validation loop of read_vslib. -/
def checkTocEntries (blobEnd : Nat) : List ShaderLibraryTOCEntry → Except String Unit
  | [] => .ok ()
  | t :: rest =>
    if t.offset < 56 ∨ t.offset + t.size > blobEnd then
      .error "VSHLIB entry blob out of range."
    else checkTocEntries blobEnd rest

/-- read_vslib (library.cpp) over the file's byte image. -/
def read_vslib (bs : List Nat) : Except String ShaderLibrary :=
  if bs.length < 56 then .error "Failed to read file."
  else if (bs.take 8).map (· % 256) ≠ vshlibMagic then .error "Invalid VSHLIB magic."
  else if leVal 4 (bs.drop 8) ≠ 2 then .error "Unsupported VSHLIB version."
  else
    let entryCount := leVal 4 (bs.drop 16)
    let tocOffset := leVal 8 (bs.drop 24)
    let tocSize := leVal 8 (bs.drop 32)
    let kwOffset := leVal 8 (bs.drop 40)
    let kwSize := leVal 8 (bs.drop 48)
    let fileSize := bs.length
    if tocOffset + tocSize > fileSize then .error "VSHLIB TOC out of file range."
    else if kwOffset ≠ 0 ∧ kwOffset + kwSize > fileSize then
      .error "VSHLIB keywords chunk out of file range."
    else if kwOffset ≠ 0 ∧ kwOffset < tocOffset + tocSize then
      .error "VSHLIB keywords chunk overlaps TOC."
    else
      let blobData := (bs.drop 56).take (tocOffset - 56)
      if blobData.length ≠ tocOffset - 56 then .error "Failed to read file."
      else
        match rdTocEntries entryCount (bs.drop tocOffset) with
        | .error e => .error e
        | .ok (toc, _) =>
          match checkTocEntries tocOffset toc with
          | .error e => .error e
          | .ok _ =>
            let kwBytes :=
              if kwOffset ≠ 0 ∧ kwSize > 0 then (bs.drop kwOffset).take kwSize else []
            if kwOffset ≠ 0 ∧ kwSize > 0 ∧ kwBytes.length ≠ kwSize then
              .error "Failed to read file."
            else
              .ok { entries := toc, blobData := blobData, engineKeywordsVkw := kwBytes }

/-- The lookup scan of extract_vslib_blob (library.cpp). -/
def extract_scan (blobData : List Nat) (keyHash stage : Nat) :
    List ShaderLibraryTOCEntry → Except String (List Nat)
  | [] => .error "VSHLIB entry not found."
  | e :: rest =>
    if e.keyHash = keyHash ∧ e.stage = stage then
      let rel := e.offset - 56
      if rel + e.size > blobData.length then .error "VSHLIB entry out of range."
      else .ok ((blobData.drop rel).take e.size)
    else extract_scan blobData keyHash stage rest

/-- extract_vslib_blob (library.cpp). -/
def extract_vslib_blob (lib : ShaderLibrary) (keyHash stage : Nat) :
    Except String (List Nat) :=
  extract_scan lib.blobData keyHash stage lib.entries

-- ------------------------------------------------------------
-- File-system effect trace of write_vslib. The source opens the
-- destination path directly with std::ofstream (truncating it) and then
-- issues the write_all calls in order; there is no temporary file and no
-- rename. A reader that opens the path after `k` of those effects sees
-- exactly the bytes written so far.
-- ------------------------------------------------------------

/-- Observable content of the destination file after the truncating open
and the first `k` write calls of write_vslib. -/
def vslibContentAfter (chunks : List (List Nat)) (k : Nat) : List Nat :=
  (chunks.take k).flatten

-- ------------------------------------------------------------
-- Library cook orchestrator: the dedup-signature loop of cmd_cook
-- (vshaderc/main.cpp, the accumulation over built variants)
-- ------------------------------------------------------------

/-- The library key for a built binary: variantHash when non-zero,
contentHash otherwise (cmd_cook). -/
def cook_key (bin : ShaderBinary) : Nat :=
  if bin.variantHash ≠ 0 then bin.variantHash else bin.contentHash

/-- The dedup signature: hash of the 8 keyHash bytes with the stage byte
as seed (cmd_cook). -/
def cook_sig (keyHash stage : Nat) : Nat := xxh64 (stage % 256) (leBytes 8 keyHash)

/-- The accumulation loop of cmd_cook over the successfully built
variants: compute each signature and stop the whole build with the
duplicate-entry error when a signature repeats; otherwise record it and
append the entry. -/
def cook_accumulate (tasks : List ShaderLibraryEntry) (seen : List Nat)
    (acc : List ShaderLibraryEntry) : Except String (List ShaderLibraryEntry) :=
  match tasks with
  | [] => .ok acc.reverse
  | e :: rest =>
    let sig := cook_sig e.keyHash e.stage
    if sig ∈ seen then .error "cook: duplicate entry"
    else cook_accumulate rest (sig :: seen) (e :: acc)

-- ------------------------------------------------------------
-- Keyword model (keywords.hpp) and constraint evaluator
-- (keyword_expr.cpp). Error messages are paraphrased without quote
-- characters; no claim depends on message text.
-- ------------------------------------------------------------

/-- KeywordDecl (keywords.hpp): dispatch, scope and value-kind carry
their underlying integer encodings (permutation 0 / runtime 1 /
specialization 2; shader-local 0 / global 1 / material 2 / pass 3;
bool 0 / enum 1). -/
structure KeywordDecl where
  name : List Nat := []
  dispatch : Nat := 1
  scope : Nat := 0
  kind : Nat := 0
  defaultValue : Nat := 0
  enumValues : List (List Nat) := []
  constraint : List Nat := []
deriving DecidableEq, Repr

/-- KeywordValueContext (keyword_expr.hpp): both unordered_maps are
modelled as association lists with unique keys (inserts overwrite);
the decl pointers are never null in the source's construction, so the
null skip in resolveIdent is not represented. -/
structure KeywordValueContext where
  values : List (List Nat × Nat) := []
  decls : List (List Nat × KeywordDecl) := []
deriving DecidableEq, Repr

/-- Map lookup for an association list with unique keys. -/
def mapFind? {β : Type} (m : List (List Nat × β)) (k : List Nat) : Option β :=
  match m with
  | [] => none
  | (k2, v) :: rest => if k2 = k then some v else mapFind? rest k

/-- Map insert-or-overwrite for an association list with unique keys. -/
def mapInsert {β : Type} (m : List (List Nat × β)) (k : List Nat) (v : β) :
    List (List Nat × β) :=
  match m with
  | [] => [(k, v)]
  | (k2, v2) :: rest => if k2 = k then (k2, v) :: rest else (k2, v2) :: mapInsert rest k v

/-- C isspace over byte values. -/
def isSpaceB (c : Nat) : Bool := c = 32 ∨ (9 ≤ c ∧ c ≤ 13)

/-- C isdigit over byte values. -/
def isDigitB (c : Nat) : Bool := 48 ≤ c ∧ c ≤ 57

/-- C isalpha over byte values. -/
def isAlphaB (c : Nat) : Bool := (65 ≤ c ∧ c ≤ 90) ∨ (97 ≤ c ∧ c ≤ 122)

/-- Lexer::isIdentStart (keyword_expr.cpp). -/
def isIdentStartB (c : Nat) : Bool := isAlphaB c ∨ c = 95

/-- Lexer::isIdentChar (keyword_expr.cpp). -/
def isIdentCharB (c : Nat) : Bool := isAlphaB c ∨ isDigitB c ∨ c = 95

/-- Token kinds of the only_if lexer (keyword_expr.cpp). -/
inductive TokKind where
  | tEnd | tIdent | tNumber | tLParen | tRParen | tEqEq | tNotEq | tAndAnd | tOrOr
deriving DecidableEq, Repr

/-- A lexer token: kind plus source text. -/
structure Token where
  kind : TokKind := .tEnd
  text : List Nat := []
deriving DecidableEq, Repr

/-- Length of dropWhile never exceeds the input length. -/
theorem length_dropWhile_le (p : Nat → Bool) (l : List Nat) :
    (l.dropWhile p).length ≤ l.length := by
  induction l with
  | nil => simp [List.dropWhile]
  | cons a t ih =>
      by_cases h : p a
      · simp [List.dropWhile, h]; omega
      · simp [List.dropWhile, h]

/-- Length of takeWhile never exceeds the input length. -/
theorem length_takeWhile_le (p : Nat → Bool) (l : List Nat) :
    (l.takeWhile p).length ≤ l.length := by
  induction l with
  | nil => simp [List.takeWhile]
  | cons a t ih =>
      by_cases h : p a
      · simp [List.takeWhile, h]; omega
      · simp [List.takeWhile, h]

/-- Lexer::next (keyword_expr.cpp): skip whitespace, then one token.
A two-character operator whose second character is missing falls
through to the final branch, as does any other unrecognised character:
the character is consumed and end-of-input is reported. -/
def lexNext (s : List Nat) : Token × List Nat :=
  match s.dropWhile (fun c => isSpaceB c) with
  | [] => (⟨.tEnd, []⟩, [])
  | c :: rest =>
    if c = 40 then (⟨.tLParen, [40]⟩, rest)
    else if c = 41 then (⟨.tRParen, [41]⟩, rest)
    else if c = 61 then
      match rest with
      | 61 :: rest2 => (⟨.tEqEq, [61, 61]⟩, rest2)
      | _ => (⟨.tEnd, []⟩, rest)
    else if c = 33 then
      match rest with
      | 61 :: rest2 => (⟨.tNotEq, [33, 61]⟩, rest2)
      | _ => (⟨.tEnd, []⟩, rest)
    else if c = 38 then
      match rest with
      | 38 :: rest2 => (⟨.tAndAnd, [38, 38]⟩, rest2)
      | _ => (⟨.tEnd, []⟩, rest)
    else if c = 124 then
      match rest with
      | 124 :: rest2 => (⟨.tOrOr, [124, 124]⟩, rest2)
      | _ => (⟨.tEnd, []⟩, rest)
    else if isDigitB c then
      let num := (c :: rest).takeWhile (fun ch => isDigitB ch)
      (⟨.tNumber, num⟩, (c :: rest).drop num.length)
    else if isIdentStartB c then
      let idt := c :: rest.takeWhile (fun ch => isIdentCharB ch)
      (⟨.tIdent, idt⟩, rest.drop (idt.length - 1))
    else (⟨.tEnd, []⟩, rest)

theorem lexNext_consumes (s : List Nat) :
    ((lexNext s).1.kind ≠ .tEnd → (lexNext s).2.length < s.length) := by
  have hdw : (s.dropWhile (fun c => isSpaceB c)).length ≤ s.length :=
    length_dropWhile_le _ _
  unfold lexNext
  split
  · simp
  next c rest heq =>
    rw [heq] at hdw
    simp only [List.length_cons] at hdw
    repeat' split
    all_goals intro hkind
    all_goals first
      | exact absurd rfl hkind
      | (simp only [List.length_drop, List.length_cons, List.takeWhile_cons] at hdw ⊢;
          omega)
      | (simp_all only [List.length_drop, List.length_cons, List.takeWhile_cons,
          if_true, ne_eq]; omega)

/-- The stream of tokens the parser can observe: lexNext applied
repeatedly, stopping at (and including) the first end token, which is
also produced by an unrecognised character. -/
def tokenize (s : List Nat) : List Token :=
  match htk : lexNext s with
  | (t, r) =>
    if heq : t.kind = .tEnd then [t]
    else t :: tokenize r
termination_by s.length
decreasing_by
  have h := lexNext_consumes s
  rw [htk] at h
  exact h heq

/-- The parser's current token: head of the remaining stream, or the
end token once exhausted. -/
def curTok (ts : List Token) : Token :=
  match ts with
  | [] => ⟨.tEnd, []⟩
  | t :: _ => t

/-- The enumerant scan of Parser::resolveIdent: walk the declaration
map entries and return the index of the first enum declaration that
lists the name as an enumerant. -/
def scanEnumDecls (name : List Nat) : List (List Nat × KeywordDecl) → Except String Nat
  | [] => .error "Unknown identifier in only_if"
  | (_, decl) :: rest =>
    if decl.kind ≠ 1 then scanEnumDecls name rest
    else
      match decl.enumValues.enum.find? (fun p => p.2 = name) with
      | some p => .ok p.1
      | none => scanEnumDecls name rest

/-- Parser::resolveIdent (keyword_expr.cpp): reserved true/false names,
then the current keyword value, then enumerant search across all enum
declarations in context order. -/
def resolveIdent (ctx : KeywordValueContext) (name : List Nat) : Except String Nat :=
  if name = bytes "true" ∨ name = bytes "TRUE" ∨ name = bytes "True" then .ok 1
  else if name = bytes "false" ∨ name = bytes "FALSE" ∨ name = bytes "False" then .ok 0
  else
    match mapFind? ctx.values name with
    | some v => .ok v
    | none => scanEnumDecls name ctx.decls

/-- NUMBER token value: uint32 accumulation with wraparound. -/
def numValue (digits : List Nat) : Nat :=
  digits.foldl (fun v c => (v * 10 + (c - 48)) % 4294967296) 0

theorem lexMeasure {a b i j : Nat} (h : a < b ∨ (a = b ∧ i < j)) :
    Prod.Lex (· < ·) (· < ·) (a, i) (b, j) := by
  rcases h with h | ⟨heq, h⟩
  · exact Prod.Lex.left _ _ h
  · subst heq; exact Prod.Lex.right _ h

mutual

/-- Parser::parsePrimaryValue (keyword_expr.cpp). -/
def parsePrimaryValue (ctx : KeywordValueContext) (ts : List Token) :
    Except String (Nat × {r : List Token // r.length ≤ ts.length}) :=
  match ts with
  | [] => .error "Expected primary in only_if"
  | t :: rest =>
    if t.kind = .tIdent then
      match resolveIdent ctx t.text with
      | .error e => .error e
      | .ok v => .ok (v, ⟨rest, by simp⟩)
    else if t.kind = .tNumber then
      .ok (numValue t.text, ⟨rest, by simp⟩)
    else if t.kind = .tLParen then
      match parseExprBool ctx rest with
      | .error e => .error e
      | .ok (v, r2) =>
        if (curTok r2.val).kind = .tRParen then
          .ok (if v then 1 else 0,
            ⟨r2.val.drop 1, by
              have := r2.property
              simp only [List.length_drop, List.length_cons]
              omega⟩)
        else .error "Expected closing paren in only_if"
    else .error "Expected primary in only_if"
termination_by (ts.length, 0)
decreasing_by
  try simp_wf
  apply lexMeasure
  try simp only [List.length_cons]
  omega

/-- Parser::parseCmp (keyword_expr.cpp): a primary, optionally compared
with == or != to a second primary; without a comparator the value is
read as a boolean. -/
def parseCmp (ctx : KeywordValueContext) (ts : List Token) :
    Except String (Bool × {r : List Token // r.length ≤ ts.length}) :=
  match parsePrimaryValue ctx ts with
  | .error e => .error e
  | .ok (lhs, r1) =>
    if hk : (curTok r1.val).kind = .tEqEq ∨ (curTok r1.val).kind = .tNotEq then
      match parsePrimaryValue ctx (r1.val.drop 1) with
      | .error e => .error e
      | .ok (rhs, r2) =>
          .ok ((if (curTok r1.val).kind = .tEqEq then lhs == rhs else lhs != rhs),
            ⟨r2.val, by
              have h1 := r1.property
              have h2 := r2.property
              simp only [List.length_drop] at h2
              omega⟩)
    else .ok (lhs != 0, r1)
termination_by (ts.length, 1)
decreasing_by
  · try simp_wf
    apply lexMeasure
    omega
  · try simp_wf
    apply lexMeasure
    have hne : r1.val ≠ [] := by
      intro hnil
      rw [hnil] at hk
      simp [curTok] at hk
    have hpos : 0 < r1.val.length := List.length_pos.mpr hne
    have hle := r1.property
    try simp only [List.length_drop]
    omega

/-- The while-loop of Parser::parseAnd. -/
def parseAndRest (ctx : KeywordValueContext) (v : Bool) (ts : List Token) :
    Except String (Bool × {r : List Token // r.length ≤ ts.length}) :=
  if hk : (curTok ts).kind = .tAndAnd then
    match parseCmp ctx (ts.drop 1) with
    | .error e => .error e
    | .ok (rhs, r2) =>
      match parseAndRest ctx (v && rhs) r2.val with
      | .error e => .error e
      | .ok (v3, r3) =>
          .ok (v3, ⟨r3.val, by
            have h2 := r2.property
            have h3 := r3.property
            simp only [List.length_drop] at h2
            omega⟩)
  else .ok (v, ⟨ts, le_refl _⟩)
termination_by (ts.length, 2)
decreasing_by
  · try simp_wf
    apply lexMeasure
    have hne : ts ≠ [] := by
      intro hnil
      rw [hnil] at hk
      simp [curTok] at hk
    have hpos : 0 < ts.length := List.length_pos.mpr hne
    try simp only [List.length_drop]
    omega
  · try simp_wf
    apply lexMeasure
    have hne : ts ≠ [] := by
      intro hnil
      rw [hnil] at hk
      simp [curTok] at hk
    have hpos : 0 < ts.length := List.length_pos.mpr hne
    have hle := r2.property
    try simp only [List.length_drop] at hle
    omega

/-- Parser::parseAnd (keyword_expr.cpp). -/
def parseAnd (ctx : KeywordValueContext) (ts : List Token) :
    Except String (Bool × {r : List Token // r.length ≤ ts.length}) :=
  match parseCmp ctx ts with
  | .error e => .error e
  | .ok (v, r1) =>
    match parseAndRest ctx v r1.val with
    | .error e => .error e
    | .ok (v2, r2) =>
        .ok (v2, ⟨r2.val, le_trans r2.property r1.property⟩)
termination_by (ts.length, 3)
decreasing_by
  · try simp_wf
    apply lexMeasure
    omega
  · try simp_wf
    apply lexMeasure
    have hle := r1.property
    omega

/-- The while-loop of Parser::parseOr. -/
def parseOrRest (ctx : KeywordValueContext) (v : Bool) (ts : List Token) :
    Except String (Bool × {r : List Token // r.length ≤ ts.length}) :=
  if hk : (curTok ts).kind = .tOrOr then
    match parseAnd ctx (ts.drop 1) with
    | .error e => .error e
    | .ok (rhs, r2) =>
      match parseOrRest ctx (v || rhs) r2.val with
      | .error e => .error e
      | .ok (v3, r3) =>
          .ok (v3, ⟨r3.val, by
            have h2 := r2.property
            have h3 := r3.property
            simp only [List.length_drop] at h2
            omega⟩)
  else .ok (v, ⟨ts, le_refl _⟩)
termination_by (ts.length, 4)
decreasing_by
  · try simp_wf
    apply lexMeasure
    have hne : ts ≠ [] := by
      intro hnil
      rw [hnil] at hk
      simp [curTok] at hk
    have hpos : 0 < ts.length := List.length_pos.mpr hne
    try simp only [List.length_drop]
    omega
  · try simp_wf
    apply lexMeasure
    have hne : ts ≠ [] := by
      intro hnil
      rw [hnil] at hk
      simp [curTok] at hk
    have hpos : 0 < ts.length := List.length_pos.mpr hne
    have hle := r2.property
    try simp only [List.length_drop] at hle
    omega

/-- Parser::parseOr (keyword_expr.cpp). -/
def parseOr (ctx : KeywordValueContext) (ts : List Token) :
    Except String (Bool × {r : List Token // r.length ≤ ts.length}) :=
  match parseAnd ctx ts with
  | .error e => .error e
  | .ok (v, r1) =>
    match parseOrRest ctx v r1.val with
    | .error e => .error e
    | .ok (v2, r2) =>
        .ok (v2, ⟨r2.val, le_trans r2.property r1.property⟩)
termination_by (ts.length, 5)
decreasing_by
  · try simp_wf
    apply lexMeasure
    omega
  · try simp_wf
    apply lexMeasure
    have hle := r1.property
    omega

/-- Parser::parseExprBool (keyword_expr.cpp). -/
def parseExprBool (ctx : KeywordValueContext) (ts : List Token) :
    Except String (Bool × {r : List Token // r.length ≤ ts.length}) :=
  parseOr ctx ts
termination_by (ts.length, 6)
decreasing_by
  try simp_wf
  apply lexMeasure
  omega

end

/-- stripOnlyIf (keyword_expr.cpp): trims, and unwraps a leading
only_if( ... last ) when both parentheses are found in order. -/
def stripOnlyIf (s : List Nat) : List Nat :=
  let trim := fun (v : List Nat) =>
    (v.dropWhile (fun c => isSpaceB c)).reverse.dropWhile (fun c => isSpaceB c) |>.reverse
  let s1 := trim s
  if s1.take 7 = bytes "only_if" then
    match s1.findIdx? (fun c => c = 40), (s1.reverse.findIdx? (fun c => c = 41)).map (fun j => s1.length - 1 - j) with
    | some lp, some rp =>
        if rp > lp then trim ((s1.drop (lp + 1)).take (rp - lp - 1)) else s1
    | _, _ => s1
  else s1

/-- eval_only_if (keyword_expr.cpp): empty constraint is true; after a
full parse the current token must be the end token, otherwise the
trailing-token error is produced. -/
def eval_only_if (constraint : List Nat) (ctx : KeywordValueContext) :
    Except String Bool :=
  let expr := stripOnlyIf constraint
  if expr = [] then .ok true
  else
    match parseExprBool ctx (tokenize expr) with
    | .error e => .error e
    | .ok (v, r) =>
      if (curTok r.val).kind ≠ .tEnd then
        .error "Trailing tokens in only_if expression"
      else .ok v

-- ------------------------------------------------------------
-- Metadata mini-language parser (metadata.cpp). Error messages are
-- paraphrased without quote characters. Error codes follow result.hpp:
-- eIO=1, eInvalidArgument=2, eParseError=3, eCompileError=4,
-- eReflectError=5, eSerializeError=6, eDeserializeError=7.
-- ------------------------------------------------------------

/-- Error of the Result type (result.hpp), plus a distinguished
constructor marking an out-of-bounds std::vector index: C++ undefined
behaviour that the source's Result cannot represent but a total
embedding must make explicit. -/
inductive VErr where
  | err (code : Nat) (msg : String)
  | oob
deriving DecidableEq, Repr

/-- Floating-point operations delegated to the C++ standard library.
The pipeline only ever parses literals (std::stof), widens a float to
double, and formats values into cache-fingerprint strings
(std::to_string); all are kept abstract over bit patterns, since no
claim depends on their values. -/
structure FloatOps where
  stof : List Nat → Option Nat
  f32ToF64 : Nat → Nat
  f32str : Nat → List Nat
  f64str : Nat → List Nat

/-- ParsedMetadata::ParamMeta (metadata.hpp); range holds f64 bit
patterns (the double-field assignment widens the parsed floats). -/
structure ParamMeta where
  semantic : Nat := 0
  hasDefault : Bool := false
  defaultValue : ParamDefault := {}
  hasRange : Bool := false
  range : ParamRange := {}
deriving DecidableEq, Repr

/-- ParsedMetadata::TextureMeta (metadata.hpp). -/
structure TextureMeta where
  semantic : Nat := 0
deriving DecidableEq, Repr

/-- ParsedMetadata (metadata.hpp); the two unordered_maps are modelled
as unique-key association lists. -/
structure ParsedMetadata where
  hasMaterialDecl : Bool := false
  params : List (List Nat × ParamMeta) := []
  textures : List (List Nat × TextureMeta) := []
  keywords : List KeywordDecl := []
  renderState : RenderState := {}
  renderStateExplicit : Bool := false
deriving DecidableEq, Repr

/-- trim (metadata.cpp): strip leading and trailing whitespace. -/
def trimB (s : List Nat) : List Nat :=
  ((s.dropWhile (fun c => isSpaceB c)).reverse.dropWhile (fun c => isSpaceB c)).reverse

/-- parse_bool_token (metadata.cpp): On / Off. -/
def parse_bool_token (tok : List Nat) : Option Bool :=
  if tok = bytes "On" then some true
  else if tok = bytes "Off" then some false
  else none

/-- parse_semantic (metadata.cpp); values per the Semantic enumeration. -/
def parse_semantic (s : List Nat) : Option Nat :=
  if s = bytes "BaseColor" then some 1
  else if s = bytes "Metallic" then some 2
  else if s = bytes "Roughness" then some 3
  else if s = bytes "Normal" then some 4
  else if s = bytes "Emissive" then some 5
  else if s = bytes "Occlusion" then some 6
  else if s = bytes "Opacity" then some 7
  else if s = bytes "AlphaClip" then some 8
  else if s = bytes "Custom" then some 9
  else if s = bytes "Unknown" then some 0
  else none

/-- parse_blend_factor (metadata.cpp); values per the BlendFactor
enumeration. -/
def parse_blend_factor (s : List Nat) : Option Nat :=
  if s = bytes "One" then some 1
  else if s = bytes "Zero" then some 0
  else if s = bytes "SrcAlpha" then some 6
  else if s = bytes "OneMinusSrcAlpha" then some 7
  else if s = bytes "DstAlpha" then some 8
  else if s = bytes "OneMinusDstAlpha" then some 9
  else if s = bytes "SrcColor" then some 2
  else if s = bytes "OneMinusSrcColor" then some 3
  else if s = bytes "DstColor" then some 4
  else if s = bytes "OneMinusDstColor" then some 5
  else none

/-- parse_cull (metadata.cpp). -/
def parse_cull (s : List Nat) : Option Nat :=
  if s = bytes "None" then some 0
  else if s = bytes "Back" then some 1
  else if s = bytes "Front" then some 2
  else none

/-- parse_blend_op (metadata.cpp). -/
def parse_blend_op (s : List Nat) : Option Nat :=
  if s = bytes "Add" then some 0
  else if s = bytes "Subtract" then some 1
  else if s = bytes "ReverseSubtract" then some 2
  else if s = bytes "Min" then some 3
  else if s = bytes "Max" then some 4
  else none

/-- parse_compare_op (metadata.cpp). -/
def parse_compare_op (s : List Nat) : Option Nat :=
  if s = bytes "Never" then some 0
  else if s = bytes "Less" then some 1
  else if s = bytes "Equal" then some 2
  else if s = bytes "LessOrEqual" then some 3
  else if s = bytes "Greater" then some 4
  else if s = bytes "NotEqual" then some 5
  else if s = bytes "GreaterOrEqual" then some 6
  else if s = bytes "Always" then some 7
  else none

/-- The item loop of parse_parenthesized_list: trim each comma-separated
item, reject empties, parse floats (std::getline drops a final empty
piece at end-of-stream, hence the dropLast adjustment). -/
def parseFloatItems (fops : FloatOps) : List (List Nat) → Option (List Nat)
  | [] => some []
  | item :: rest =>
    let t := trimB item
    if t = [] then none
    else
      match fops.stof t with
      | none => none
      | some v =>
        match parseFloatItems fops rest with
        | none => none
        | some vs => some (v :: vs)

/-- parse_parenthesized_list (metadata.cpp): expects ( ... ) holding a
non-empty comma-separated float list. -/
def parse_parenthesized_list (fops : FloatOps) (s : List Nat) : Option (List Nat) :=
  if s.length < 2 ∨ s.head? ≠ some 40 ∨ s.getLast? ≠ some 41 then none
  else
    let inner := (s.drop 1).dropLast
    let items := inner.splitOn 44
    let items := if items.getLast? = some [] ∧ inner ≠ [] then items.dropLast else items
    match parseFloatItems fops items with
    | none => none
    | some vs => if vs = [] then none else some vs

/-- parse_attr (metadata.cpp): recognises name(payload) tokens. -/
def parse_attr (token name : List Nat) : Option (List Nat) :=
  if token.take name.length = name ∧ name.length < token.length ∧
      token.get? name.length = some 40 ∧ token.getLast? = some 41 then
    some ((token.drop (name.length + 1)).dropLast)
  else none

/-- write_default (metadata.cpp): zero the 64-byte buffer, then copy at
most 16 little-endian f32 values into its front. -/
def write_default (values : List Nat) : List Nat :=
  let copied := (values.take 16).flatMap (leBytes 4)
  copied ++ List.replicate (64 - copied.length) 0

/-- One attribute token of a param pragma (the t-loop of the param
branch). The source tries parse_parenthesized_list twice on identically
re-wrapped payload text; being pure, one call is equivalent. -/
def applyParamAttr (fops : FloatOps) (meta : ParamMeta) (tok : List Nat) :
    Except VErr ParamMeta :=
  match parse_attr tok (bytes "semantic") with
  | some payload =>
      match parse_semantic payload with
      | none => .error (.err 3 "Unknown semantic")
      | some sem => .ok { meta with semantic := sem }
  | none =>
  match parse_attr tok (bytes "default") with
  | some payload =>
      match parse_parenthesized_list fops ([40] ++ payload ++ [41]) with
      | none => .error (.err 3 "Invalid default list")
      | some values =>
          let dv : ParamDefault :=
            { type := meta.defaultValue.type, valueBuffer := write_default values }
          .ok { meta with hasDefault := true, defaultValue := dv }
  | none =>
  match parse_attr tok (bytes "range") with
  | some payload =>
      match parse_parenthesized_list fops ([40] ++ payload ++ [41]) with
      | some [v0, v1] =>
          let rg : ParamRange := { min := fops.f32ToF64 v0, max := fops.f32ToF64 v1 }
          .ok { meta with hasRange := true, range := rg }
      | _ => .error (.err 3 "range expects exactly two numbers")
  | none => .error (.err 3 "Unknown param attribute token")

/-- One attribute token of a texture pragma. -/
def applyTextureAttr (meta : TextureMeta) (tok : List Nat) :
    Except VErr TextureMeta :=
  match parse_attr tok (bytes "semantic") with
  | some payload =>
      match parse_semantic payload with
      | none => .error (.err 3 "Unknown semantic")
      | some sem => .ok { meta with semantic := sem }
  | none => .error (.err 3 "Unknown texture attribute token")

/-- The ColorMask character loop. R=bit0, G=bit1, B=bit2, A=bit3. -/
def colorMaskFold : List Nat → Nat → Except VErr Nat
  | [], m => .ok m
  | c :: rest, m =>
    if c = 82 then colorMaskFold rest (m ||| 1)
    else if c = 71 then colorMaskFold rest (m ||| 2)
    else if c = 66 then colorMaskFold rest (m ||| 4)
    else if c = 65 then colorMaskFold rest (m ||| 8)
    else .error (.err 3 "Unknown color mask character")

/-- The state-directive dispatch of parse_vultra_metadata. The
sub-keyword has already been read from token index 3; accesses at
indexes 4 and 5 are guarded by the length checks, so getD is exact
there. An unrecognised sub-keyword falls through with no effect. -/
def stateDirective (fops : FloatOps) (m : ParsedMetadata)
    (toks : List (List Nat)) (subKeyword : List Nat) : Except VErr ParsedMetadata :=
  if subKeyword = bytes "Blend" then
    if toks.length < 6 then .error (.err 3 "Blend requires src dst")
    else
      match parse_blend_factor (toks.getD 4 []) with
      | none => .error (.err 3 "Unknown blend source factor")
      | some src =>
      match parse_blend_factor (toks.getD 5 []) with
      | none => .error (.err 3 "Unknown blend destination factor")
      | some dst =>
        let rs := { m.renderState with
                    blendEnable := true
                    srcColor := src
                    dstColor := dst
                    srcAlpha := src
                    dstAlpha := dst }
        .ok { m with renderState := rs, renderStateExplicit := true }
  else if subKeyword = bytes "BlendOp" then
    if toks.length < 6 then .error (.err 3 "BlendOp requires colorOp alphaOp")
    else
      match parse_blend_op (toks.getD 4 []) with
      | none => .error (.err 3 "Unknown blend color operation")
      | some colorOp =>
      match parse_blend_op (toks.getD 5 []) with
      | none => .error (.err 3 "Unknown blend alpha operation")
      | some alphaOp =>
        let rs := { m.renderState with
                    blendEnable := true
                    colorOp := colorOp
                    alphaOp := alphaOp }
        .ok { m with renderState := rs, renderStateExplicit := true }
  else if subKeyword = bytes "ZTest" then
    if toks.length < 5 then .error (.err 3 "ZTest pragma requires On or Off")
    else
      match parse_bool_token (toks.getD 4 []) with
      | none => .error (.err 3 "ZTest expects On or Off")
      | some v =>
        let rs := { m.renderState with depthTest := v }
        .ok { m with renderState := rs, renderStateExplicit := true }
  else if subKeyword = bytes "ZWrite" then
    if toks.length < 5 then .error (.err 3 "ZWrite pragma requires On or Off")
    else
      match parse_bool_token (toks.getD 4 []) with
      | none => .error (.err 3 "ZWrite expects On or Off")
      | some v =>
        let rs := { m.renderState with depthWrite := v }
        .ok { m with renderState := rs, renderStateExplicit := true }
  else if subKeyword = bytes "CompareOp" then
    if toks.length < 5 then .error (.err 3 "CompareOp pragma requires a comparison function")
    else
      match parse_compare_op (toks.getD 4 []) with
      | none => .error (.err 3 "Unknown compare op")
      | some f =>
        let rs := { m.renderState with depthFunc := f }
        .ok { m with renderState := rs, renderStateExplicit := true }
  else if subKeyword = bytes "Cull" then
    if toks.length < 5 then .error (.err 3 "Cull pragma requires None Back or Front")
    else
      match parse_cull (toks.getD 4 []) with
      | none => .error (.err 3 "Unknown cull mode")
      | some c =>
        let rs := { m.renderState with cull := c }
        .ok { m with renderState := rs, renderStateExplicit := true }
  else if subKeyword = bytes "AlphaToCoverage" then
    if toks.length < 5 then .error (.err 3 "AlphaToCoverage requires On or Off")
    else
      match parse_bool_token (toks.getD 4 []) with
      | none => .error (.err 3 "AlphaToCoverage expects On or Off")
      | some v =>
        let rs := { m.renderState with alphaToCoverage := v }
        .ok { m with renderState := rs, renderStateExplicit := true }
  else if subKeyword = bytes "ColorMask" then
    if toks.length < 5 then .error (.err 3 "ColorMask requires a combination of R G B A")
    else
      match colorMaskFold (toks.getD 4 []) 0 with
      | .error e => .error e
      | .ok mask =>
        let rs := { m.renderState with colorMask := mask }
        .ok { m with renderState := rs, renderStateExplicit := true }
  else if subKeyword = bytes "DepthBias" then
    if toks.length < 6 then .error (.err 3 "DepthBias requires two float values")
    else
      match fops.stof (toks.getD 4 []) with
      | none => .error (.err 3 "Invalid DepthBias factor value")
      | some factor =>
      match fops.stof (toks.getD 5 []) with
      | none => .error (.err 3 "Invalid DepthBias units value")
      | some units =>
        let rs := { m.renderState with
                    depthBiasFactor := factor
                    depthBiasUnits := units }
        .ok { m with renderState := rs, renderStateExplicit := true }
  else .ok m

/-- One pragma-vultra line of parse_vultra_metadata, already tokenized.
The state branch reads token index 3 without a length guard: with only
three tokens present the source indexes past the end of the vector,
which the embedding reports as the out-of-bounds marker. -/
def pragmaDirective (fops : FloatOps) (m : ParsedMetadata)
    (toks : List (List Nat)) : Except VErr ParsedMetadata :=
  if toks.length < 3 then
    .error (.err 3 "Invalid pragma vultra line: too few tokens")
  else
    let keyword := toks.getD 2 []
    if keyword = bytes "material" then .ok { m with hasMaterialDecl := true }
    else if keyword = bytes "param" then
      if toks.length < 4 then .error (.err 3 "param pragma requires a parameter name")
      else
        let name := toks.getD 3 []
        let meta0 := (mapFind? m.params name).getD {}
        match (toks.drop 4).foldlM (applyParamAttr fops) meta0 with
        | .error e => .error e
        | .ok metaF => .ok { m with params := mapInsert m.params name metaF }
    else if keyword = bytes "texture" then
      if toks.length < 4 then .error (.err 3 "texture pragma requires a texture name")
      else
        let name := toks.getD 3 []
        let meta0 := (mapFind? m.textures name).getD {}
        match (toks.drop 4).foldlM applyTextureAttr meta0 with
        | .error e => .error e
        | .ok metaF => .ok { m with textures := mapInsert m.textures name metaF }
    else if keyword = bytes "render" then .ok { m with renderStateExplicit := true }
    else if keyword = bytes "state" then
      match toks.get? 3 with
      | none => .error .oob
      | some subKeyword => stateDirective fops m toks subKeyword
    else .error (.err 3 "Unknown pragma vultra keyword")

/-- The line splitter of parse_vultra_metadata: segments at newline
characters; a final segment without a trailing newline is processed, a
trailing newline does not produce an extra empty line. -/
def srcLines (bs : List Nat) : List (List Nat) :=
  match bs with
  | [] => []
  | b :: tl =>
    if ((b :: tl).takeWhile (fun ch => decide (ch ≠ 10))).length = (b :: tl).length then
      [(b :: tl).takeWhile (fun ch => decide (ch ≠ 10))]
    else
      (b :: tl).takeWhile (fun ch => decide (ch ≠ 10)) ::
        srcLines ((b :: tl).drop
          (((b :: tl).takeWhile (fun ch => decide (ch ≠ 10))).length + 1))
termination_by bs.length
decreasing_by
  simp only [List.length_drop, List.length_cons]
  omega

/-- Whitespace tokenizer of a pragma line. The head of the dropWhile
result is necessarily non-space, so taking it plus the following
non-space run is the source's maximal-token scan. -/
def tokenizeWs (s : List Nat) : List (List Nat) :=
  match h : s.dropWhile (fun c => isSpaceB c) with
  | [] => []
  | c :: rest =>
      (c :: rest.takeWhile (fun ch => !isSpaceB ch)) ::
        tokenizeWs (rest.drop (rest.takeWhile (fun ch => !isSpaceB ch)).length)
termination_by s.length
decreasing_by
  have hd : (s.dropWhile (fun c => isSpaceB c)).length ≤ s.length :=
    length_dropWhile_le _ _
  rw [h] at hd
  simp only [List.length_cons] at hd
  simp only [List.length_drop]
  omega

/-- One source line of parse_vultra_metadata: strip a trailing CR, left
trim, skip lines that do not open with the pragma marker, tokenize and
dispatch. -/
def parseLine (fops : FloatOps) (m : ParsedMetadata) (sv : List Nat) :
    Except VErr ParsedMetadata :=
  let sv := if sv.getLast? = some 13 then sv.dropLast else sv
  let s := sv.dropWhile (fun c => isSpaceB c)
  if s.take 14 ≠ bytes "#pragma vultra" then .ok m
  else pragmaDirective fops m (tokenizeWs s)

/-- parse_vultra_metadata (metadata.cpp). Note: the source recognises
material, param, texture, render and state directives only; there is no
branch for the keyword directive, so ParsedMetadata.keywords is never
populated. -/
def parse_vultra_metadata (fops : FloatOps) (src : List Nat) :
    Except VErr ParsedMetadata :=
  (srcLines src).foldlM (parseLine fops) ({} : ParsedMetadata)

-- ------------------------------------------------------------
-- Build driver and variant hashing (system.cpp) and the runtime
-- variant-key builder (variant_key.cpp)
-- ------------------------------------------------------------

/-- Define (compiler.hpp): a -D name/value pair. -/
structure Define where
  name : List Nat := []
  value : List Nat := []
deriving DecidableEq, Repr

/-- CompileOptions (compiler.hpp): the fields the embedded pipeline
reads (stage byte, defines, include directories); the optimisation and
debug flags are consumed only by the external compiler. -/
structure CompileOptions where
  stage : Nat := 1
  defines : List Define := []
  includeDirs : List (List Nat) := []
deriving DecidableEq, Repr

/-- SourceInput (compiler.hpp). -/
structure SourceInput where
  virtualPath : List Nat := []
  sourceText : List Nat := []
deriving DecidableEq, Repr

/-- EngineKeywordsFile (engine_keywords.hpp): declarations plus the raw
name-to-string assignment map. -/
structure EngineKeywordsFile where
  decls : List KeywordDecl := []
  values : List (List Nat × List Nat) := []
deriving DecidableEq, Repr

/-- parse_bool_value (system.cpp): empty means 1; accepts 1/true forms
and 0/false forms. -/
def parse_bool_value (s : List Nat) : Option Nat :=
  if s = [] then some 1
  else if s = bytes "1" ∨ s = bytes "true" ∨ s = bytes "TRUE" ∨ s = bytes "True" then
    some 1
  else if s = bytes "0" ∨ s = bytes "false" ∨ s = bytes "FALSE" ∨ s = bytes "False" then
    some 0
  else none

/-- parse_keyword_value (system.cpp): bool keywords go through
parse_bool_value; enum keywords accept an in-range numeric index
(uint32 accumulation) or an enumerant name. -/
def parse_keyword_value (d : KeywordDecl) (raw : List Nat) : Except VErr Nat :=
  if d.kind = 0 then
    match parse_bool_value raw with
    | none => .error (.err 3 "Invalid bool value for keyword")
    | some v => .ok v
  else if raw = [] then .ok d.defaultValue
  else if raw.all (fun c => isDigitB c) then
    let idx := raw.foldl (fun v c => (v * 10 + (c - 48)) % 4294967296) 0
    if idx ≥ d.enumValues.length then
      .error (.err 3 "Enum index out of range for keyword")
    else .ok idx
  else
    match d.enumValues.enum.find? (fun p => p.2 = raw) with
    | some p => .ok p.1
    | none => .error (.err 3 "Unknown enum value for keyword")

/-- The entry ordering of both compute_variant_hash and
VariantKey::build: nameHash ascending, then value ascending. The
unstable std::sort is modelled by the stable mergeSort; entries with
equal keys are fully interchangeable in the serialisation. -/
def kvLe (a b : Nat × Nat) : Bool :=
  a.1 < b.1 ∨ (a.1 = b.1 ∧ a.2 ≤ b.2)

/-- The resolution loop of compute_variant_hash: only permutation
keywords, valued from -D defines first, then the engine keywords set
map for global-scope keywords, then the declared default; each entry is
the pair (xxh64 of the name, value). -/
def resolve_permutation_kvs (keywords : List KeywordDecl)
    (defMap : List (List Nat × List Nat)) (engineKw : Option EngineKeywordsFile) :
    Except VErr (List (Nat × Nat)) :=
  match keywords with
  | [] => .ok []
  | k :: rest =>
    if k.dispatch ≠ 0 then resolve_permutation_kvs rest defMap engineKw
    else
      let valueE : Except VErr Nat :=
        match mapFind? defMap k.name with
        | some raw => parse_keyword_value k raw
        | none =>
          match engineKw with
          | some kw =>
            if k.scope = 1 then
              match mapFind? kw.values k.name with
              | some raw => parse_keyword_value k raw
              | none => .ok k.defaultValue
            else .ok k.defaultValue
          | none => .ok k.defaultValue
      match valueE with
      | .error e => .error e
      | .ok value =>
        match resolve_permutation_kvs rest defMap engineKw with
        | .error e => .error e
        | .ok kvs => .ok ((xxh64 0 k.name, value) :: kvs)

/-- The define map of compute_variant_hash (later -D entries with the
same name overwrite earlier ones, as in the unordered_map). -/
def defineMap (defines : List Define) : List (List Nat × List Nat) :=
  defines.foldl (fun m d => mapInsert m d.name d.value) []

/-- compute_variant_hash (system.cpp): resolve the permutation keyword
entries, sort them, serialise u64 sourceHash, u32 stage, u32 count and
per entry u64 nameHash, u32 value, u32 reserved zero, and hash the
buffer. -/
def compute_variant_hash (meta : ParsedMetadata) (opt : CompileOptions)
    (engineKw : Option EngineKeywordsFile) (sourceHash : Nat) : Except VErr Nat :=
  match resolve_permutation_kvs meta.keywords (defineMap opt.defines) engineKw with
  | .error e => .error e
  | .ok kvs =>
    let sorted := kvs.mergeSort kvLe
    .ok (xxh64 0 (wU64 sourceHash ++ wU32 (opt.stage % 256) ++
      wU32 sorted.length ++
      sorted.flatMap (fun kv => wU64 kv.1 ++ wU32 kv.2 ++ wU32 0)))

/-- VariantKey (variant_key.hpp): shader-id hash, stage and accumulated
(nameHash, value) entries (the reserved field is always zero). -/
structure VariantKey where
  shaderIdHash : Nat := 0
  stage : Nat := stageUnknown
  entries : List (Nat × Nat) := []
deriving DecidableEq, Repr

/-- VariantKey::build (variant_key.cpp): sort the accumulated entries
by (nameHash, value) and hash the byte buffer u64 shaderIdHash,
u32 stage, u32 count, then per entry u64 nameHash, u32 value,
u32 zero. -/
def VariantKey.build (k : VariantKey) : Nat :=
  let kvs := k.entries.mergeSort kvLe
  xxh64 0 (wU64 k.shaderIdHash ++ wU32 (k.stage % 256) ++
    wU32 kvs.length ++
    kvs.flatMap (fun kv => wU64 kv.1 ++ wU32 kv.2 ++ wU32 0))

/-- Byte-wise lexicographic order on byte strings (std::string
operator< used by std::sort in normalize_define_list). -/
def lexLe (a b : List Nat) : Bool :=
  match a, b with
  | [], _ => true
  | _ :: _, [] => false
  | x :: xs, y :: ys => x < y ∨ (x = y ∧ lexLe xs ys)

/-- normalize_define_list (system.cpp): name or name=value lines,
sorted, newline terminated. -/
def normalize_define_list (defs : List Define) : List Nat :=
  let lines := defs.map (fun d => if d.value = [] then d.name else d.name ++ [61] ++ d.value)
  (lines.mergeSort lexLe).flatMap (fun s => s ++ [10])

/-- Decimal digits of a Nat (std::to_string for the non-negative
integral values the fingerprint prints). -/
def natDecimal (n : Nat) : List Nat :=
  (Nat.toDigits 10 n).map Char.toNat

/-- The per-param fingerprint lines of compute_build_hash. -/
def paramFingerprint (fops : FloatOps) (params : List (List Nat × ParamMeta))
    (k : List Nat) : List Nat :=
  let pm := (mapFind? params k).getD {}
  bytes "p:" ++ k ++ bytes ":sem=" ++ natDecimal pm.semantic ++ [10] ++
  (if pm.hasDefault then
    bytes "p:" ++ k ++ bytes ":def=" ++
      pm.defaultValue.valueBuffer.flatMap (fun b => natDecimal b ++ [44]) ++ [10]
  else []) ++
  (if pm.hasRange then
    bytes "p:" ++ k ++ bytes ":range=" ++ fops.f64str pm.range.min ++ [44] ++
      fops.f64str pm.range.max ++ [10]
  else [])

/-- compute_build_hash (system.cpp): chained hash of source text,
virtual path, stage byte, normalised defines, include directories, and
the canonical metadata fingerprint (render state fields in fixed order,
then params and textures sorted by name). -/
def compute_build_hash (fops : FloatOps) (src : SourceInput)
    (opt : CompileOptions) (meta : ParsedMetadata) : Nat :=
  let h0 := xxh64 0 src.sourceText
  let h1 := xxh64 h0 src.virtualPath
  let h2 := xxh64 h1 [opt.stage % 256]
  let h3 := xxh64 h2 (normalize_define_list opt.defines)
  let h4 := opt.includeDirs.foldl (fun h dir => xxh64 h dir) h3
  let rs := meta.renderState
  let m :=
    (if meta.hasMaterialDecl then bytes "material=1" else bytes "material=0") ++ [10] ++
    bytes "depthTest=" ++ natDecimal (if rs.depthTest then 1 else 0) ++ [10] ++
    bytes "depthWrite=" ++ natDecimal (if rs.depthWrite then 1 else 0) ++ [10] ++
    bytes "depthFunc=" ++ natDecimal rs.depthFunc ++ [10] ++
    bytes "cull=" ++ natDecimal rs.cull ++ [10] ++
    bytes "blendEnable=" ++ natDecimal (if rs.blendEnable then 1 else 0) ++ [10] ++
    bytes "srcColor=" ++ natDecimal rs.srcColor ++ [10] ++
    bytes "dstColor=" ++ natDecimal rs.dstColor ++ [10] ++
    bytes "colorOp=" ++ natDecimal rs.colorOp ++ [10] ++
    bytes "srcAlpha=" ++ natDecimal rs.srcAlpha ++ [10] ++
    bytes "dstAlpha=" ++ natDecimal rs.dstAlpha ++ [10] ++
    bytes "alphaOp=" ++ natDecimal rs.alphaOp ++ [10] ++
    bytes "colorMask=" ++ natDecimal rs.colorMask ++ [10] ++
    bytes "alphaToCoverage=" ++ natDecimal (if rs.alphaToCoverage then 1 else 0) ++ [10] ++
    bytes "depthBiasFactor=" ++ fops.f32str rs.depthBiasFactor ++ [10] ++
    bytes "depthBiasUnits=" ++ fops.f32str rs.depthBiasUnits ++ [10] ++
    ((meta.params.map (fun p => p.1)).mergeSort lexLe).flatMap
      (paramFingerprint fops meta.params) ++
    ((meta.textures.map (fun t => t.1)).mergeSort lexLe).flatMap (fun k =>
      bytes "t:" ++ k ++ bytes ":sem=" ++
        natDecimal ((mapFind? meta.textures k).getD {}).semantic ++ [10])
  xxh64 h4 m

/-- validate_and_build_mdesc (system.cpp). The dead validation branch
of the source is kept: the params-but-no-Material-block error sits in
the else of an inner test of the same pointer that the enclosing branch
already established non-null, so it cannot execute. -/
def validate_and_build_mdesc (mdesc : MaterialDescription)
    (refl : ShaderReflection) (meta : ParsedMetadata) :
    Except VErr MaterialDescription :=
  let blockName := mdesc.materialBlockName
  let matBlock := refl.blocks.find? (fun b => !b.isPushConstant ∧ b.name = blockName)
  let afterBlock : Except VErr MaterialDescription :=
    match matBlock with
    | none =>
        .ok { mdesc with materialParamSize := 0, params := [] }
    | some mb =>
        let params := mb.members.map (fun mem =>
          let base : MaterialParamDesc :=
            { name := mem.name, offset := mem.offset, size := mem.size, type := mem.type }
          match mapFind? meta.params mem.name with
          | none => base
          | some pm =>
              { base with
                semantic := pm.semantic
                hasDefault := pm.hasDefault
                defaultValue :=
                  if pm.hasDefault then
                    { pm.defaultValue with type := base.type }
                  else base.defaultValue
                hasRange := pm.hasRange
                range := if pm.hasRange then pm.range else base.range })
        let texs := refl.descriptors.filterMap (fun d =>
          if d.kind = 5 ∨ d.kind = 2 then
            some { name := d.name, set := d.set, binding := d.binding,
                   count := d.count, type := 4,
                   semantic := ((mapFind? meta.textures d.name).getD {}).semantic }
          else (none : Option MaterialTextureDesc))
        let m2 := { mdesc with
                    materialParamSize := mb.size
                    params := params
                    textures := texs
                    renderState := meta.renderState }
        if matBlock.isSome then
          match meta.params.find? (fun p =>
              !(mb.members.any (fun mem => mem.name = p.1))) with
          | some _ => .error (.err 3 "Metadata param not found in Material block members")
          | none => .ok m2
        else
          if meta.params ≠ [] then
            .error (.err 3 "Shader declares metadata params but has no Material block")
          else .ok m2
  match afterBlock with
  | .error e => .error e
  | .ok m2 =>
    match meta.textures.find? (fun t =>
        !(refl.descriptors.any (fun d => d.name = t.1))) with
    | some _ => .error (.err 3 "Metadata texture not found in reflected descriptors")
    | none => .ok m2

/-- CompileOutput of the external compiler (compiler.hpp). -/
structure CompileOut where
  spirv : List Nat := []
  infoLog : List Nat := []
deriving DecidableEq, Repr

/-- BuildRequest (system.hpp). -/
structure BuildRequest where
  source : SourceInput := {}
  options : CompileOptions := {}
  hasEngineKeywords : Bool := false
  engineKeywords : EngineKeywordsFile := {}
  enableCache : Bool := false
deriving DecidableEq, Repr

/-- BuildResult (system.hpp). -/
structure BuildResult where
  binary : ShaderBinary := {}
  log : List Nat := []
  fromCache : Bool := false
deriving DecidableEq, Repr

/-- build_shader (system.cpp), with the external collaborators passed
in: the GLSL compiler, the SPIR-V reflector, and the cache read keyed
by the build-input hash (IO; a miss is any failed read). The
best-effort cache write changes no observable result and has no
representation here. -/
def build_shader (fops : FloatOps)
    (compile : SourceInput → CompileOptions → Except VErr CompileOut)
    (reflect : List Nat → Except VErr ShaderReflection)
    (cacheRead : Nat → Option ShaderBinary)
    (req : BuildRequest) : Except VErr BuildResult :=
  match parse_vultra_metadata fops req.source.sourceText with
  | .error e => .error e
  | .ok meta =>
    let buildHash := compute_build_hash fops req.source req.options meta
    let sourceHash := xxh64 0 req.source.sourceText
    match (if req.enableCache then cacheRead buildHash else none) with
    | some cached => .ok { binary := cached, log := bytes "Cache hit", fromCache := true }
    | none =>
      match compile req.source req.options with
      | .error e => .error e
      | .ok c =>
        match reflect c.spirv with
        | .error e => .error e
        | .ok r =>
          let bin0 : ShaderBinary :=
            { stage := req.options.stage
              spirv := c.spirv
              spirvHash := xxh64_words c.spirv
              contentHash := sourceHash
              reflection := r }
          let kw := if req.hasEngineKeywords then some req.engineKeywords else none
          match compute_variant_hash meta req.options kw sourceHash with
          | .error e => .error e
          | .ok vh =>
            let bin1 := { bin0 with variantHash := vh }
            match validate_and_build_mdesc { materialBlockName := bytes "Material" }
                bin1.reflection meta with
            | .error e => .error e
            | .ok mdesc =>
              .ok { binary := { bin1 with materialDesc := mdesc }, log := c.infoLog,
                    fromCache := false }

-- ------------------------------------------------------------
-- Round-trip lemmas for the codec primitives
-- ------------------------------------------------------------

theorem leVal_append (w : Nat) (xs ys : List Nat) (h : xs.length = w) :
    leVal w (xs ++ ys) = leVal w xs := by
  induction w generalizing xs with
  | zero => cases xs with
    | nil => simp [leVal]
    | cons a t => simp at h
  | succ n ih =>
      cases xs with
      | nil => simp at h
      | cons a t =>
          simp only [List.length_cons, Nat.succ.injEq] at h
          simp only [List.cons_append, leVal]
          rw [show t.append ys = t ++ ys from rfl, ih t h]

theorem rdU8_w (v : Nat) (r : List Nat) (h : v < 256) :
    rdU8 (wU8 v ++ r) = some (v, r) := by
  simp [rdU8, wU8, leBytes, Nat.mod_eq_of_lt h]

theorem rdU32_w (v : Nat) (r : List Nat) (h : v < 4294967296) :
    rdU32 (wU32 v ++ r) = some (v, r) := by
  have hlen : (wU32 v).length = 4 := leBytes_length 4 v
  have hv : leVal 4 (wU32 v ++ r) = v := by
    rw [leVal_append 4 _ _ hlen]
    exact leVal_leBytes 4 v (by norm_num; omega)
  have hd : (wU32 v ++ r).drop 4 = r := by
    rw [← hlen, List.drop_left]
  simp only [rdU32, List.length_append, hlen]
  rw [if_pos (by omega), hv, hd]

theorem rdU64_w (v : Nat) (r : List Nat) (h : v < 18446744073709551616) :
    rdU64 (wU64 v ++ r) = some (v, r) := by
  have hlen : (wU64 v).length = 8 := leBytes_length 8 v
  have hv : leVal 8 (wU64 v ++ r) = v := by
    rw [leVal_append 8 _ _ hlen]
    exact leVal_leBytes 8 v (by norm_num; omega)
  have hd : (wU64 v ++ r).drop 8 = r := by
    rw [← hlen, List.drop_left]
  simp only [rdU64, List.length_append, hlen]
  rw [if_pos (by omega), hv, hd]

theorem rdStr_w (s : List Nat) (r : List Nat) (h : s.length < 4294967296) :
    rdStr (wStr s ++ r) = some (s, r) := by
  simp only [rdStr, wStr, List.append_assoc]
  rw [rdU32_w s.length (s ++ r) h]
  simp only [List.length_append]
  rw [if_pos (by omega)]
  rw [List.take_left, List.drop_left]

/-- Splitting a length-n prefix off an append. -/
theorem take_drop_left (xs ys : List Nat) (n : Nat) (h : xs.length = n) :
    (xs ++ ys).take n = xs ∧ (xs ++ ys).drop n = ys := by
  subst h
  exact ⟨List.take_left xs ys, List.drop_left xs ys⟩

-- ------------------------------------------------------------
-- Validity predicates: the numeric-width side conditions under which a
-- record survives the u8/u32/u64 truncation of the wire format, plus
-- the requirement that fields the format does not persist hold their
-- C++ default values.
-- ------------------------------------------------------------

def VDescriptor (d : DescriptorBinding) : Prop :=
  d.name.length < 4294967296 ∧ d.set < 4294967296 ∧ d.binding < 4294967296 ∧
  d.count < 4294967296 ∧ d.kind < 256 ∧ d.stageFlags < 4294967296

instance (d : DescriptorBinding) : Decidable (VDescriptor d) := by
  unfold VDescriptor; infer_instance

def VMember (m : BlockMember) : Prop :=
  m.name.length < 4294967296 ∧ m.offset < 4294967296 ∧ m.size < 4294967296 ∧
  m.type = 0

instance (m : BlockMember) : Decidable (VMember m) := by
  unfold VMember; infer_instance

def VBlock (b : BlockLayout) : Prop :=
  b.name.length < 4294967296 ∧ b.set < 4294967296 ∧ b.binding < 4294967296 ∧
  b.size < 4294967296 ∧ b.stageFlags < 4294967296 ∧
  b.members.length < 4294967296 ∧ ∀ m ∈ b.members, VMember m

instance (b : BlockLayout) : Decidable (VBlock b) := by
  unfold VBlock; infer_instance

def VReflection (r : ShaderReflection) : Prop :=
  r.descriptors.length < 4294967296 ∧ r.blocks.length < 4294967296 ∧
  (∀ d ∈ r.descriptors, VDescriptor d) ∧ (∀ b ∈ r.blocks, VBlock b) ∧
  r.hasLocalSize = false ∧ r.localSizeX = 1 ∧ r.localSizeY = 1 ∧ r.localSizeZ = 1

instance (r : ShaderReflection) : Decidable (VReflection r) := by
  unfold VReflection; infer_instance

def VRenderState (rs : RenderState) : Prop :=
  rs.depthFunc < 256 ∧ rs.cull < 256 ∧ rs.srcColor < 256 ∧ rs.dstColor < 256 ∧
  rs.colorOp < 256 ∧ rs.srcAlpha < 256 ∧ rs.dstAlpha < 256 ∧ rs.alphaOp < 256 ∧
  rs.colorMask < 256 ∧ rs.depthBiasFactor < 4294967296 ∧ rs.depthBiasUnits < 4294967296

instance (rs : RenderState) : Decidable (VRenderState rs) := by
  unfold VRenderState; infer_instance

def VParam (p : MaterialParamDesc) : Prop :=
  p.name.length < 4294967296 ∧ p.type < 256 ∧ p.offset < 4294967296 ∧
  p.size < 4294967296 ∧ p.semantic < 4294967296 ∧
  (p.hasDefault = true →
    p.defaultValue.type < 256 ∧ p.defaultValue.valueBuffer.length = 64) ∧
  (p.hasDefault = false → p.defaultValue = {}) ∧
  (p.hasRange = true →
    p.range.min < 18446744073709551616 ∧ p.range.max < 18446744073709551616) ∧
  (p.hasRange = false → p.range = {})

instance (p : MaterialParamDesc) : Decidable (VParam p) := by
  unfold VParam; infer_instance

def VTexture (t : MaterialTextureDesc) : Prop :=
  t.name.length < 4294967296 ∧ t.type < 256 ∧ t.set < 4294967296 ∧
  t.binding < 4294967296 ∧ t.count < 4294967296 ∧ t.semantic < 4294967296

instance (t : MaterialTextureDesc) : Decidable (VTexture t) := by
  unfold VTexture; infer_instance

def VMDesc (m : MaterialDescription) : Prop :=
  m.materialBlockName.length < 4294967296 ∧ m.materialParamSize < 4294967296 ∧
  VRenderState m.renderState ∧
  m.params.length < 4294967296 ∧ m.textures.length < 4294967296 ∧
  (∀ p ∈ m.params, VParam p) ∧ ∀ t ∈ m.textures, VTexture t

instance (m : MaterialDescription) : Decidable (VMDesc m) := by
  unfold VMDesc; infer_instance

/-- A valid ShaderBinary: non-empty SPIR-V whose stored hash is either
0 or the hash of the words (the spec's validity invariant), all numeric
fields within their wire widths, chunk payloads within the u32 size
field, and the non-persisted fields at their defaults. -/
def VBinary (b : ShaderBinary) : Prop :=
  b.spirv ≠ [] ∧ (∀ w ∈ b.spirv, w < 4294967296) ∧
  b.spirv.length * 4 < 4294967296 ∧
  b.contentHash < 18446744073709551616 ∧ b.spirvHash < 18446744073709551616 ∧
  b.shaderIdHash < 18446744073709551616 ∧ b.variantHash < 18446744073709551616 ∧
  b.stage < 256 ∧
  (b.spirvHash = 0 ∨ b.spirvHash = xxh64_words b.spirv) ∧
  VReflection b.reflection ∧
  (serialize_reflection b.reflection).length < 4294967296 ∧
  VMDesc b.materialDesc ∧
  (serialize_mdesc b.materialDesc).length < 4294967296

instance (b : ShaderBinary) : Decidable (VBinary b) := by
  unfold VBinary; infer_instance

theorem ite01_lt (b : Bool) : (if b then 1 else 0 : Nat) < 256 := by
  cases b <;> norm_num

theorem rdDescriptors_w (ds : List DescriptorBinding) (rest : List Nat)
    (h : ∀ d ∈ ds, VDescriptor d) :
    rdDescriptors ds.length (ds.flatMap wDescriptor ++ rest) = .ok (ds, rest) := by
  induction ds generalizing rest with
  | nil => simp [rdDescriptors]
  | cons d ds ih =>
      obtain ⟨h1, h2, h3, h4, h5, h6⟩ := h d (List.mem_cons_self _ _)
      have hrest : ∀ x ∈ ds, VDescriptor x := fun x hx => h x (List.mem_cons_of_mem _ hx)
      simp only [List.flatMap_cons, List.length_cons, List.append_assoc, wDescriptor]
      rw [rdDescriptors]
      simp only [rdStr_w, rdU32_w, rdU8_w, h1, h2, h3, h4, h5, h6, ite01_lt,
        ih rest hrest]
      cases hrt : d.runtimeSized <;> simp [hrt] <;> rw [← hrt]

theorem rdMembers_w (ms : List BlockMember) (rest : List Nat)
    (h : ∀ m ∈ ms, VMember m) :
    rdMembers ms.length (ms.flatMap wMember ++ rest) = .ok (ms, rest) := by
  induction ms generalizing rest with
  | nil => simp [rdMembers]
  | cons m ms ih =>
      obtain ⟨h1, h2, h3, h4⟩ := h m (List.mem_cons_self _ _)
      have hrest : ∀ x ∈ ms, VMember x := fun x hx => h x (List.mem_cons_of_mem _ hx)
      simp only [List.flatMap_cons, List.length_cons, List.append_assoc, wMember]
      rw [rdMembers]
      simp only [rdStr_w, rdU32_w, h1, h2, h3, ih rest hrest]
      rw [show ({ name := m.name, offset := m.offset, size := m.size } : BlockMember) =
        { name := m.name, offset := m.offset, size := m.size, type := m.type } by
          rw [h4]]

theorem rdBlocks_w (bls : List BlockLayout) (rest : List Nat)
    (h : ∀ b ∈ bls, VBlock b) :
    rdBlocks bls.length (bls.flatMap wBlock ++ rest) = .ok (bls, rest) := by
  induction bls generalizing rest with
  | nil => simp [rdBlocks]
  | cons b bls ih =>
      obtain ⟨h1, h2, h3, h4, h5, h6, h7⟩ := h b (List.mem_cons_self _ _)
      have hrest : ∀ x ∈ bls, VBlock x := fun x hx => h x (List.mem_cons_of_mem _ hx)
      simp only [List.flatMap_cons, List.length_cons, List.append_assoc, wBlock]
      rw [rdBlocks]
      simp only [rdStr_w, rdU32_w, rdU8_w, h1, h2, h3, h4, h5, h6, ite01_lt,
        rdMembers_w b.members _ h7, ih rest hrest]
      cases hpc : b.isPushConstant <;> simp [hpc] <;> rw [← hpc]

theorem deserialize_serialize_reflection (r : ShaderReflection)
    (h : VReflection r) :
    deserialize_reflection (serialize_reflection r) = .ok r := by
  obtain ⟨ds, bls, hls, lx, ly, lz⟩ := r
  obtain ⟨h1, h2, h3, h4, h5, h6, h7, h8⟩ := h
  dsimp only at h1 h2 h3 h4 h5 h6 h7 h8
  subst h5; subst h6; subst h7; subst h8
  unfold deserialize_reflection serialize_reflection
  have e1 : wU32 ds.length ++ ds.flatMap wDescriptor ++
      wU32 bls.length ++ bls.flatMap wBlock =
      wU32 ds.length ++ (ds.flatMap wDescriptor ++
        (wU32 bls.length ++ (bls.flatMap wBlock ++ []))) := by
    simp [List.append_assoc]
  dsimp only
  rw [e1]
  simp only [rdU32_w, h1, h2, rdDescriptors_w ds _ h3, rdBlocks_w bls _ h4]
  simp

theorem rdRenderState_w (rs : RenderState) (rest : List Nat)
    (h : VRenderState rs) :
    rdRenderState (wRenderState rs ++ rest) = .ok (rs, rest) := by
  obtain ⟨dt, dw, df, cl, be, sc, dc, co, sa, da, ao, cm, atc, bf, bu⟩ := rs
  obtain ⟨h1, h2, h3, h4, h5, h6, h7, h8, h9, h10, h11⟩ := h
  dsimp only at h1 h2 h3 h4 h5 h6 h7 h8 h9 h10 h11
  unfold rdRenderState wRenderState
  dsimp only
  simp only [List.append_assoc]
  simp only [rdU8_w, h1, h2, h3, h4, h5, h6, h7, h8, h9, ite01_lt]
  have hlen : (leBytes 4 bf ++ (leBytes 4 bu ++ rest)).length = 8 + rest.length := by
    simp [leBytes_length]
    omega
  rw [if_pos (by omega)]
  have hbf : leVal 4 (leBytes 4 bf ++ (leBytes 4 bu ++ rest)) = bf := by
    rw [leVal_append 4 _ _ (leBytes_length 4 bf)]
    exact leVal_leBytes 4 bf (by norm_num; omega)
  have hd4 : (leBytes 4 bf ++ (leBytes 4 bu ++ rest)).drop 4 = leBytes 4 bu ++ rest := by
    have hx := List.drop_left (leBytes 4 bf) (leBytes 4 bu ++ rest)
    rwa [leBytes_length] at hx
  have hbu : leVal 4 ((leBytes 4 bf ++ (leBytes 4 bu ++ rest)).drop 4) = bu := by
    rw [hd4, leVal_append 4 _ _ (leBytes_length 4 bu)]
    exact leVal_leBytes 4 bu (by norm_num; omega)
  have hd8 : (leBytes 4 bf ++ (leBytes 4 bu ++ rest)).drop 8 = rest := by
    rw [show (8 : Nat) = 4 + 4 from rfl, ← List.drop_drop, hd4]
    have hx := List.drop_left (leBytes 4 bu) rest
    rwa [leBytes_length] at hx
  rw [hbf, hbu, hd8]
  cases dt <;> cases dw <;> cases be <;> cases atc <;> simp

theorem ite_one {α : Sort _} [Decidable ((1:Nat) ≠ 0)] (a b : α) :
    (if (1:Nat) ≠ 0 then a else b) = a := if_pos (by norm_num)

theorem ite_zero {α : Sort _} [Decidable ((0:Nat) ≠ 0)] (a b : α) :
    (if (0:Nat) ≠ 0 then a else b) = b := if_neg (by norm_num)

theorem rdParams_w (ps : List MaterialParamDesc) (rest : List Nat)
    (h : ∀ p ∈ ps, VParam p) :
    rdParams ps.length (ps.flatMap wParam ++ rest) = .ok (ps, rest) := by
  induction ps generalizing rest with
  | nil => simp [rdParams]
  | cons p ps ih =>
      have hrest : ∀ x ∈ ps, VParam x := fun x hx => h x (List.mem_cons_of_mem _ hx)
      have hp := h p (List.mem_cons_self _ _)
      obtain ⟨pname, pty, poff, psz, psem, phd, pdv, phr, prg⟩ := p
      obtain ⟨h1, h2, h3, h4, h5, h6, h7, h8, h9⟩ := hp
      dsimp only at h1 h2 h3 h4 h5 h6 h7 h8 h9
      simp only [List.flatMap_cons, List.length_cons, List.append_assoc, wParam]
      rw [rdParams]
      dsimp only
      simp only [rdStr_w, rdU8_w, rdU32_w, h1, h2, h3, h4, h5, ite01_lt]
      cases phd <;> cases phr <;>
        simp only [Bool.false_eq_true, if_false, if_true, List.nil_append,
          List.append_assoc]
      · have h7e := h7 rfl
        have h9e := h9 rfl
        subst h7e; subst h9e
        simp only [rdU8_w, (by norm_num : (0:Nat) < 256), ite_one, ite_zero]
        simp only [ih rest hrest]
        simp
      · have h7e := h7 rfl
        obtain ⟨hr1, hr2⟩ := h8 rfl
        subst h7e
        simp only [rdU8_w, (by norm_num : (0:Nat) < 256), (by norm_num : (1:Nat) < 256),
          ite_one, ite_zero]
        have hmin : leVal 8 (leBytes 8 prg.min ++ (leBytes 8 prg.max ++
            (ps.flatMap wParam ++ rest))) = prg.min := by
          rw [leVal_append 8 _ _ (leBytes_length 8 _)]
          exact leVal_leBytes 8 _ (by norm_num; omega)
        have hd8a : (leBytes 8 prg.min ++ (leBytes 8 prg.max ++
            (ps.flatMap wParam ++ rest))).drop 8 =
            leBytes 8 prg.max ++ (ps.flatMap wParam ++ rest) := by
          have hx := List.drop_left (leBytes 8 prg.min)
            (leBytes 8 prg.max ++ (ps.flatMap wParam ++ rest))
          rwa [leBytes_length] at hx
        have hmax : leVal 8 ((leBytes 8 prg.min ++ (leBytes 8 prg.max ++
            (ps.flatMap wParam ++ rest))).drop 8) = prg.max := by
          rw [hd8a, leVal_append 8 _ _ (leBytes_length 8 _)]
          exact leVal_leBytes 8 _ (by norm_num; omega)
        have hd16 : (leBytes 8 prg.min ++ (leBytes 8 prg.max ++
            (ps.flatMap wParam ++ rest))).drop 16 = ps.flatMap wParam ++ rest := by
          rw [show (16 : Nat) = 8 + 8 from rfl, ← List.drop_drop, hd8a]
          have hx := List.drop_left (leBytes 8 prg.max) (ps.flatMap wParam ++ rest)
          rwa [leBytes_length] at hx
        have hlen : 16 ≤ (leBytes 8 prg.min ++ (leBytes 8 prg.max ++
            (ps.flatMap wParam ++ rest))).length := by
          simp [leBytes_length]
          omega
        rw [if_pos hlen, hmin, hmax, hd16]
        simp only [ih rest hrest]
        simp
      · obtain ⟨hd1, hd2⟩ := h6 rfl
        have h9e := h9 rfl
        subst h9e
        simp only [rdU8_w, (by norm_num : (0:Nat) < 256), (by norm_num : (1:Nat) < 256),
          hd1, ite_one, ite_zero]
        have hsp := take_drop_left pdv.valueBuffer
          (wU8 0 ++ (ps.flatMap wParam ++ rest)) 64 hd2
        have hlen : 64 ≤ (pdv.valueBuffer ++
            (wU8 0 ++ (ps.flatMap wParam ++ rest))).length := by
          simp [hd2]
        rw [if_pos hlen, hsp.1, hsp.2]
        simp only [rdU8_w, (by norm_num : (0:Nat) < 256), ite_one, ite_zero]
        simp only [ih rest hrest]
        simp
      · obtain ⟨hd1, hd2⟩ := h6 rfl
        obtain ⟨hr1, hr2⟩ := h8 rfl
        simp only [rdU8_w, (by norm_num : (0:Nat) < 256), (by norm_num : (1:Nat) < 256),
          hd1, ite_one, ite_zero]
        have hsp := take_drop_left pdv.valueBuffer
          (wU8 1 ++ (leBytes 8 prg.min ++ (leBytes 8 prg.max ++
            (ps.flatMap wParam ++ rest)))) 64 hd2
        have hlen : 64 ≤ (pdv.valueBuffer ++
            (wU8 1 ++ (leBytes 8 prg.min ++ (leBytes 8 prg.max ++
              (ps.flatMap wParam ++ rest))))).length := by
          simp [hd2]
        rw [if_pos hlen, hsp.1, hsp.2]
        simp only [rdU8_w, (by norm_num : (0:Nat) < 256), (by norm_num : (1:Nat) < 256),
          ite_one, ite_zero]
        have hmin : leVal 8 (leBytes 8 prg.min ++ (leBytes 8 prg.max ++
            (ps.flatMap wParam ++ rest))) = prg.min := by
          rw [leVal_append 8 _ _ (leBytes_length 8 _)]
          exact leVal_leBytes 8 _ (by norm_num; omega)
        have hd8a : (leBytes 8 prg.min ++ (leBytes 8 prg.max ++
            (ps.flatMap wParam ++ rest))).drop 8 =
            leBytes 8 prg.max ++ (ps.flatMap wParam ++ rest) := by
          have hx := List.drop_left (leBytes 8 prg.min)
            (leBytes 8 prg.max ++ (ps.flatMap wParam ++ rest))
          rwa [leBytes_length] at hx
        have hmax : leVal 8 ((leBytes 8 prg.min ++ (leBytes 8 prg.max ++
            (ps.flatMap wParam ++ rest))).drop 8) = prg.max := by
          rw [hd8a, leVal_append 8 _ _ (leBytes_length 8 _)]
          exact leVal_leBytes 8 _ (by norm_num; omega)
        have hd16 : (leBytes 8 prg.min ++ (leBytes 8 prg.max ++
            (ps.flatMap wParam ++ rest))).drop 16 = ps.flatMap wParam ++ rest := by
          rw [show (16 : Nat) = 8 + 8 from rfl, ← List.drop_drop, hd8a]
          have hx := List.drop_left (leBytes 8 prg.max) (ps.flatMap wParam ++ rest)
          rwa [leBytes_length] at hx
        have hlen2 : 16 ≤ (leBytes 8 prg.min ++ (leBytes 8 prg.max ++
            (ps.flatMap wParam ++ rest))).length := by
          simp [leBytes_length]
          omega
        rw [if_pos hlen2, hmin, hmax, hd16]
        simp only [ih rest hrest]
        simp

theorem rdTextures_w (ts : List MaterialTextureDesc) (rest : List Nat)
    (h : ∀ t ∈ ts, VTexture t) :
    rdTextures ts.length (ts.flatMap wTexture ++ rest) = .ok (ts, rest) := by
  induction ts generalizing rest with
  | nil => simp [rdTextures]
  | cons t ts ih =>
      obtain ⟨h1, h2, h3, h4, h5, h6⟩ := h t (List.mem_cons_self _ _)
      have hrest : ∀ x ∈ ts, VTexture x := fun x hx => h x (List.mem_cons_of_mem _ hx)
      simp only [List.flatMap_cons, List.length_cons, List.append_assoc, wTexture]
      rw [rdTextures]
      simp only [rdStr_w, rdU32_w, rdU8_w, h1, h2, h3, h4, h5, h6, ih rest hrest]

theorem deserialize_serialize_mdesc (m : MaterialDescription)
    (h : VMDesc m) :
    deserialize_mdesc (serialize_mdesc m) = .ok m := by
  obtain ⟨bn, mps, ps, ts, rs⟩ := m
  obtain ⟨h1, h2, h3, h4, h5, h6, h7⟩ := h
  dsimp only at h1 h2 h3 h4 h5 h6 h7
  unfold deserialize_mdesc serialize_mdesc
  dsimp only
  have e1 : wStr bn ++ wU32 mps ++ wRenderState rs ++
      wU32 ps.length ++ ps.flatMap wParam ++
      wU32 ts.length ++ ts.flatMap wTexture =
      wStr bn ++ (wU32 mps ++ (wRenderState rs ++
        (wU32 ps.length ++ (ps.flatMap wParam ++
          (wU32 ts.length ++ (ts.flatMap wTexture ++ [])))))) := by
    simp [List.append_assoc]
  rw [e1]
  simp only [rdStr_w, rdU32_w, h1, h2, h4, h5,
    rdRenderState_w rs _ h3, rdParams_w ps _ h6, rdTextures_w ts _ h7]
  simp

theorem wordsOfBytes_leBytes (w : Nat) (hw : w < 4294967296) (tl : List Nat) :
    wordsOfBytes (leBytes 4 w ++ tl) = w :: wordsOfBytes tl := by
  have hval : leVal 4 (leBytes 4 w ++ tl) = w := by
    rw [leVal_append 4 _ _ (leBytes_length 4 w)]
    exact leVal_leBytes 4 w (by norm_num; omega)
  have h4 : leBytes 4 w =
      w % 256 :: (w / 256 % 256 :: (w / 256 / 256 % 256 ::
        (w / 256 / 256 / 256 % 256 :: []))) := rfl
  rw [h4] at hval ⊢
  simp only [List.cons_append, List.nil_append] at hval ⊢
  rw [wordsOfBytes]
  rw [show ((w / 256 % 256 :: (w / 256 / 256 % 256 ::
    (w / 256 / 256 / 256 % 256 :: tl))).drop 3) = tl from rfl]
  rw [hval]

theorem wordsOfBytes_flatMap (ws : List Nat) (h : ∀ w ∈ ws, w < 4294967296) :
    wordsOfBytes (ws.flatMap (leBytes 4)) = ws := by
  induction ws with
  | nil =>
      rw [show ([].flatMap (leBytes 4) : List Nat) = [] from rfl, wordsOfBytes]
  | cons w ws ih =>
      simp only [List.flatMap_cons]
      rw [wordsOfBytes_leBytes w (h w (List.mem_cons_self _ _))]
      rw [ih (fun x hx => h x (List.mem_cons_of_mem _ hx))]

theorem flatMap_leBytes4_length (ws : List Nat) :
    (ws.flatMap (leBytes 4)).length = 4 * ws.length := by
  induction ws with
  | nil => rfl
  | cons w ws ih =>
      simp only [List.flatMap_cons, List.length_append, leBytes_length, ih,
        List.length_cons]
      omega

theorem readChunks_nil (st : ChunkState) : readChunks st [] = .ok st := by
  rw [readChunks]
  simp

theorem readChunks_chunk (st : ChunkState) (tag : Nat) (payload rest : List Nat)
    (htag : tag < 4294967296) (hlen : payload.length < 4294967296) :
    readChunks st (wU32 tag ++ (wU32 payload.length ++ (payload ++ rest))) =
      match applyChunk st tag payload with
      | .error e => .error e
      | .ok st2 => readChunks st2 rest := by
  have hlen4 : (wU32 tag).length = 4 := leBytes_length 4 tag
  have hlenL : (wU32 tag ++ (wU32 payload.length ++ (payload ++ rest))).length =
      8 + payload.length + rest.length := by
    simp [List.length_append, wU32, leBytes_length]
    omega
  have hv1 : leVal 4 (wU32 tag ++ (wU32 payload.length ++ (payload ++ rest))) = tag := by
    rw [leVal_append 4 _ _ hlen4]
    exact leVal_leBytes 4 tag (by norm_num; omega)
  have hd4 : (wU32 tag ++ (wU32 payload.length ++ (payload ++ rest))).drop 4 =
      wU32 payload.length ++ (payload ++ rest) := by
    have hx := List.drop_left (wU32 tag) (wU32 payload.length ++ (payload ++ rest))
    rwa [hlen4] at hx
  have hv2 : leVal 4 ((wU32 tag ++ (wU32 payload.length ++ (payload ++ rest))).drop 4) =
      payload.length := by
    rw [hd4, leVal_append 4 (wU32 payload.length) (payload ++ rest)
      (leBytes_length 4 payload.length)]
    exact leVal_leBytes 4 _ (by norm_num; omega)
  have hd8 : (wU32 tag ++ (wU32 payload.length ++ (payload ++ rest))).drop 8 =
      payload ++ rest := by
    rw [show (8 : Nat) = 4 + 4 from rfl, ← List.drop_drop, hd4]
    have hx := List.drop_left (wU32 payload.length) (payload ++ rest)
    rwa [show (wU32 payload.length).length = 4 from leBytes_length 4 _] at hx
  rw [readChunks]
  rw [if_neg (by omega), if_neg (by omega), if_neg (by omega)]
  simp only [hv1, hv2, hd8]
  rw [if_pos (by simp [List.length_append])]
  rw [List.take_left, List.drop_left]

theorem read_vshbin_header (f ch sh : Nat) (cr : List Nat) (hf : f < 4294967296)
    (hch : ch < 18446744073709551616) (hsh : sh < 18446744073709551616) :
    read_vshbin (vshbinMagic ++ wU32 2 ++ wU32 f ++ wU64 ch ++ wU64 sh ++ cr) =
      (match readChunks
          { out := { contentHash := ch, spirvHash := sh, stage := f % 256 } } cr with
       | .error e => .error e
       | .ok st =>
         if st.hasSPRV = false then .error "Missing SPRV chunk."
         else if st.hasREFL = false then .error "Missing REFL chunk."
         else if st.hasMDES = false then .error "Missing MDES chunk."
         else if st.out.spirvHash ≠ 0 ∧ xxh64_words st.out.spirv ≠ st.out.spirvHash then
           .error "SPIR-V hash mismatch."
         else .ok st.out) := by
  have hm8 : vshbinMagic.length = 8 := rfl
  have hmap : vshbinMagic.map (· % 256) = vshbinMagic := by decide
  have hlenL : (vshbinMagic ++ (wU32 2 ++ (wU32 f ++ (wU64 ch ++ (wU64 sh ++ cr))))).length =
      32 + cr.length := by
    simp [List.length_append, hm8, wU32, wU64, leBytes_length]
    omega
  have ht8 : (vshbinMagic ++ (wU32 2 ++ (wU32 f ++ (wU64 ch ++ (wU64 sh ++ cr))))).take 8 =
      vshbinMagic := by
    have hx := List.take_left vshbinMagic (wU32 2 ++ (wU32 f ++ (wU64 ch ++ (wU64 sh ++ cr))))
    rwa [hm8] at hx
  have hd8 : (vshbinMagic ++ (wU32 2 ++ (wU32 f ++ (wU64 ch ++ (wU64 sh ++ cr))))).drop 8 =
      wU32 2 ++ (wU32 f ++ (wU64 ch ++ (wU64 sh ++ cr))) := by
    have hx := List.drop_left vshbinMagic (wU32 2 ++ (wU32 f ++ (wU64 ch ++ (wU64 sh ++ cr))))
    rwa [hm8] at hx
  have hver : leVal 4 ((vshbinMagic ++ (wU32 2 ++ (wU32 f ++ (wU64 ch ++ (wU64 sh ++ cr))))).drop 8) = 2 := by
    rw [hd8, leVal_append 4 (wU32 2) _ (leBytes_length 4 2)]
    exact leVal_leBytes 4 2 (by norm_num)
  have hd12 : (vshbinMagic ++ (wU32 2 ++ (wU32 f ++ (wU64 ch ++ (wU64 sh ++ cr))))).drop 12 =
      wU32 f ++ (wU64 ch ++ (wU64 sh ++ cr)) := by
    rw [show (12 : Nat) = 8 + 4 from rfl, ← List.drop_drop, hd8]
    have hx := List.drop_left (wU32 2) (wU32 f ++ (wU64 ch ++ (wU64 sh ++ cr)))
    rwa [show (wU32 2).length = 4 from leBytes_length 4 _] at hx
  have hflag : leVal 4 ((vshbinMagic ++ (wU32 2 ++ (wU32 f ++ (wU64 ch ++ (wU64 sh ++ cr))))).drop 12) = f := by
    rw [hd12, leVal_append 4 (wU32 f) _ (leBytes_length 4 f)]
    exact leVal_leBytes 4 f (by norm_num; omega)
  have hd16 : (vshbinMagic ++ (wU32 2 ++ (wU32 f ++ (wU64 ch ++ (wU64 sh ++ cr))))).drop 16 =
      wU64 ch ++ (wU64 sh ++ cr) := by
    rw [show (16 : Nat) = 12 + 4 from rfl, ← List.drop_drop, hd12]
    have hx := List.drop_left (wU32 f) (wU64 ch ++ (wU64 sh ++ cr))
    rwa [show (wU32 f).length = 4 from leBytes_length 4 _] at hx
  have hch2 : leVal 8 ((vshbinMagic ++ (wU32 2 ++ (wU32 f ++ (wU64 ch ++ (wU64 sh ++ cr))))).drop 16) = ch := by
    rw [hd16, leVal_append 8 (wU64 ch) _ (leBytes_length 8 ch)]
    exact leVal_leBytes 8 ch (by norm_num; omega)
  have hd24 : (vshbinMagic ++ (wU32 2 ++ (wU32 f ++ (wU64 ch ++ (wU64 sh ++ cr))))).drop 24 =
      wU64 sh ++ cr := by
    rw [show (24 : Nat) = 16 + 8 from rfl, ← List.drop_drop, hd16]
    have hx := List.drop_left (wU64 ch) (wU64 sh ++ cr)
    rwa [show (wU64 ch).length = 8 from leBytes_length 8 _] at hx
  have hsh2 : leVal 8 ((vshbinMagic ++ (wU32 2 ++ (wU32 f ++ (wU64 ch ++ (wU64 sh ++ cr))))).drop 24) = sh := by
    rw [hd24, leVal_append 8 (wU64 sh) _ (leBytes_length 8 sh)]
    exact leVal_leBytes 8 sh (by norm_num; omega)
  have hd32 : (vshbinMagic ++ (wU32 2 ++ (wU32 f ++ (wU64 ch ++ (wU64 sh ++ cr))))).drop 32 = cr := by
    rw [show (32 : Nat) = 24 + 8 from rfl, ← List.drop_drop, hd24]
    have hx := List.drop_left (wU64 sh) cr
    rwa [show (wU64 sh).length = 8 from leBytes_length 8 _] at hx
  rw [show vshbinMagic ++ wU32 2 ++ wU32 f ++ wU64 ch ++ wU64 sh ++ cr =
    vshbinMagic ++ (wU32 2 ++ (wU32 f ++ (wU64 ch ++ (wU64 sh ++ cr)))) from by
      simp [List.append_assoc]]
  unfold read_vshbin
  rw [if_neg (by omega), ht8, hmap, if_neg (by simp)]
  simp only [hver, hflag, hch2, hsh2, hd32]
  rw [if_neg (by norm_num)]

theorem readChunks_last (st : ChunkState) (tag : Nat) (payload : List Nat)
    (htag : tag < 4294967296) (hlen : payload.length < 4294967296) :
    readChunks st (wU32 tag ++ (wU32 payload.length ++ payload)) =
      match applyChunk st tag payload with
      | .error e => .error e
      | .ok st2 => .ok st2 := by
  rw [show wU32 tag ++ (wU32 payload.length ++ payload) =
    wU32 tag ++ (wU32 payload.length ++ (payload ++ [])) from by simp]
  rw [readChunks_chunk st tag payload [] htag hlen]
  rcases happ : applyChunk st tag payload with e | st2 <;> simp [readChunks_nil]

theorem readChunks_sidh (st : ChunkState) (h : Nat) (rest : List Nat)
    (hh : h < 18446744073709551616) :
    readChunks st (wU32 (tag_u32 "SIDH") ++ (wU32 (wU64 h).length ++ (wU64 h ++ rest))) =
      readChunks { st with out := { st.out with shaderIdHash := h } } rest := by
  have hl8 : (wU64 h).length = 8 := leBytes_length 8 h
  rw [readChunks_chunk st _ _ _ (by decide) (by rw [hl8]; norm_num)]
  have ha : applyChunk st (tag_u32 "SIDH") (wU64 h) =
      .ok { st with out := { st.out with shaderIdHash := h } } := by
    unfold applyChunk
    rw [if_pos rfl, if_neg (show ¬(wU64 h).length ≠ 8 from by rw [hl8]; simp)]
    rw [show leVal 8 (wU64 h) = h from leVal_leBytes 8 h (by norm_num; omega)]
  rw [ha]

theorem readChunks_vkey (st : ChunkState) (h : Nat) (rest : List Nat)
    (hh : h < 18446744073709551616) :
    readChunks st (wU32 (tag_u32 "VKEY") ++ (wU32 (wU64 h).length ++ (wU64 h ++ rest))) =
      readChunks
        { st with
            out := { st.out with variantHash := h }
            hasVKEY := true } rest := by
  have hl8 : (wU64 h).length = 8 := leBytes_length 8 h
  rw [readChunks_chunk st _ _ _ (by decide) (by rw [hl8]; norm_num)]
  have ha : applyChunk st (tag_u32 "VKEY") (wU64 h) =
      .ok { st with
              out := { st.out with variantHash := h }
              hasVKEY := true } := by
    unfold applyChunk
    rw [if_neg (by decide), if_pos rfl,
      if_neg (show ¬(wU64 h).length ≠ 8 from by rw [hl8]; simp)]
    rw [show leVal 8 (wU64 h) = h from leVal_leBytes 8 h (by norm_num; omega)]
  rw [ha]

theorem readChunks_tail (st : ChunkState) (sp : List Nat) (r : ShaderReflection)
    (m : MaterialDescription)
    (hsp : ∀ w ∈ sp, w < 4294967296) (hsl : sp.length * 4 < 4294967296)
    (hr : VReflection r) (hrl : (serialize_reflection r).length < 4294967296)
    (hm : VMDesc m) (hml : (serialize_mdesc m).length < 4294967296) :
    readChunks st
      (wU32 (tag_u32 "SPRV") ++ (wU32 (sp.flatMap (leBytes 4)).length ++
        (sp.flatMap (leBytes 4) ++
        (wU32 (tag_u32 "REFL") ++ (wU32 (serialize_reflection r).length ++
        (serialize_reflection r ++
        (wU32 (tag_u32 "MDES") ++ (wU32 (serialize_mdesc m).length ++
        serialize_mdesc m)))))))) =
    .ok { st with
            out := { st.out with
                       spirv := sp
                       reflection := r
                       materialDesc := m }
            hasSPRV := true
            hasREFL := true
            hasMDES := true } := by
  rw [readChunks_chunk st _ _ _ (by decide)
    (by rw [flatMap_leBytes4_length]; omega)]
  have ha1 : applyChunk st (tag_u32 "SPRV") (sp.flatMap (leBytes 4)) =
      .ok { st with
              out := { st.out with spirv := sp }
              hasSPRV := true } := by
    unfold applyChunk
    rw [if_neg (by decide), if_neg (by decide), if_pos rfl,
      if_neg (show ¬(sp.flatMap (leBytes 4)).length % 4 ≠ 0 from by
        rw [flatMap_leBytes4_length]; simp [Nat.mul_mod_right])]
    rw [wordsOfBytes_flatMap sp hsp]
  rw [ha1]
  dsimp only
  rw [readChunks_chunk _ _ _ _ (by decide) hrl]
  have ha2 : applyChunk
      { st with
          out := { st.out with spirv := sp }
          hasSPRV := true } (tag_u32 "REFL") (serialize_reflection r) =
      .ok { st with
              out := { st.out with
                         spirv := sp
                         reflection := r }
              hasSPRV := true
              hasREFL := true } := by
    unfold applyChunk
    rw [if_neg (by decide), if_neg (by decide), if_neg (by decide), if_pos rfl,
      deserialize_serialize_reflection r hr]
  rw [ha2]
  dsimp only
  rw [readChunks_last _ _ _ (by decide) hml]
  have ha3 : applyChunk
      { st with
          out := { st.out with
                     spirv := sp
                     reflection := r }
          hasSPRV := true
          hasREFL := true } (tag_u32 "MDES") (serialize_mdesc m) =
      .ok { st with
              out := { st.out with
                         spirv := sp
                         reflection := r
                         materialDesc := m }
              hasSPRV := true
              hasREFL := true
              hasMDES := true } := by
    unfold applyChunk
    rw [if_neg (by decide), if_neg (by decide), if_neg (by decide),
      if_neg (by decide), if_pos rfl, deserialize_serialize_mdesc m hm]
  rw [ha3]

theorem read_vshbin_header_r (f ch sh : Nat) (cr : List Nat) (hf : f < 4294967296)
    (hch : ch < 18446744073709551616) (hsh : sh < 18446744073709551616) :
    read_vshbin (vshbinMagic ++ (wU32 2 ++ (wU32 f ++ (wU64 ch ++ (wU64 sh ++ cr))))) =
      (match readChunks
          { out := { contentHash := ch, spirvHash := sh, stage := f % 256 } } cr with
       | .error e => .error e
       | .ok st =>
         if st.hasSPRV = false then .error "Missing SPRV chunk."
         else if st.hasREFL = false then .error "Missing REFL chunk."
         else if st.hasMDES = false then .error "Missing MDES chunk."
         else if st.out.spirvHash ≠ 0 ∧ xxh64_words st.out.spirv ≠ st.out.spirvHash then
           .error "SPIR-V hash mismatch."
         else .ok st.out) := by
  rw [show vshbinMagic ++ (wU32 2 ++ (wU32 f ++ (wU64 ch ++ (wU64 sh ++ cr)))) =
    vshbinMagic ++ wU32 2 ++ wU32 f ++ wU64 ch ++ wU64 sh ++ cr from by
      simp [List.append_assoc]]
  exact read_vshbin_header f ch sh cr hf hch hsh

theorem read_write_vshbin (b : ShaderBinary) (hv : VBinary b) (img : List Nat)
    (hw : write_vshbin b = .ok img) : read_vshbin img = .ok b := by
  obtain ⟨ch, sh, sidh, vkey, stage, refl, mdesc, sp⟩ := b
  obtain ⟨h1, h2, h3, h4, h5, h6, h7, h8, h9, h10, h11, h12, h13⟩ := hv
  dsimp only at h1 h2 h3 h4 h5 h6 h7 h8 h9 h10 h11 h12 h13
  unfold write_vshbin at hw
  dsimp only at hw
  rw [if_neg h1] at hw
  simp only [Except.ok.injEq] at hw
  subst hw
  have hnc : ¬(sh ≠ 0 ∧ xxh64_words sp ≠ sh) := by
    rcases h9 with h | h
    · subst h; simp
    · subst h; simp
  have hst : stage % 256 = stage := Nat.mod_eq_of_lt h8
  rw [hst]
  by_cases hs0 : sidh = 0 <;> by_cases hk0 : vkey = 0
  · subst hs0; subst hk0
    simp only [ite_zero, List.append_nil, List.append_assoc]
    rw [read_vshbin_header_r stage ch sh _ (by omega) h4 h5]
    rw [readChunks_tail _ sp refl mdesc h2 h3 h10 h11 h12 h13]
    simp [hnc, hst]
  · subst hs0
    simp only [ite_zero, if_pos hk0, List.append_nil, List.append_assoc]
    rw [read_vshbin_header_r stage ch sh _ (by omega) h4 h5]
    rw [readChunks_vkey _ vkey _ h7]
    rw [readChunks_tail _ sp refl mdesc h2 h3 h10 h11 h12 h13]
    simp [hnc, hst]
  · subst hk0
    simp only [ite_zero, if_pos hs0, List.append_nil, List.append_assoc]
    rw [read_vshbin_header_r stage ch sh _ (by omega) h4 h5]
    rw [readChunks_sidh _ sidh _ h6]
    rw [readChunks_tail _ sp refl mdesc h2 h3 h10 h11 h12 h13]
    simp [hnc, hst]
  · simp only [if_pos hs0, if_pos hk0, List.append_assoc]
    rw [read_vshbin_header_r stage ch sh _ (by omega) h4 h5]
    rw [readChunks_sidh _ sidh _ h6]
    rw [readChunks_vkey _ vkey _ h7]
    rw [readChunks_tail _ sp refl mdesc h2 h3 h10 h11 h12 h13]
    simp [hnc, hst]

-- ------------------------------------------------------------
-- .vshlib proofs
-- ------------------------------------------------------------

/-- A library entry the writer accepts and whose numbers survive the
packed TOC record. -/
def VLibEntry (e : ShaderLibraryEntry) : Prop :=
  e.stage < 256 ∧ e.stage ≠ stageUnknown ∧ e.keyHash ≠ 0 ∧
  e.keyHash < 18446744073709551616

instance (e : ShaderLibraryEntry) : Decidable (VLibEntry e) := by
  unfold VLibEntry; infer_instance

/-- A TOC record whose numbers survive the packed 32-byte encoding. -/
def VTocEntry (t : ShaderLibraryTOCEntry) : Prop :=
  t.keyHash < 18446744073709551616 ∧ t.stage < 256 ∧
  t.offset < 18446744073709551616 ∧ t.size < 18446744073709551616

instance (t : ShaderLibraryTOCEntry) : Decidable (VTocEntry t) := by
  unfold VTocEntry; infer_instance

theorem buildVslibToc_length (es : List ShaderLibraryEntry) (off : Nat)
    (toc : List ShaderLibraryTOCEntry) (blob : List Nat)
    (htoc : buildVslibToc off es = .ok (toc, blob)) : toc.length = es.length := by
  induction es generalizing off toc blob with
  | nil =>
      rw [buildVslibToc] at htoc
      simp only [Except.ok.injEq, Prod.mk.injEq] at htoc
      rw [← htoc.1]
      rfl
  | cons e es ih =>
      rw [buildVslibToc] at htoc
      by_cases h1 : e.stage = stageUnknown
      · rw [if_pos h1] at htoc; exact absurd htoc (by simp)
      rw [if_neg h1] at htoc
      by_cases h2 : e.keyHash = 0
      · rw [if_pos h2] at htoc; exact absurd htoc (by simp)
      rw [if_neg h2] at htoc
      rcases hrec : buildVslibToc (off + e.blob.length) es with er | tb
      · rw [hrec] at htoc; exact absurd htoc (by simp)
      · rw [hrec] at htoc
        obtain ⟨toc2, blob2⟩ := tb
        simp only [Except.ok.injEq, Prod.mk.injEq] at htoc
        rw [← htoc.1]
        simp [ih (off + e.blob.length) toc2 blob2 hrec]

theorem buildVslibToc_blob (es : List ShaderLibraryEntry) (off : Nat)
    (toc : List ShaderLibraryTOCEntry) (blob : List Nat)
    (htoc : buildVslibToc off es = .ok (toc, blob)) :
    blob = es.flatMap (fun e => e.blob) := by
  induction es generalizing off toc blob with
  | nil =>
      rw [buildVslibToc] at htoc
      simp only [Except.ok.injEq, Prod.mk.injEq] at htoc
      rw [← htoc.2]
      rfl
  | cons e es ih =>
      rw [buildVslibToc] at htoc
      by_cases h1 : e.stage = stageUnknown
      · rw [if_pos h1] at htoc; exact absurd htoc (by simp)
      rw [if_neg h1] at htoc
      by_cases h2 : e.keyHash = 0
      · rw [if_pos h2] at htoc; exact absurd htoc (by simp)
      rw [if_neg h2] at htoc
      rcases hrec : buildVslibToc (off + e.blob.length) es with er | tb
      · rw [hrec] at htoc; exact absurd htoc (by simp)
      · rw [hrec] at htoc
        obtain ⟨toc2, blob2⟩ := tb
        simp only [Except.ok.injEq, Prod.mk.injEq] at htoc
        rw [← htoc.2, List.flatMap_cons, ih (off + e.blob.length) toc2 blob2 hrec]

theorem buildVslibToc_bounds (es : List ShaderLibraryEntry) (off : Nat)
    (toc : List ShaderLibraryTOCEntry) (blob : List Nat)
    (htoc : buildVslibToc off es = .ok (toc, blob)) :
    ∀ t ∈ toc, off ≤ t.offset ∧ t.offset + t.size ≤ off + blob.length := by
  induction es generalizing off toc blob with
  | nil =>
      rw [buildVslibToc] at htoc
      simp only [Except.ok.injEq, Prod.mk.injEq] at htoc
      rw [← htoc.1]
      intro t ht
      simp at ht
  | cons e es ih =>
      rw [buildVslibToc] at htoc
      by_cases h1 : e.stage = stageUnknown
      · rw [if_pos h1] at htoc; exact absurd htoc (by simp)
      rw [if_neg h1] at htoc
      by_cases h2 : e.keyHash = 0
      · rw [if_pos h2] at htoc; exact absurd htoc (by simp)
      rw [if_neg h2] at htoc
      rcases hrec : buildVslibToc (off + e.blob.length) es with er | tb
      · rw [hrec] at htoc; exact absurd htoc (by simp)
      · rw [hrec] at htoc
        obtain ⟨toc2, blob2⟩ := tb
        simp only [Except.ok.injEq, Prod.mk.injEq] at htoc
        obtain ⟨htc, hbl⟩ := htoc
        subst htc; subst hbl
        intro t ht
        rcases List.mem_cons.mp ht with h | h
        · subst h
          dsimp only
          simp only [List.length_append]
          omega
        · have := ih (off + e.blob.length) toc2 blob2 hrec t h
          simp only [List.length_append]
          omega

theorem buildVslibToc_fields (es : List ShaderLibraryEntry) (off : Nat)
    (toc : List ShaderLibraryTOCEntry) (blob : List Nat)
    (htoc : buildVslibToc off es = .ok (toc, blob))
    (hv : ∀ e ∈ es, VLibEntry e) :
    ∀ t ∈ toc, t.keyHash < 18446744073709551616 ∧ t.stage < 256 := by
  induction es generalizing off toc blob with
  | nil =>
      rw [buildVslibToc] at htoc
      simp only [Except.ok.injEq, Prod.mk.injEq] at htoc
      rw [← htoc.1]
      intro t ht
      simp at ht
  | cons e es ih =>
      rw [buildVslibToc] at htoc
      by_cases h1 : e.stage = stageUnknown
      · rw [if_pos h1] at htoc; exact absurd htoc (by simp)
      rw [if_neg h1] at htoc
      by_cases h2 : e.keyHash = 0
      · rw [if_pos h2] at htoc; exact absurd htoc (by simp)
      rw [if_neg h2] at htoc
      rcases hrec : buildVslibToc (off + e.blob.length) es with er | tb
      · rw [hrec] at htoc; exact absurd htoc (by simp)
      · rw [hrec] at htoc
        obtain ⟨toc2, blob2⟩ := tb
        simp only [Except.ok.injEq, Prod.mk.injEq] at htoc
        obtain ⟨htc, hbl⟩ := htoc
        subst htc; subst hbl
        intro t ht
        rcases List.mem_cons.mp ht with h | h
        · subst h
          obtain ⟨hv1, hv2, hv3, hv4⟩ := hv e (List.mem_cons_self _ _)
          exact ⟨hv4, hv1⟩
        · exact ih (off + e.blob.length) toc2 blob2 hrec
            (fun x hx => hv x (List.mem_cons_of_mem _ hx)) t h

theorem checkTocEntries_ok (blobEnd : Nat) (toc : List ShaderLibraryTOCEntry)
    (h : ∀ t ∈ toc, 56 ≤ t.offset ∧ t.offset + t.size ≤ blobEnd) :
    checkTocEntries blobEnd toc = .ok () := by
  induction toc with
  | nil => rfl
  | cons t toc ih =>
      obtain ⟨hl, hr⟩ := h t (List.mem_cons_self _ _)
      rw [checkTocEntries, if_neg (by omega)]
      exact ih (fun x hx => h x (List.mem_cons_of_mem _ hx))

theorem rdTocEntries_w (toc : List ShaderLibraryTOCEntry) (rest : List Nat)
    (h : ∀ t ∈ toc, VTocEntry t) :
    rdTocEntries toc.length (toc.flatMap wTocEntry ++ rest) = .ok (toc, rest) := by
  induction toc generalizing rest with
  | nil => simp [rdTocEntries]
  | cons t toc ih =>
      obtain ⟨kh, st, off, sz⟩ := t
      obtain ⟨h1, h2, h3, h4⟩ := h _ (List.mem_cons_self _ _)
      dsimp only at h1 h2 h3 h4
      have hrest : ∀ x ∈ toc, VTocEntry x := fun x hx => h x (List.mem_cons_of_mem _ hx)
      simp only [List.flatMap_cons, List.length_cons, List.append_assoc, wTocEntry]
      rw [rdTocEntries]
      have hh8 : (wU64 kh).length = 8 := leBytes_length 8 kh
      have hlenL : (wU64 kh ++ (wU8 st ++ (List.replicate 7 0 ++ (wU64 off ++
          (wU64 sz ++ (toc.flatMap wTocEntry ++ rest)))))).length =
          32 + (toc.flatMap wTocEntry ++ rest).length := by
        simp [List.length_append, wU8, wU64, leBytes_length]
        omega
      rw [if_pos (by omega)]
      have hkh : leVal 8 (wU64 kh ++ (wU8 st ++ (List.replicate 7 0 ++ (wU64 off ++
          (wU64 sz ++ (toc.flatMap wTocEntry ++ rest)))))) = kh := by
        rw [leVal_append 8 (wU64 kh) _ hh8]
        exact leVal_leBytes 8 kh (by norm_num; omega)
      have hd8 : (wU64 kh ++ (wU8 st ++ (List.replicate 7 0 ++ (wU64 off ++
          (wU64 sz ++ (toc.flatMap wTocEntry ++ rest)))))).drop 8 =
          wU8 st ++ (List.replicate 7 0 ++ (wU64 off ++
            (wU64 sz ++ (toc.flatMap wTocEntry ++ rest)))) := by
        have hx := List.drop_left (wU64 kh) (wU8 st ++ (List.replicate 7 0 ++ (wU64 off ++
          (wU64 sz ++ (toc.flatMap wTocEntry ++ rest)))))
        rwa [hh8] at hx
      have hst : ((wU64 kh ++ (wU8 st ++ (List.replicate 7 0 ++ (wU64 off ++
          (wU64 sz ++ (toc.flatMap wTocEntry ++ rest)))))).drop 8).headD 0 % 256 = st := by
        rw [hd8]
        simp only [wU8, leBytes, List.cons_append, List.headD_cons, List.nil_append]
        omega
      have hgrp : wU8 st ++ (List.replicate 7 0 ++ (wU64 off ++
          (wU64 sz ++ (toc.flatMap wTocEntry ++ rest)))) =
          (wU8 st ++ List.replicate 7 0) ++ (wU64 off ++
            (wU64 sz ++ (toc.flatMap wTocEntry ++ rest))) := by
        simp [List.append_assoc]
      have hd16 : (wU64 kh ++ (wU8 st ++ (List.replicate 7 0 ++ (wU64 off ++
          (wU64 sz ++ (toc.flatMap wTocEntry ++ rest)))))).drop 16 =
          wU64 off ++ (wU64 sz ++ (toc.flatMap wTocEntry ++ rest)) := by
        rw [show (16 : Nat) = 8 + 8 from rfl, ← List.drop_drop, hd8, hgrp]
        have hx := List.drop_left (wU8 st ++ List.replicate 7 0)
          (wU64 off ++ (wU64 sz ++ (toc.flatMap wTocEntry ++ rest)))
        have hl8 : (wU8 st ++ List.replicate 7 0).length = 8 := by
          simp [wU8, leBytes_length]
        rwa [hl8] at hx
      have hoff : leVal 8 ((wU64 kh ++ (wU8 st ++ (List.replicate 7 0 ++ (wU64 off ++
          (wU64 sz ++ (toc.flatMap wTocEntry ++ rest)))))).drop 16) = off := by
        rw [hd16, leVal_append 8 (wU64 off) _ (leBytes_length 8 off)]
        exact leVal_leBytes 8 off (by norm_num; omega)
      have hd24 : (wU64 kh ++ (wU8 st ++ (List.replicate 7 0 ++ (wU64 off ++
          (wU64 sz ++ (toc.flatMap wTocEntry ++ rest)))))).drop 24 =
          wU64 sz ++ (toc.flatMap wTocEntry ++ rest) := by
        rw [show (24 : Nat) = 16 + 8 from rfl, ← List.drop_drop, hd16]
        have hx := List.drop_left (wU64 off) (wU64 sz ++ (toc.flatMap wTocEntry ++ rest))
        rwa [show (wU64 off).length = 8 from leBytes_length 8 off] at hx
      have hsz : leVal 8 ((wU64 kh ++ (wU8 st ++ (List.replicate 7 0 ++ (wU64 off ++
          (wU64 sz ++ (toc.flatMap wTocEntry ++ rest)))))).drop 24) = sz := by
        rw [hd24, leVal_append 8 (wU64 sz) _ (leBytes_length 8 sz)]
        exact leVal_leBytes 8 sz (by norm_num; omega)
      have hd32 : (wU64 kh ++ (wU8 st ++ (List.replicate 7 0 ++ (wU64 off ++
          (wU64 sz ++ (toc.flatMap wTocEntry ++ rest)))))).drop 32 =
          toc.flatMap wTocEntry ++ rest := by
        rw [show (32 : Nat) = 24 + 8 from rfl, ← List.drop_drop, hd24]
        have hx := List.drop_left (wU64 sz) (toc.flatMap wTocEntry ++ rest)
        rwa [show (wU64 sz).length = 8 from leBytes_length 8 sz] at hx
      rw [hkh, hst, hoff, hsz, hd32, ih rest hrest]

theorem extract_scan_build (es : List ShaderLibraryEntry) (pre : List Nat)
    (toc : List ShaderLibraryTOCEntry) (blob : List Nat)
    (htoc : buildVslibToc (56 + pre.length) es = .ok (toc, blob))
    (hdist : es.Pairwise (fun a b => ¬(a.keyHash = b.keyHash ∧ a.stage = b.stage))) :
    ∀ e ∈ es, extract_scan (pre ++ blob) e.keyHash e.stage toc = .ok e.blob := by
  induction es generalizing pre toc blob with
  | nil => intro e he; simp at he
  | cons e0 es ih =>
      rw [buildVslibToc] at htoc
      by_cases h1 : e0.stage = stageUnknown
      · rw [if_pos h1] at htoc; exact absurd htoc (by simp)
      rw [if_neg h1] at htoc
      by_cases h2 : e0.keyHash = 0
      · rw [if_pos h2] at htoc; exact absurd htoc (by simp)
      rw [if_neg h2] at htoc
      rcases hrec : buildVslibToc (56 + pre.length + e0.blob.length) es with er | tb
      · rw [hrec] at htoc; exact absurd htoc (by simp)
      rw [hrec] at htoc
      obtain ⟨toc2, blob2⟩ := tb
      simp only [Except.ok.injEq, Prod.mk.injEq] at htoc
      obtain ⟨htc, hbl⟩ := htoc
      subst htc; subst hbl
      rcases List.pairwise_cons.mp hdist with ⟨hd0, hdtl⟩
      intro e he
      rcases List.mem_cons.mp he with he0 | hes
      · subst he0
        rw [extract_scan]
        rw [if_pos ⟨rfl, rfl⟩]
        dsimp only
        rw [if_neg (by simp only [List.length_append]; omega)]
        rw [show 56 + pre.length - 56 = pre.length from by omega]
        rw [List.drop_left, List.take_left]
      · rw [extract_scan]
        rw [if_neg (by
          intro hc
          exact hd0 e hes ⟨hc.1, hc.2⟩)]
        have hrec2 : buildVslibToc (56 + (pre ++ e0.blob).length) es = .ok (toc2, blob2) := by
          rw [show 56 + (pre ++ e0.blob).length = 56 + pre.length + e0.blob.length from by
            simp [List.length_append]; omega]
          exact hrec
        have := ih (pre ++ e0.blob) toc2 blob2 hrec2 hdtl e hes
        rwa [List.append_assoc] at this

theorem flatMap_wTocEntry_length (toc : List ShaderLibraryTOCEntry) :
    (toc.flatMap wTocEntry).length = 32 * toc.length := by
  induction toc with
  | nil => rfl
  | cons t toc ih =>
      simp only [List.flatMap_cons, List.length_append, ih, List.length_cons, wTocEntry,
        wU8, wU64, leBytes_length, List.length_replicate]
      omega

theorem read_vslib_header (n tOff tSz kOff kSz : Nat) (body : List Nat)
    (hn : n < 4294967296) (ht1 : tOff < 18446744073709551616)
    (ht2 : tSz < 18446744073709551616) (hk1 : kOff < 18446744073709551616)
    (hk2 : kSz < 18446744073709551616) :
    read_vslib (wVslibHeader n tOff tSz kOff kSz ++ body) =
      (if tOff + tSz > (wVslibHeader n tOff tSz kOff kSz ++ body).length then
         .error "VSHLIB TOC out of file range."
       else if kOff ≠ 0 ∧ kOff + kSz > (wVslibHeader n tOff tSz kOff kSz ++ body).length then
         .error "VSHLIB keywords chunk out of file range."
       else if kOff ≠ 0 ∧ kOff < tOff + tSz then
         .error "VSHLIB keywords chunk overlaps TOC."
       else
         if (body.take (tOff - 56)).length ≠ tOff - 56 then .error "Failed to read file."
         else
           match rdTocEntries n ((wVslibHeader n tOff tSz kOff kSz ++ body).drop tOff) with
           | .error e => .error e
           | .ok (toc, _) =>
             match checkTocEntries tOff toc with
             | .error e => .error e
             | .ok _ =>
               if kOff ≠ 0 ∧ kSz > 0 ∧
                   ((if kOff ≠ 0 ∧ kSz > 0 then
                       ((wVslibHeader n tOff tSz kOff kSz ++ body).drop kOff).take kSz
                     else []) : List Nat).length ≠ kSz then
                 .error "Failed to read file."
               else
                 .ok { entries := toc, blobData := body.take (tOff - 56),
                       engineKeywordsVkw :=
                         if kOff ≠ 0 ∧ kSz > 0 then
                           ((wVslibHeader n tOff tSz kOff kSz ++ body).drop kOff).take kSz
                         else [] }) := by
  have hm8 : vshlibMagic.length = 8 := rfl
  have hmap : vshlibMagic.map (· % 256) = vshlibMagic := by decide
  have hassoc : wVslibHeader n tOff tSz kOff kSz ++ body = vshlibMagic ++ (wU32 2 ++ (wU32 0 ++ (wU32 n ++ (wU32 0 ++ (wU64 tOff ++ (wU64 tSz ++ (wU64 kOff ++ (wU64 kSz ++ (body))))))))) := by
    simp [wVslibHeader, List.append_assoc]
  rw [hassoc]
  have hlenL : (vshlibMagic ++ (wU32 2 ++ (wU32 0 ++ (wU32 n ++ (wU32 0 ++ (wU64 tOff ++ (wU64 tSz ++ (wU64 kOff ++ (wU64 kSz ++ (body)))))))))).length = 56 + body.length := by
    simp [List.length_append, hm8, wU32, wU64, leBytes_length]
    omega
  have ht8 : (vshlibMagic ++ (wU32 2 ++ (wU32 0 ++ (wU32 n ++ (wU32 0 ++ (wU64 tOff ++ (wU64 tSz ++ (wU64 kOff ++ (wU64 kSz ++ (body)))))))))).take 8 = vshlibMagic := by
    have hx := List.take_left vshlibMagic (wU32 2 ++ (wU32 0 ++ (wU32 n ++ (wU32 0 ++ (wU64 tOff ++ (wU64 tSz ++ (wU64 kOff ++ (wU64 kSz ++ (body)))))))))
    rwa [hm8] at hx
  have hd8 : (vshlibMagic ++ (wU32 2 ++ (wU32 0 ++ (wU32 n ++ (wU32 0 ++ (wU64 tOff ++ (wU64 tSz ++ (wU64 kOff ++ (wU64 kSz ++ (body)))))))))).drop 8 = wU32 2 ++ (wU32 0 ++ (wU32 n ++ (wU32 0 ++ (wU64 tOff ++ (wU64 tSz ++ (wU64 kOff ++ (wU64 kSz ++ (body)))))))) := by
    have hx := List.drop_left vshlibMagic (wU32 2 ++ (wU32 0 ++ (wU32 n ++ (wU32 0 ++ (wU64 tOff ++ (wU64 tSz ++ (wU64 kOff ++ (wU64 kSz ++ (body)))))))))
    rwa [hm8] at hx
  have hd12 : (vshlibMagic ++ (wU32 2 ++ (wU32 0 ++ (wU32 n ++ (wU32 0 ++ (wU64 tOff ++ (wU64 tSz ++ (wU64 kOff ++ (wU64 kSz ++ (body)))))))))).drop 12 = wU32 0 ++ (wU32 n ++ (wU32 0 ++ (wU64 tOff ++ (wU64 tSz ++ (wU64 kOff ++ (wU64 kSz ++ (body))))))) := by
    rw [show (12 : Nat) = 8 + 4 from rfl, ← List.drop_drop, hd8]
    have hx := List.drop_left (wU32 2) (wU32 0 ++ (wU32 n ++ (wU32 0 ++ (wU64 tOff ++ (wU64 tSz ++ (wU64 kOff ++ (wU64 kSz ++ (body))))))))
    rwa [show (wU32 2).length = 4 from leBytes_length 4 2] at hx
  have hd16 : (vshlibMagic ++ (wU32 2 ++ (wU32 0 ++ (wU32 n ++ (wU32 0 ++ (wU64 tOff ++ (wU64 tSz ++ (wU64 kOff ++ (wU64 kSz ++ (body)))))))))).drop 16 = wU32 n ++ (wU32 0 ++ (wU64 tOff ++ (wU64 tSz ++ (wU64 kOff ++ (wU64 kSz ++ (body)))))) := by
    rw [show (16 : Nat) = 12 + 4 from rfl, ← List.drop_drop, hd12]
    have hx := List.drop_left (wU32 0) (wU32 n ++ (wU32 0 ++ (wU64 tOff ++ (wU64 tSz ++ (wU64 kOff ++ (wU64 kSz ++ (body)))))))
    rwa [show (wU32 0).length = 4 from leBytes_length 4 0] at hx
  have hd20 : (vshlibMagic ++ (wU32 2 ++ (wU32 0 ++ (wU32 n ++ (wU32 0 ++ (wU64 tOff ++ (wU64 tSz ++ (wU64 kOff ++ (wU64 kSz ++ (body)))))))))).drop 20 = wU32 0 ++ (wU64 tOff ++ (wU64 tSz ++ (wU64 kOff ++ (wU64 kSz ++ (body))))) := by
    rw [show (20 : Nat) = 16 + 4 from rfl, ← List.drop_drop, hd16]
    have hx := List.drop_left (wU32 n) (wU32 0 ++ (wU64 tOff ++ (wU64 tSz ++ (wU64 kOff ++ (wU64 kSz ++ (body))))))
    rwa [show (wU32 n).length = 4 from leBytes_length 4 n] at hx
  have hd24 : (vshlibMagic ++ (wU32 2 ++ (wU32 0 ++ (wU32 n ++ (wU32 0 ++ (wU64 tOff ++ (wU64 tSz ++ (wU64 kOff ++ (wU64 kSz ++ (body)))))))))).drop 24 = wU64 tOff ++ (wU64 tSz ++ (wU64 kOff ++ (wU64 kSz ++ (body)))) := by
    rw [show (24 : Nat) = 20 + 4 from rfl, ← List.drop_drop, hd20]
    have hx := List.drop_left (wU32 0) (wU64 tOff ++ (wU64 tSz ++ (wU64 kOff ++ (wU64 kSz ++ (body)))))
    rwa [show (wU32 0).length = 4 from leBytes_length 4 0] at hx
  have hd32 : (vshlibMagic ++ (wU32 2 ++ (wU32 0 ++ (wU32 n ++ (wU32 0 ++ (wU64 tOff ++ (wU64 tSz ++ (wU64 kOff ++ (wU64 kSz ++ (body)))))))))).drop 32 = wU64 tSz ++ (wU64 kOff ++ (wU64 kSz ++ (body))) := by
    rw [show (32 : Nat) = 24 + 8 from rfl, ← List.drop_drop, hd24]
    have hx := List.drop_left (wU64 tOff) (wU64 tSz ++ (wU64 kOff ++ (wU64 kSz ++ (body))))
    rwa [show (wU64 tOff).length = 8 from leBytes_length 8 tOff] at hx
  have hd40 : (vshlibMagic ++ (wU32 2 ++ (wU32 0 ++ (wU32 n ++ (wU32 0 ++ (wU64 tOff ++ (wU64 tSz ++ (wU64 kOff ++ (wU64 kSz ++ (body)))))))))).drop 40 = wU64 kOff ++ (wU64 kSz ++ (body)) := by
    rw [show (40 : Nat) = 32 + 8 from rfl, ← List.drop_drop, hd32]
    have hx := List.drop_left (wU64 tSz) (wU64 kOff ++ (wU64 kSz ++ (body)))
    rwa [show (wU64 tSz).length = 8 from leBytes_length 8 tSz] at hx
  have hd48 : (vshlibMagic ++ (wU32 2 ++ (wU32 0 ++ (wU32 n ++ (wU32 0 ++ (wU64 tOff ++ (wU64 tSz ++ (wU64 kOff ++ (wU64 kSz ++ (body)))))))))).drop 48 = wU64 kSz ++ (body) := by
    rw [show (48 : Nat) = 40 + 8 from rfl, ← List.drop_drop, hd40]
    have hx := List.drop_left (wU64 kOff) (wU64 kSz ++ (body))
    rwa [show (wU64 kOff).length = 8 from leBytes_length 8 kOff] at hx
  have hd56 : (vshlibMagic ++ (wU32 2 ++ (wU32 0 ++ (wU32 n ++ (wU32 0 ++ (wU64 tOff ++ (wU64 tSz ++ (wU64 kOff ++ (wU64 kSz ++ (body)))))))))).drop 56 = body := by
    rw [show (56 : Nat) = 48 + 8 from rfl, ← List.drop_drop, hd48]
    have hx := List.drop_left (wU64 kSz) (body)
    rwa [show (wU64 kSz).length = 8 from leBytes_length 8 kSz] at hx
  have hv8 : leVal 4 ((vshlibMagic ++ (wU32 2 ++ (wU32 0 ++ (wU32 n ++ (wU32 0 ++ (wU64 tOff ++ (wU64 tSz ++ (wU64 kOff ++ (wU64 kSz ++ (body)))))))))).drop 8) = 2 := by
    rw [hd8, leVal_append 4 (wU32 2) _ (leBytes_length 4 2)]
    exact leVal_leBytes 4 2 (by norm_num)
  have hv16 : leVal 4 ((vshlibMagic ++ (wU32 2 ++ (wU32 0 ++ (wU32 n ++ (wU32 0 ++ (wU64 tOff ++ (wU64 tSz ++ (wU64 kOff ++ (wU64 kSz ++ (body)))))))))).drop 16) = n := by
    rw [hd16, leVal_append 4 (wU32 n) _ (leBytes_length 4 n)]
    exact leVal_leBytes 4 n (by norm_num; omega)
  have hv24 : leVal 8 ((vshlibMagic ++ (wU32 2 ++ (wU32 0 ++ (wU32 n ++ (wU32 0 ++ (wU64 tOff ++ (wU64 tSz ++ (wU64 kOff ++ (wU64 kSz ++ (body)))))))))).drop 24) = tOff := by
    rw [hd24, leVal_append 8 (wU64 tOff) _ (leBytes_length 8 tOff)]
    exact leVal_leBytes 8 tOff (by norm_num; omega)
  have hv32 : leVal 8 ((vshlibMagic ++ (wU32 2 ++ (wU32 0 ++ (wU32 n ++ (wU32 0 ++ (wU64 tOff ++ (wU64 tSz ++ (wU64 kOff ++ (wU64 kSz ++ (body)))))))))).drop 32) = tSz := by
    rw [hd32, leVal_append 8 (wU64 tSz) _ (leBytes_length 8 tSz)]
    exact leVal_leBytes 8 tSz (by norm_num; omega)
  have hv40 : leVal 8 ((vshlibMagic ++ (wU32 2 ++ (wU32 0 ++ (wU32 n ++ (wU32 0 ++ (wU64 tOff ++ (wU64 tSz ++ (wU64 kOff ++ (wU64 kSz ++ (body)))))))))).drop 40) = kOff := by
    rw [hd40, leVal_append 8 (wU64 kOff) _ (leBytes_length 8 kOff)]
    exact leVal_leBytes 8 kOff (by norm_num; omega)
  have hv48 : leVal 8 ((vshlibMagic ++ (wU32 2 ++ (wU32 0 ++ (wU32 n ++ (wU32 0 ++ (wU64 tOff ++ (wU64 tSz ++ (wU64 kOff ++ (wU64 kSz ++ (body)))))))))).drop 48) = kSz := by
    rw [hd48, leVal_append 8 (wU64 kSz) _ (leBytes_length 8 kSz)]
    exact leVal_leBytes 8 kSz (by norm_num; omega)
  unfold read_vslib
  rw [if_neg (by omega), ht8, hmap, if_neg (by simp), hv8]
  rw [if_neg (by norm_num)]
  simp only [hv16, hv24, hv32, hv40, hv48, hd56, hlenL]

theorem write_vslib_eq (es : List ShaderLibraryEntry) (kw : List Nat)
    (toc : List ShaderLibraryTOCEntry) (blob : List Nat)
    (htoc : buildVslibToc 56 (es.mergeSort entryLe) = .ok (toc, blob)) :
    write_vslib es kw =
      .ok (wVslibHeader toc.length (56 + blob.length) (toc.length * 32)
            (if kw.length > 0 then 56 + blob.length + toc.length * 32 else 0) kw.length ++
          (blob ++ (toc.flatMap wTocEntry ++ kw))) := by
  unfold write_vslib write_vslib_chunks
  simp only [htoc]
  by_cases hb : blob = [] <;> by_cases ht : toc = [] <;> by_cases hk : kw.length > 0 <;>
    simp [hb, ht, hk] <;>
    exact List.eq_nil_of_length_eq_zero (by omega)

theorem read_write_vslib (es : List ShaderLibraryEntry) (kw : List Nat)
    (toc : List ShaderLibraryTOCEntry) (blob : List Nat)
    (htoc : buildVslibToc 56 (es.mergeSort entryLe) = .ok (toc, blob))
    (hv : ∀ e ∈ es, VLibEntry e)
    (hcnt : toc.length < 4294967296)
    (htot : 56 + blob.length + toc.length * 32 + kw.length < 18446744073709551616)
    (hdist : es.Pairwise (fun a b => ¬(a.keyHash = b.keyHash ∧ a.stage = b.stage)))
    (img : List Nat) (hw : write_vslib es kw = .ok img) :
    read_vslib img = .ok { entries := toc, blobData := blob, engineKeywordsVkw := kw } ∧
    ∀ e ∈ es, extract_vslib_blob
      { entries := toc, blobData := blob, engineKeywordsVkw := kw } e.keyHash e.stage =
      .ok e.blob := by
  have hvs : ∀ e ∈ es.mergeSort entryLe, VLibEntry e :=
    fun e he => hv e (List.mem_mergeSort.mp he)
  have htlen : (toc.flatMap wTocEntry).length = 32 * toc.length :=
    flatMap_wTocEntry_length toc
  have hbounds := buildVslibToc_bounds _ _ _ _ htoc
  have hfields := buildVslibToc_fields _ _ _ _ htoc hvs
  have hVtoc : ∀ t ∈ toc, VTocEntry t := by
    intro t ht
    obtain ⟨hk1, hs1⟩ := hfields t ht
    obtain ⟨ho1, ho2⟩ := hbounds t ht
    exact ⟨hk1, hs1, by omega, by omega⟩
  have hcheck : checkTocEntries (56 + blob.length) toc = .ok () :=
    checkTocEntries_ok _ _ (fun t ht => hbounds t ht)
  have hm8 : vshlibMagic.length = 8 := rfl
  constructor
  · rw [write_vslib_eq es kw toc blob htoc] at hw
    simp only [Except.ok.injEq] at hw
    subst hw
    by_cases hkw : kw.length > 0
    · rw [if_pos hkw]
      rw [read_vslib_header toc.length (56 + blob.length) (toc.length * 32)
        (56 + blob.length + toc.length * 32) kw.length
        (blob ++ (toc.flatMap wTocEntry ++ kw)) hcnt (by omega) (by omega) (by omega)
        (by omega)]
      have hhdr : (wVslibHeader toc.length (56 + blob.length) (toc.length * 32)
          (56 + blob.length + toc.length * 32) kw.length).length = 56 := by
        simp [wVslibHeader, List.length_append, hm8, wU32, wU64, leBytes_length]
      have hlen : (wVslibHeader toc.length (56 + blob.length) (toc.length * 32)
          (56 + blob.length + toc.length * 32) kw.length ++
          (blob ++ (toc.flatMap wTocEntry ++ kw))).length =
          56 + blob.length + 32 * toc.length + kw.length := by
        simp only [List.length_append, hhdr, htlen]
        omega
      have hgrp1 : wVslibHeader toc.length (56 + blob.length) (toc.length * 32)
          (56 + blob.length + toc.length * 32) kw.length ++
          (blob ++ (toc.flatMap wTocEntry ++ kw)) =
          (wVslibHeader toc.length (56 + blob.length) (toc.length * 32)
            (56 + blob.length + toc.length * 32) kw.length ++ blob) ++
          (toc.flatMap wTocEntry ++ kw) := by
        simp [List.append_assoc]
      have hlen2 : (wVslibHeader toc.length (56 + blob.length) (toc.length * 32)
          (56 + blob.length + toc.length * 32) kw.length ++ blob).length =
          56 + blob.length := by
        simp [List.length_append, hhdr]
      have hdtoc : (wVslibHeader toc.length (56 + blob.length) (toc.length * 32)
          (56 + blob.length + toc.length * 32) kw.length ++
          (blob ++ (toc.flatMap wTocEntry ++ kw))).drop (56 + blob.length) =
          toc.flatMap wTocEntry ++ kw := by
        have hx := List.drop_left (wVslibHeader toc.length (56 + blob.length)
          (toc.length * 32) (56 + blob.length + toc.length * 32) kw.length ++ blob)
          (toc.flatMap wTocEntry ++ kw)
        rw [hlen2] at hx
        rw [hgrp1]
        exact hx
      have hgrp2 : wVslibHeader toc.length (56 + blob.length) (toc.length * 32)
          (56 + blob.length + toc.length * 32) kw.length ++
          (blob ++ (toc.flatMap wTocEntry ++ kw)) =
          ((wVslibHeader toc.length (56 + blob.length) (toc.length * 32)
            (56 + blob.length + toc.length * 32) kw.length ++ blob) ++
            toc.flatMap wTocEntry) ++ kw := by
        simp [List.append_assoc]
      have hlen3 : ((wVslibHeader toc.length (56 + blob.length) (toc.length * 32)
          (56 + blob.length + toc.length * 32) kw.length ++ blob) ++
          toc.flatMap wTocEntry).length = 56 + blob.length + toc.length * 32 := by
        simp only [List.length_append, hhdr, htlen]
        omega
      have hdkw : (wVslibHeader toc.length (56 + blob.length) (toc.length * 32)
          (56 + blob.length + toc.length * 32) kw.length ++
          (blob ++ (toc.flatMap wTocEntry ++ kw))).drop
            (56 + blob.length + toc.length * 32) = kw := by
        have hx := List.drop_left ((wVslibHeader toc.length (56 + blob.length)
          (toc.length * 32) (56 + blob.length + toc.length * 32) kw.length ++ blob) ++
          toc.flatMap wTocEntry) kw
        rw [hlen3] at hx
        rw [hgrp2]
        exact hx
      rw [hlen]
      rw [if_neg (by omega)]
      rw [if_neg (by rintro ⟨-, hb⟩; omega)]
      rw [if_neg (by rintro ⟨-, hb⟩; omega)]
      rw [show 56 + blob.length - 56 = blob.length from by omega]
      rw [List.take_left]
      rw [if_neg (by simp)]
      rw [hdtoc, rdTocEntries_w toc kw hVtoc]
      dsimp only
      rw [hcheck]
      dsimp only
      rw [if_pos (⟨by omega, hkw⟩ :
        56 + blob.length + toc.length * 32 ≠ 0 ∧ kw.length > 0)]
      rw [hdkw, List.take_length]
      rw [if_neg (by rintro ⟨-, -, hc⟩; exact hc rfl)]
    · rw [if_neg hkw]
      have hkw0 : kw = [] := List.eq_nil_of_length_eq_zero (by omega)
      subst hkw0
      simp only [List.length_nil]
      rw [read_vslib_header toc.length (56 + blob.length) (toc.length * 32) 0 0
        (blob ++ (toc.flatMap wTocEntry ++ [])) hcnt (by omega) (by omega) (by omega)
        (by omega)]
      have hhdr : (wVslibHeader toc.length (56 + blob.length) (toc.length * 32)
          0 0).length = 56 := by
        simp [wVslibHeader, List.length_append, hm8, wU32, wU64, leBytes_length]
      have hlen : (wVslibHeader toc.length (56 + blob.length) (toc.length * 32) 0 0 ++
          (blob ++ (toc.flatMap wTocEntry ++ []))).length =
          56 + blob.length + 32 * toc.length := by
        simp only [List.length_append, hhdr, htlen, List.length_nil]
        omega
      have hgrp1 : wVslibHeader toc.length (56 + blob.length) (toc.length * 32) 0 0 ++
          (blob ++ (toc.flatMap wTocEntry ++ [])) =
          (wVslibHeader toc.length (56 + blob.length) (toc.length * 32) 0 0 ++ blob) ++
          (toc.flatMap wTocEntry ++ []) := by
        simp [List.append_assoc]
      have hlen2 : (wVslibHeader toc.length (56 + blob.length) (toc.length * 32)
          0 0 ++ blob).length = 56 + blob.length := by
        simp [List.length_append, hhdr]
      have hdtoc : (wVslibHeader toc.length (56 + blob.length) (toc.length * 32) 0 0 ++
          (blob ++ (toc.flatMap wTocEntry ++ []))).drop (56 + blob.length) =
          toc.flatMap wTocEntry ++ [] := by
        have hx := List.drop_left (wVslibHeader toc.length (56 + blob.length)
          (toc.length * 32) 0 0 ++ blob) (toc.flatMap wTocEntry ++ [])
        rw [hlen2] at hx
        rw [hgrp1]
        exact hx
      rw [hlen]
      rw [if_neg (by omega)]
      rw [if_neg (by rintro ⟨hc, -⟩; exact hc rfl)]
      rw [if_neg (by rintro ⟨hc, -⟩; exact hc rfl)]
      rw [show 56 + blob.length - 56 = blob.length from by omega]
      rw [List.take_left]
      rw [if_neg (by simp)]
      rw [hdtoc, rdTocEntries_w toc [] hVtoc]
      dsimp only
      rw [hcheck]
      dsimp only
      rw [if_neg (show ¬((0:Nat) ≠ 0 ∧ (0:Nat) > 0) from by rintro ⟨hc, -⟩; exact hc rfl)]
      rw [if_neg (by rintro ⟨hc, -⟩; exact hc rfl)]
  · intro e he
    have hdist2 : (es.mergeSort entryLe).Pairwise
        (fun a b => ¬(a.keyHash = b.keyHash ∧ a.stage = b.stage)) :=
      ((List.mergeSort_perm es entryLe).pairwise_iff
        (fun {a b} h hc => h ⟨hc.1.symm, hc.2.symm⟩)).mpr hdist
    have htoc2 : buildVslibToc (56 + ([] : List Nat).length) (es.mergeSort entryLe) =
        .ok (toc, blob) := by simpa using htoc
    have hext := extract_scan_build (es.mergeSort entryLe) [] toc blob htoc2 hdist2 e
      (List.mem_mergeSort.mpr he)
    simp only [List.nil_append] at hext
    exact hext

-- ------------------------------------------------------------
-- Claim-level theorems. Concrete fixtures used by the closed
-- statements below.
-- ------------------------------------------------------------

/-- Concrete float operations for closed evaluations (no claim below
depends on float values). -/
def fops0 : FloatOps :=
  { stof := fun _ => some 0
    f32ToF64 := fun n => n
    f32str := fun n => natDecimal n
    f64str := fun n => natDecimal n }

/-- Empty keyword-value context. -/
def ctx0 : KeywordValueContext := {}

/-- C5: the build-side and runtime variant-hash computations agree.
For every metadata, compile options, engine-keyword set and shader-id
hash substituted for the source hash, whenever the permutation-keyword
resolution of compute_variant_hash succeeds with entries kvs, the hash
compute_variant_hash returns is exactly VariantKey.build of the same
shader-id hash, stage and entries: both sort by (nameHash, value) with
the same comparator and hash the identical byte layout. -/
theorem C5_variant_hash_parity (meta : ParsedMetadata) (opt : CompileOptions)
    (engineKw : Option EngineKeywordsFile) (h : Nat) (kvs : List (Nat × Nat))
    (hres : resolve_permutation_kvs meta.keywords (defineMap opt.defines) engineKw =
      .ok kvs) :
    compute_variant_hash meta opt engineKw h =
      .ok (VariantKey.build { shaderIdHash := h, stage := opt.stage, entries := kvs }) := by
  unfold compute_variant_hash VariantKey.build
  rw [hres]

/-- Fixture metadata for the C5 witness: a single permutation keyword A. -/
def meta5 : ParsedMetadata := { keywords := [{ name := bytes "A", dispatch := 0 }] }

/-- C5 witness: the parity theorem applied at a concrete input. -/
theorem C5_variant_hash_parity_witness :
    compute_variant_hash meta5 {} none 5 =
      .ok (VariantKey.build
        { shaderIdHash := 5
          stage := ({} : CompileOptions).stage
          entries := [(xxh64 0 (bytes "A"), 0)] }) :=
  C5_variant_hash_parity meta5 {} none 5 [(xxh64 0 (bytes "A"), 0)] (by rfl)

/-- Fixture metadata for C3: one declared parameter, nothing else. -/
def m3 : ParsedMetadata := { params := [(bytes "X", {})] }

/-- C3: with a reflection that has no Material block and metadata that
declares a parameter, validate_and_build_mdesc does NOT fail with
ParseError as the spec requires: the params-but-no-block error branch
is dead code (it sits in the else of a test the enclosing branch
already decided), and synthesis succeeds with empty params and
materialParamSize = 0 even though the metadata declares a param. -/
theorem C3_dead_params_validation :
    m3.params ≠ [] ∧
    validate_and_build_mdesc { materialBlockName := bytes "Material" } {} m3 =
      .ok { materialBlockName := bytes "Material" } := by
  constructor
  · decide
  · decide

/-- Structural-fuel twin of tokenizeWs, for closed evaluation. -/
def tokenizeWsF : Nat → List Nat → List (List Nat)
  | 0, _ => []
  | fuel + 1, s =>
    match s.dropWhile (fun c => isSpaceB c) with
    | [] => []
    | c :: rest =>
        (c :: rest.takeWhile (fun ch => !isSpaceB ch)) ::
          tokenizeWsF fuel (rest.drop (rest.takeWhile (fun ch => !isSpaceB ch)).length)

theorem tokenizeWsF_eq (fuel : Nat) (s : List Nat) (h : s.length ≤ fuel) :
    tokenizeWsF fuel s = tokenizeWs s := by
  induction fuel generalizing s with
  | zero =>
      have hs : s = [] := List.eq_nil_of_length_eq_zero (by omega)
      subst hs
      rw [tokenizeWsF, tokenizeWs]
      rfl
  | succ fuel ih =>
      rw [tokenizeWsF, tokenizeWs.eq_def]
      cases hdw : s.dropWhile (fun c => isSpaceB c) with
      | nil => rfl
      | cons c rest =>
          dsimp only
          congr 1
          have h1 : (s.dropWhile (fun c => isSpaceB c)).length ≤ s.length :=
            length_dropWhile_le _ _
          rw [hdw] at h1
          simp only [List.length_cons] at h1
          apply ih
          simp only [List.length_drop]
          omega

/-- C10: a `#pragma vultra state` line with no fourth token makes
parse_vultra_metadata read token index 3 out of bounds (in the C++
this is an unchecked std::vector operator[] access, undefined
behaviour); in the total embedding the access lands in the distinct
out-of-bounds error, whose branch the source has no guard for. -/
theorem C10_state_pragma_oob :
    parse_vultra_metadata fops0 (bytes "#pragma vultra state") = .error .oob := by
  have hsl : srcLines (bytes "#pragma vultra state") =
      [bytes "#pragma vultra state"] := by
    rw [srcLines.eq_def]
    decide
  have htw : tokenizeWs (bytes "#pragma vultra state") =
      [bytes "#pragma", bytes "vultra", bytes "state"] := by
    rw [← tokenizeWsF_eq 20 _ (by decide)]
    decide
  have hpl : parseLine fops0 ({} : ParsedMetadata) (bytes "#pragma vultra state") =
      .error .oob := by
    unfold parseLine
    simp only [show (bytes "#pragma vultra state").getLast? = some 101 from by decide,
      show (some 101 = some (13 : Nat)) = False from by decide, if_false,
      show List.dropWhile (fun c => isSpaceB c) (bytes "#pragma vultra state") =
        bytes "#pragma vultra state" from by decide, htw]
    decide
  unfold parse_vultra_metadata
  rw [hsl]
  simp only [List.foldlM, hpl]
  rfl

/-- C1: the metadata parser has no branch for the keyword directive.
A well-formed `#pragma vultra keyword permute NAME=default` line per
the spec grammar is rejected with the unknown-keyword ParseError, so
parsing fails and no KeywordDecl is ever appended. -/
theorem C1_keyword_directive_rejected :
    parse_vultra_metadata fops0
        (bytes "#pragma vultra keyword permute USE_SHADOW=1") =
      .error (.err 3 "Unknown pragma vultra keyword") := by
  have hsl : srcLines (bytes "#pragma vultra keyword permute USE_SHADOW=1") =
      [bytes "#pragma vultra keyword permute USE_SHADOW=1"] := by
    rw [srcLines.eq_def]
    decide
  have htw : tokenizeWs (bytes "#pragma vultra keyword permute USE_SHADOW=1") =
      [bytes "#pragma", bytes "vultra", bytes "keyword", bytes "permute",
        bytes "USE_SHADOW=1"] := by
    rw [← tokenizeWsF_eq 64 _ (by decide)]
    decide
  have hpl : parseLine fops0 ({} : ParsedMetadata)
      (bytes "#pragma vultra keyword permute USE_SHADOW=1") =
      .error (.err 3 "Unknown pragma vultra keyword") := by
    unfold parseLine
    simp only [show (bytes "#pragma vultra keyword permute USE_SHADOW=1").getLast? =
        some 49 from by decide,
      show (some 49 = some (13 : Nat)) = False from by decide, if_false,
      show List.dropWhile (fun c => isSpaceB c)
          (bytes "#pragma vultra keyword permute USE_SHADOW=1") =
        bytes "#pragma vultra keyword permute USE_SHADOW=1" from by decide, htw]
    decide
  unfold parse_vultra_metadata
  rw [hsl]
  simp only [List.foldlM, hpl]
  rfl


/-- Structural-fuel twin of tokenize, for closed evaluation. -/
def tokenizeF : Nat → List Nat → List Token
  | 0, _ => []
  | fuel + 1, s =>
    match lexNext s with
    | (t, r) => if t.kind = .tEnd then [t] else t :: tokenizeF fuel r

theorem tokenizeF_eq (fuel : Nat) (s : List Nat) (h : s.length < fuel) :
    tokenizeF fuel s = tokenize s := by
  induction fuel generalizing s with
  | zero => omega
  | succ fuel ih =>
      rw [tokenizeF, tokenize.eq_def]
      cases hlx : lexNext s with
      | mk t r =>
          dsimp only
          by_cases hk : t.kind = .tEnd
          · rw [if_pos hk, dif_pos hk]
          · rw [if_neg hk, dif_neg hk]
            congr 1
            apply ih
            have hc := lexNext_consumes s
            rw [hlx] at hc
            have h2 := hc hk
            dsimp only at h2
            omega


/-- Reduction of eval_only_if through a completed or-level parse, with
the parser result exposed subtype-free. -/
theorem eval_only_if_of_parse (c : List Nat) (ctx : KeywordValueContext)
    (v : Bool) (rv : List Token)
    (hne : ¬ stripOnlyIf c = [])
    (hpe : (parseExprBool ctx (tokenize (stripOnlyIf c))).map
      (fun p => (p.1, p.2.val)) = .ok (v, rv)) :
    eval_only_if c ctx =
      if (curTok rv).kind ≠ .tEnd then .error "Trailing tokens in only_if expression"
      else .ok v := by
  unfold eval_only_if
  rw [if_neg hne]
  rcases hp : parseExprBool ctx (tokenize (stripOnlyIf c)) with e | vr
  · rw [hp] at hpe
    simp [Except.map] at hpe
  · obtain ⟨v2, r2⟩ := vr
    rw [hp] at hpe
    simp only [Except.map, Except.ok.injEq, Prod.mk.injEq] at hpe
    obtain ⟨hv, hr⟩ := hpe
    subst hv
    dsimp only
    rw [hr]

/-- C9: trailing-token handling of the constraint evaluator. The empty
constraint evaluates to true for every context, and input left over
after the or-level parse is reported as the trailing-token ParseError
when it forms a recognised token: `1 2` fails. (The original spec
sentence extended this to unrecognised characters; see the
counterexample.) -/
theorem C9_trailing_tokens :
    (∀ ctx, eval_only_if [] ctx = .ok true) ∧
    eval_only_if (bytes "1 2") ctx0 = .error "Trailing tokens in only_if expression" := by
  constructor
  · intro ctx
    rfl
  · have hstrip : stripOnlyIf (bytes "1 2") = [49, 32, 50] := by decide
    have htok : tokenize [49, 32, 50] =
        [⟨.tNumber, [49]⟩, ⟨.tNumber, [50]⟩, ⟨.tEnd, []⟩] := by
      rw [← tokenizeF_eq 4 _ (by decide)]
      decide
    have hpp : parsePrimaryValue ctx0
        [⟨.tNumber, [49]⟩, ⟨.tNumber, [50]⟩, ⟨.tEnd, []⟩] =
        .ok (1, ⟨[⟨.tNumber, [50]⟩, ⟨.tEnd, []⟩], by decide⟩) := by
      rw [parsePrimaryValue.eq_def]
      dsimp only
      rw [if_neg (by decide), if_pos (by decide)]
      simp [numValue]
    have hpc : parseCmp ctx0
        [⟨.tNumber, [49]⟩, ⟨.tNumber, [50]⟩, ⟨.tEnd, []⟩] =
        .ok (true, ⟨[⟨.tNumber, [50]⟩, ⟨.tEnd, []⟩], by decide⟩) := by
      rw [parseCmp.eq_def]
      simp only [hpp]
      rw [dif_neg (by decide)]
      simp
    have har : parseAndRest ctx0 true [⟨.tNumber, [50]⟩, ⟨.tEnd, []⟩] =
        .ok (true, ⟨[⟨.tNumber, [50]⟩, ⟨.tEnd, []⟩], by decide⟩) := by
      rw [parseAndRest.eq_def]
      rw [dif_neg (by decide)]
    have hpa : parseAnd ctx0
        [⟨.tNumber, [49]⟩, ⟨.tNumber, [50]⟩, ⟨.tEnd, []⟩] =
        .ok (true, ⟨[⟨.tNumber, [50]⟩, ⟨.tEnd, []⟩], by decide⟩) := by
      rw [parseAnd.eq_def]
      simp only [hpc]
      simp only [har]
    have hor : parseOrRest ctx0 true [⟨.tNumber, [50]⟩, ⟨.tEnd, []⟩] =
        .ok (true, ⟨[⟨.tNumber, [50]⟩, ⟨.tEnd, []⟩], by decide⟩) := by
      rw [parseOrRest.eq_def]
      rw [dif_neg (by decide)]
    have hpo : parseOr ctx0
        [⟨.tNumber, [49]⟩, ⟨.tNumber, [50]⟩, ⟨.tEnd, []⟩] =
        .ok (true, ⟨[⟨.tNumber, [50]⟩, ⟨.tEnd, []⟩], by decide⟩) := by
      rw [parseOr.eq_def]
      simp only [hpa]
      simp only [hor]
    have hpe : parseExprBool ctx0
        [⟨.tNumber, [49]⟩, ⟨.tNumber, [50]⟩, ⟨.tEnd, []⟩] =
        .ok (true, ⟨[⟨.tNumber, [50]⟩, ⟨.tEnd, []⟩], by decide⟩) := by
      rw [parseExprBool.eq_def]
      exact hpo
    have hpeM : (parseExprBool ctx0 (tokenize (stripOnlyIf (bytes "1 2")))).map
        (fun p => (p.1, p.2.val)) =
        .ok (true, [⟨.tNumber, [50]⟩, ⟨.tEnd, []⟩]) := by
      rw [hstrip, htok, hpe]
      rfl
    rw [eval_only_if_of_parse (bytes "1 2") ctx0 true
      [⟨.tNumber, [50]⟩, ⟨.tEnd, []⟩] (by rw [hstrip]; decide) hpeM]
    rw [if_pos (by decide)]

/-- C9 counterexample: an unrecognised trailing character is NOT a
parse error. The lexer consumes `~` and reports end-of-input, so
`1 ~` evaluates to true instead of failing as the spec requires for
remaining non-whitespace input. -/
theorem C9_unrecognised_char_accepted :
    eval_only_if (bytes "1 ~") ctx0 = .ok true := by
  have hstrip : stripOnlyIf (bytes "1 ~") = [49, 32, 126] := by decide
  have htok : tokenize [49, 32, 126] = [⟨.tNumber, [49]⟩, ⟨.tEnd, []⟩] := by
    rw [← tokenizeF_eq 4 _ (by decide)]
    decide
  have hpp : parsePrimaryValue ctx0 [⟨.tNumber, [49]⟩, ⟨.tEnd, []⟩] =
      .ok (1, ⟨[⟨.tEnd, []⟩], by decide⟩) := by
    rw [parsePrimaryValue.eq_def]
    dsimp only
    rw [if_neg (by decide), if_pos (by decide)]
    simp [numValue]
  have hpc : parseCmp ctx0 [⟨.tNumber, [49]⟩, ⟨.tEnd, []⟩] =
      .ok (true, ⟨[⟨.tEnd, []⟩], by decide⟩) := by
    rw [parseCmp.eq_def]
    simp only [hpp]
    rw [dif_neg (by decide)]
    simp
  have har : parseAndRest ctx0 true [⟨.tEnd, []⟩] =
      .ok (true, ⟨[⟨.tEnd, []⟩], by decide⟩) := by
    rw [parseAndRest.eq_def]
    rw [dif_neg (by decide)]
  have hpa : parseAnd ctx0 [⟨.tNumber, [49]⟩, ⟨.tEnd, []⟩] =
      .ok (true, ⟨[⟨.tEnd, []⟩], by decide⟩) := by
    rw [parseAnd.eq_def]
    simp only [hpc]
    simp only [har]
  have hor : parseOrRest ctx0 true [⟨.tEnd, []⟩] =
      .ok (true, ⟨[⟨.tEnd, []⟩], by decide⟩) := by
    rw [parseOrRest.eq_def]
    rw [dif_neg (by decide)]
  have hpo : parseOr ctx0 [⟨.tNumber, [49]⟩, ⟨.tEnd, []⟩] =
      .ok (true, ⟨[⟨.tEnd, []⟩], by decide⟩) := by
    rw [parseOr.eq_def]
    simp only [hpa]
    simp only [hor]
  have hpe : parseExprBool ctx0 [⟨.tNumber, [49]⟩, ⟨.tEnd, []⟩] =
      .ok (true, ⟨[⟨.tEnd, []⟩], by decide⟩) := by
    rw [parseExprBool.eq_def]
    exact hpo
  have hpeM : (parseExprBool ctx0 (tokenize (stripOnlyIf (bytes "1 ~")))).map
      (fun p => (p.1, p.2.val)) = .ok (true, [⟨.tEnd, []⟩]) := by
    rw [hstrip, htok, hpe]
    rfl
  rw [eval_only_if_of_parse (bytes "1 ~") ctx0 true [⟨.tEnd, []⟩]
    (by rw [hstrip]; decide) hpeM]
  rw [if_neg (by decide)]

/-- C7: the cook orchestrator does not drop duplicate signatures
silently. When every pending variant has a fresh dedup signature the
accumulation returns all of them in order; when a signature repeats,
the whole accumulation stops with the duplicate-entry error (recorded
as the run error, failing the build) instead of skipping the later
entry and continuing. -/
theorem C7_cook_duplicates_fail :
    (∀ (tasks : List ShaderLibraryEntry) (seen : List Nat) (acc : List ShaderLibraryEntry),
      (∀ t ∈ tasks, cook_sig t.keyHash t.stage ∉ seen) →
      (tasks.map (fun t => cook_sig t.keyHash t.stage)).Nodup →
      cook_accumulate tasks seen acc = .ok (acc.reverse ++ tasks)) ∧
    cook_accumulate [{ keyHash := 7, stage := 1, blob := [1] },
        { keyHash := 7, stage := 1, blob := [2] }] [] [] =
      .error "cook: duplicate entry" := by
  constructor
  · intro tasks
    induction tasks with
    | nil => intro seen acc _ _; simp [cook_accumulate]
    | cons t tasks ih =>
        intro seen acc hfresh hnodup
        rw [cook_accumulate]
        rw [if_neg (hfresh t (List.mem_cons_self _ _))]
        simp only [List.map_cons, List.nodup_cons] at hnodup
        rw [ih (cook_sig t.keyHash t.stage :: seen) (t :: acc)
          (by
            intro x hx
            simp only [List.mem_cons]
            rintro (h | h)
            · exact hnodup.1 (h ▸ List.mem_map_of_mem _ hx)
            · exact hfresh x (List.mem_cons_of_mem _ hx) h)
          hnodup.2]
        simp
  · rw [cook_accumulate]
    rw [if_neg (by simp)]
    rw [cook_accumulate]
    rw [if_pos (by simp)]

/-- C7 counterexample: with two variants of equal (keyHash, stage) the
original spec sentence predicts the later one is dropped and the run
succeeds with the first entry only; the accumulation instead returns
the duplicate-entry error and succeeds with nothing. -/
theorem C7_no_silent_drop :
    cook_accumulate [{ keyHash := 7, stage := 1, blob := [1] },
        { keyHash := 7, stage := 1, blob := [2] }] [] [] ≠
      .ok [{ keyHash := 7, stage := 1, blob := [1] }] := by
  rw [cook_accumulate]
  rw [if_neg (by simp)]
  rw [cook_accumulate]
  rw [if_pos (by simp)]
  simp

theorem flatten_take_lt (cs : List (List Nat)) (hne : ∀ c ∈ cs, c ≠ []) :
    ∀ k < cs.length, ((cs.take k).flatten).length < cs.flatten.length := by
  induction cs with
  | nil => intro k hk; simp at hk
  | cons c cs ih =>
      intro k hk
      cases k with
      | zero =>
          simp only [List.take_zero, List.flatten_nil, List.length_nil,
            List.flatten_cons, List.length_append]
          have h1 : c ≠ [] := hne c (List.mem_cons_self _ _)
          have h2 : 0 < c.length := List.length_pos.mpr h1
          omega
      | succ k =>
          simp only [List.take_succ_cons, List.flatten_cons, List.length_append]
          have h3 := ih (fun x hx => hne x (List.mem_cons_of_mem _ hx)) k
            (by simp only [List.length_cons] at hk; omega)
          omega

theorem write_vslib_chunks_ne_nil (es : List ShaderLibraryEntry) (kw : List Nat)
    (chunks : List (List Nat))
    (hc : write_vslib_chunks es kw = .ok chunks) : ∀ c ∈ chunks, c ≠ [] := by
  unfold write_vslib_chunks at hc
  rcases htoc : buildVslibToc 56 (es.mergeSort entryLe) with e | tb
  · simp [htoc] at hc
  obtain ⟨toc, blob⟩ := tb
  simp only [htoc, Except.ok.injEq] at hc
  subst hc
  intro c hcm
  have hm8v : vshlibMagic.length = 8 := rfl
  have hhdr : (wVslibHeader toc.length (56 + blob.length) (toc.length * 32)
      (if kw.length > 0 then 56 + blob.length + toc.length * 32 else 0)
      kw.length).length = 56 := by
    simp [wVslibHeader, List.length_append, wU32, wU64, leBytes_length, hm8v]
  simp only [List.mem_append, List.mem_singleton] at hcm
  rcases hcm with ((h | h) | h) | h
  · subst h
    intro hnil
    rw [hnil] at hhdr
    simp at hhdr
  · by_cases hb : blob = [] <;> simp [hb] at h
    subst h
    exact hb
  · by_cases ht : toc = [] <;> simp [ht] at h
    subst h
    intro hnil
    have := flatMap_wTocEntry_length toc
    rw [hnil] at this
    simp at this
    rcases toc with _ | ⟨t, toc⟩
    · exact ht rfl
    · simp at this
  · by_cases hk : kw.length > 0 <;> simp [hk] at h
    subst h
    intro hnil
    rw [hnil] at hk
    simp at hk

/-- C8: the .vshlib writer is not atomic. write_vslib opens the
destination path directly and issues its write calls in sequence
(header, blob region, TOC, keywords); the bytes a concurrently opening
reader observes after k of those calls are exactly the flattened first
k chunks, and for every k short of the full sequence that observable
content is strictly shorter than the final file: partially written
library files are observable, contrary to the temp-file-plus-rename
discipline the spec describes. -/
theorem C8_write_not_atomic (es : List ShaderLibraryEntry) (kw : List Nat)
    (chunks : List (List Nat))
    (hc : write_vslib_chunks es kw = .ok chunks) :
    write_vslib es kw = .ok (vslibContentAfter chunks chunks.length) ∧
    ∀ k < chunks.length,
      (vslibContentAfter chunks k).length <
        (vslibContentAfter chunks chunks.length).length := by
  have hne := write_vslib_chunks_ne_nil es kw chunks hc
  constructor
  · unfold write_vslib
    rw [hc]
    unfold vslibContentAfter
    rw [List.take_length]
  · intro k hk
    unfold vslibContentAfter
    rw [List.take_length]
    exact flatten_take_lt chunks hne k hk

/-- The library fixture of the C8 witness: one vertex-stage entry. -/
def es8 : List ShaderLibraryEntry := [{ keyHash := 3, stage := 1, blob := [10, 20, 30] }]

/-- The write-call sequence write_vslib issues for es8 with no engine
keywords: 56-byte header, 3-byte blob region, one 32-byte TOC record. -/
def chunks8 : List (List Nat) :=
  [wVslibHeader 1 59 32 0 0, [10, 20, 30],
    wTocEntry { keyHash := 3, stage := 1, offset := 56, size := 3 }]

/-- C8 witness: the non-atomicity theorem applied to the concrete
one-entry library. -/
theorem C8_write_not_atomic_witness :
    write_vslib es8 [] = .ok (vslibContentAfter chunks8 chunks8.length) ∧
    ∀ k < chunks8.length,
      (vslibContentAfter chunks8 k).length <
        (vslibContentAfter chunks8 chunks8.length).length :=
  C8_write_not_atomic es8 [] chunks8 (by
    simp [write_vslib_chunks, List.mergeSort, buildVslibToc, es8, chunks8,
      stageUnknown])

/-- C8 counterexample: after the first write call (the header), a
reader that opens the file sees a 56-byte image that differs from the
final library and is rejected by read_vslib, so a partially written
file IS observable. -/
theorem C8_partial_file_observable :
    read_vslib (vslibContentAfter chunks8 1) = .error "VSHLIB TOC out of file range." ∧
    vslibContentAfter chunks8 1 ≠ chunks8.flatten := by
  constructor
  · decide
  · decide

/-- A minimal valid binary for the C4 witness. -/
def bin0 : ShaderBinary := { spirv := [0], stage := 1 }

/-- C4: the .vshbin codec round-trips every valid binary: decoding the
encoded bytes restores spirv, reflection, materialDesc, stage and the
four hashes exactly. Valid means the VBinary invariant: the fields fit
their wire widths, the stored SPIR-V hash is 0 or the words hash, and
the fields the format does not persist (reflection block member types,
the local-size triplet) hold their defaults - without that last
condition the round-trip fails (see the counterexample). -/
theorem C4_vshbin_roundtrip (b : ShaderBinary) (hv : VBinary b) (img : List Nat)
    (hw : write_vshbin b = .ok img) : read_vshbin img = .ok b :=
  read_write_vshbin b hv img hw

/-- C4 witness: the round-trip theorem applied to a concrete binary. -/
theorem C4_vshbin_roundtrip_witness :
    read_vshbin ((write_vshbin bin0).toOption.getD []) = .ok bin0 :=
  C4_vshbin_roundtrip bin0 (by decide) _ (by rfl)

/-- A binary whose reflection block has a member of type 2 (eFloat4):
the wire format does not persist the member type byte. -/
def binT : ShaderBinary :=
  { spirv := [0]
    stage := 1
    reflection :=
      { blocks := [{ name := bytes "Material"
                     set := 0
                     binding := 0
                     size := 4
                     stageFlags := 1
                     isPushConstant := false
                     members := [{ name := bytes "x", offset := 0, size := 4,
                                   type := 2 }] }] } }

/-- binT as the decoder reconstructs it: the member type reads back as
the default 0. -/
def binT2 : ShaderBinary :=
  { spirv := [0]
    stage := 1
    reflection :=
      { blocks := [{ name := bytes "Material"
                     set := 0
                     binding := 0
                     size := 4
                     stageFlags := 1
                     isPushConstant := false
                     members := [{ name := bytes "x", offset := 0, size := 4,
                                   type := 0 }] }] } }

/-- C4 counterexample: a binary whose block member has type 2 decodes
to the member type 0: serialize_reflection omits the member type (and
the local-size fields), so those fields do not round-trip and
decode(encode(b)) differs from b. -/
theorem C4_member_type_lost :
    read_vshbin ((write_vshbin binT).toOption.getD []) = .ok binT2 ∧ binT2 ≠ binT := by
  constructor
  · rw [show (write_vshbin binT).toOption.getD [] =
      (write_vshbin binT2).toOption.getD [] from rfl]
    exact read_write_vshbin binT2 (by decide) _ (by rfl)
  · decide

/-- The one-entry library image write_vslib produces for es8. -/
def img8 : List Nat :=
  wVslibHeader 1 59 32 0 0 ++
    ([10, 20, 30] ++
      (wTocEntry { keyHash := 3, stage := 1, offset := 56, size := 3 } ++ []))

/-- C6 witness: the library round-trip and lookup theorem applied to a
concrete one-entry library. -/
theorem C6_library_roundtrip_witness :
    read_vslib img8 = .ok
      { entries := [{ keyHash := 3, stage := 1, offset := 56, size := 3 }]
        blobData := [10, 20, 30]
        engineKeywordsVkw := [] } ∧
    ∀ e ∈ es8, extract_vslib_blob
      { entries := [{ keyHash := 3, stage := 1, offset := 56, size := 3 }]
        blobData := [10, 20, 30]
        engineKeywordsVkw := [] } e.keyHash e.stage = .ok e.blob :=
  read_write_vslib es8 []
    [{ keyHash := 3, stage := 1, offset := 56, size := 3 }] [10, 20, 30]
    (by simp [List.mergeSort, buildVslibToc, es8, stageUnknown])
    (by decide) (by decide) (by decide) (by decide)
    img8
    (by simp [write_vslib, write_vslib_chunks, List.mergeSort, buildVslibToc, es8,
      img8, stageUnknown, wVslibHeader, wTocEntry])

/-- C2: in a non-cached build that succeeds, the binary stores exactly
the hash compute_variant_hash produced for the parsed metadata - the
driver assigns variantHash unconditionally, whether or not the
metadata declares permutation keywords. (The original spec sentence
says variantHash is left 0 iff there are no permutation keywords; the
counterexample shows the stored value is nonzero with no keywords at
all.) -/
theorem C2_variant_hash_always_assigned (fops : FloatOps)
    (compile : SourceInput → CompileOptions → Except VErr CompileOut)
    (reflect : List Nat → Except VErr ShaderReflection)
    (cacheRead : Nat → Option ShaderBinary) (req : BuildRequest) (res : BuildResult)
    (hc : req.enableCache = false)
    (hb : build_shader fops compile reflect cacheRead req = .ok res) :
    ∃ meta vh,
      parse_vultra_metadata fops req.source.sourceText = .ok meta ∧
      compute_variant_hash meta req.options
        (if req.hasEngineKeywords then some req.engineKeywords else none)
        (xxh64 0 req.source.sourceText) = .ok vh ∧
      res.binary.variantHash = vh := by
  unfold build_shader at hb
  rcases hpm : parse_vultra_metadata fops req.source.sourceText with e | meta
  · simp [hpm] at hb
  simp only [hpm, hc, Bool.false_eq_true, if_false] at hb
  rcases hcm : compile req.source req.options with e | c
  · simp [hcm] at hb
  simp only [hcm] at hb
  rcases hrf : reflect c.spirv with e | r
  · simp [hrf] at hb
  simp only [hrf] at hb
  rcases hvh : compute_variant_hash meta req.options
      (if req.hasEngineKeywords then some req.engineKeywords else none)
      (xxh64 0 req.source.sourceText) with e | vh
  · simp [hvh] at hb
  simp only [hvh] at hb
  rcases hmd : validate_and_build_mdesc { materialBlockName := bytes "Material" }
      r meta with e | mdesc
  · simp [hmd] at hb
  simp only [hmd, Except.ok.injEq] at hb
  subst hb
  exact ⟨meta, vh, rfl, hvh, rfl⟩

/-- Stub compiler for the C2 fixture: one SPIR-V word. -/
def compile0 : SourceInput → CompileOptions → Except VErr CompileOut :=
  fun _ _ => .ok { spirv := [119734787] }

/-- Stub reflector for the C2 fixture: empty reflection. -/
def reflect0 : List Nat → Except VErr ShaderReflection := fun _ => .ok {}

/-- Stub cache for the C2 fixture: always a miss. -/
def cache0 : Nat → Option ShaderBinary := fun _ => none

/-- The C2 fixture request: empty source, vertex stage, cache off. -/
def req0 : BuildRequest := { source := { sourceText := [] }, options := { stage := 1 } }

/-- The result build_shader produces for the C2 fixture. -/
def res0 : BuildResult :=
  { binary := { contentHash := 17241709254077376921
                spirvHash := 10591667858976888419
                shaderIdHash := 0
                variantHash := 7479570773921368520
                stage := 1
                reflection := {}
                materialDesc := { materialBlockName := bytes "Material" }
                spirv := [119734787] }
    log := []
    fromCache := false }

theorem build_shader_req0 :
    build_shader fops0 compile0 reflect0 cache0 req0 = .ok res0 := by
  have hsl0 : srcLines [] = [] := by rw [srcLines]
  have hpm : parse_vultra_metadata fops0 ([] : List Nat) = .ok {} := by
    unfold parse_vultra_metadata
    rw [hsl0]
    rfl
  unfold build_shader
  simp only [req0, hpm]
  simp [compile0, reflect0, cache0, res0, compute_variant_hash,
    resolve_permutation_kvs, defineMap, List.mergeSort, validate_and_build_mdesc,
    mapFind?, xxh64_words, xxh64, xxStripes, xxTail8, xxTail1, xxAvalanche, xxRound,
    xxMerge, rotl64, xxPrime1, xxPrime2, xxPrime3, xxPrime4, xxPrime5, M64, leVal,
    leBytes, wU32, wU64, bytes]

/-- C2 witness: the assignment theorem applied to the concrete fixture
build. -/
theorem C2_variant_hash_witness :
    ∃ meta vh,
      parse_vultra_metadata fops0 req0.source.sourceText = .ok meta ∧
      compute_variant_hash meta req0.options
        (if req0.hasEngineKeywords then some req0.engineKeywords else none)
        (xxh64 0 req0.source.sourceText) = .ok vh ∧
      res0.binary.variantHash = vh :=
  C2_variant_hash_always_assigned fops0 compile0 reflect0 cache0 req0 res0
    (by rfl) build_shader_req0

/-- C2 counterexample: the fixture source declares no keywords at all,
yet the built binary carries the nonzero variant hash of the
empty-entry layout, so variantHash is not left 0 when there are no
permutation keywords. -/
theorem C2_nonzero_hash_without_keywords :
    (parse_vultra_metadata fops0 ([] : List Nat)).map (fun m => m.keywords) =
      .ok [] ∧
    build_shader fops0 compile0 reflect0 cache0 req0 = .ok res0 ∧
    res0.binary.variantHash ≠ 0 := by
  refine ⟨?_, build_shader_req0, by decide⟩
  have hsl0 : srcLines [] = [] := by rw [srcLines]
  unfold parse_vultra_metadata
  rw [hsl0]
  rfl

/-- Two library entries with the same (keyHash, stage) but different
blobs: valid by the original claim, which requires only a known stage
and a nonzero key hash. -/
def esd : List ShaderLibraryEntry :=
  [{ keyHash := 3, stage := 1, blob := [1] }, { keyHash := 3, stage := 1, blob := [2] }]

/-- The byte image write_vslib produces for esd. -/
def imgd : List Nat :=
  wVslibHeader 2 58 64 0 0 ++ [1, 2] ++
    wTocEntry { keyHash := 3, stage := 1, offset := 56, size := 1 } ++
    wTocEntry { keyHash := 3, stage := 1, offset := 57, size := 1 }

/-- The library read_vslib restores from imgd. -/
def libd : ShaderLibrary :=
  { entries := [{ keyHash := 3, stage := 1, offset := 56, size := 1 },
                { keyHash := 3, stage := 1, offset := 57, size := 1 }]
    blobData := [1, 2]
    engineKeywordsVkw := [] }

set_option maxRecDepth 4096 in
/-- C6 counterexample: with two entries sharing (keyHash, stage) - a
library the original claim deems valid - the write and read both
succeed, but the first-match lookup returns blob [1] for the key of
BOTH entries, so the second entry blob [2] is unreachable and the
per-entry lookup property of the claim fails. -/
theorem C6_duplicate_key_lookup_collision :
    (∀ e ∈ esd, e.stage ≠ stageUnknown ∧ e.keyHash ≠ 0) ∧
    write_vslib esd [] = .ok imgd ∧
    read_vslib imgd = .ok libd ∧
    esd.getD 1 {} = { keyHash := 3, stage := 1, blob := [2] } ∧
    extract_vslib_blob libd 3 1 = .ok [1] := by
  refine ⟨by decide, ?_, by decide, by decide, by decide⟩
  simp [write_vslib, write_vslib_chunks, List.mergeSort, buildVslibToc, esd, imgd,
    stageUnknown, entryLe, wVslibHeader, wTocEntry]

end VSS
